import Mathlib

/-!
# Qwt spline core (`src/qwt/src/qwt_spline.cpp`): embedding and verified properties

The C++ `double` is modelled by exact rationals `ℚ`.  Code that may index a
vector out of range, or whose `while` loop may fail to stop, runs in
`Except Fault`: an index that does not exist yields `Fault.outOfRange`, a loop
that exceeds its iteration budget yields `Fault.outOfFuel`.  The pure virtual
hooks (`bezierControlLines`, `slopes`, `curvatures`) are fields of the spline
records; they are fallible too, so a result that is independent of a hook is
obtained even for a hook that never returns.
-/

/-- Ways in which a run of the code can fail to deliver a value. -/
inductive Fault where
  | outOfRange
  | outOfFuel
  deriving DecidableEq, Repr

/-- Qt's `QPointF`: a pair of coordinates. -/
structure QPointF where
  x : ℚ
  y : ℚ
  deriving DecidableEq, Repr

/-- Qt's `QLineF`, used by the spline code as a pair of Bezier control points. -/
structure QLineF where
  p1 : QPointF
  p2 : QPointF
  deriving DecidableEq, Repr

/-- Qt's `QPolygonF`: a vector of points. -/
abbrev QPolygonF := List QPointF

/-- The calls recorded by a `QPainterPath`. -/
inductive PathElement where
  | moveTo (p : QPointF)
  | lineTo (p : QPointF)
  | cubicTo (c1 c2 e : QPointF)
  | closeSubpath
  deriving DecidableEq, Repr

/-- Qt's `QPainterPath`, as the sequence of drawing calls made on it. -/
abbrev QPainterPath := List PathElement

/-- Qt's `QPainterPath::addPolygon`: move to the first point, then a line to every further one. -/
def QPainterPath.addPolygon (path : QPainterPath) (points : QPolygonF) : QPainterPath :=
  match points with
  | [] => path
  | p :: rest => path ++ PathElement.moveTo p :: rest.map PathElement.lineTo

/-- Indexed read of a vector (`v[i]`, `constData()[i]`): fails when the index does not exist. -/
def readAt {α : Type} (xs : List α) (i : Nat) : Except Fault α :=
  match xs[i]? with
  | some a => .ok a
  | none => .error .outOfRange

/-- Indexed read with an `int` index that may be negative. -/
def readAtInt {α : Type} (xs : List α) (i : Int) : Except Fault α :=
  if i < 0 then .error .outOfRange else readAt xs i.toNat

/-- Counted loop `for ( int i = start; i < start + count; i++ ) body`. -/
def forLoop {σ : Type} (body : Nat → σ → Except Fault σ) : Nat → Nat → σ → Except Fault σ
  | 0, _, s => .ok s
  | count + 1, i, s =>
    match body i s with
    | .ok s1 => forLoop body count (i + 1) s1
    | .error e => .error e

/-- The loop `while ( cond ) body`, with a budget of iterations. -/
def whileLoop {σ : Type} (cond : σ → Bool) (body : σ → σ) : Nat → σ → Except Fault σ
  | 0, s => if cond s then .error .outOfFuel else .ok s
  | fuel + 1, s => if cond s then whileLoop cond body fuel (body s) else .ok s

/-- Qt's `qFuzzyCompare( double, double )` (not part of this repository):
`qAbs( p1 - p2 ) * 1000000000000. <= qMin( qAbs( p1 ), qAbs( p2 ) )`. -/
def qFuzzyCompare (p1 p2 : ℚ) : Bool :=
  decide (|p1 - p2| * 1000000000000 ≤ min |p1| |p2|)

/-- Source `qwtBezierPoint` (qwt_spline.cpp 14-26). -/
def qwtBezierPoint (p1 cp1 cp2 p2 : QPointF) (t : ℚ) : QPointF :=
  let d1 := 3 * t
  let d2 := 3 * t * t
  let d3 := t * t * t
  let s := 1 - t
  let x := ((s * p1.x + d1 * cp1.x) * s + d2 * cp2.x) * s + d3 * p2.x
  let y := ((s * p1.y + d1 * cp1.y) * s + d2 * cp2.y) * s + d3 * p2.y
  ⟨x, y⟩

/-- Modelled from the spec: `QwtSplinePolynomial` (qwt_spline_polynomial.h is not among the
sources).  Coefficients of one cubic segment in the local frame of its start point; the constant
term is implicit (the start value). -/
structure QwtSplinePolynomial where
  c3 : ℚ
  c2 : ℚ
  c1 : ℚ
  deriving DecidableEq, Repr

/-- Modelled from the spec: `QwtSplinePolynomial::valueAt`, the value `c1*t + c2*t² + c3*t³`
relative to the start value. -/
def QwtSplinePolynomial.valueAt (p : QwtSplinePolynomial) (x : ℚ) : ℚ :=
  ((p.c3 * x + p.c2) * x + p.c1) * x

/-- Modelled from the spec: `QwtSplinePolynomial::slopeAt`, `c1 + 2*c2*t + 3*c3*t²`. -/
def QwtSplinePolynomial.slopeAt (p : QwtSplinePolynomial) (x : ℚ) : ℚ :=
  (3 * p.c3 * x + 2 * p.c2) * x + p.c1

/-- Modelled from the spec: `QwtSplinePolynomial::curvatureAt`, `2*c2 + 6*c3*t`. -/
def QwtSplinePolynomial.curvatureAt (p : QwtSplinePolynomial) (x : ℚ) : ℚ :=
  6 * p.c3 * x + 2 * p.c2

/-- Modelled from the spec: `QwtSplinePolynomial::fromSlopes( dx, dy, m1, m2 )`, the cubic Hermite
polynomial with rise `dy` over run `dx` and slopes `m1`, `m2` at its ends. -/
def QwtSplinePolynomial.fromSlopesD (dx dy m1 m2 : ℚ) : QwtSplinePolynomial :=
  let c2 := (3 * dy / dx - 2 * m1 - m2) / dx
  let c3 := ((m2 - m1) / dx - 2 * c2) / (3 * dx)
  ⟨c3, c2, m1⟩

/-- Modelled from the spec: `QwtSplinePolynomial::fromSlopes( p1, m1, p2, m2 )`. -/
def QwtSplinePolynomial.fromSlopes (p1 : QPointF) (m1 : ℚ) (p2 : QPointF) (m2 : ℚ) :
    QwtSplinePolynomial :=
  QwtSplinePolynomial.fromSlopesD (p2.x - p1.x) (p2.y - p1.y) m1 m2

/-- Modelled from the spec: `QwtSplinePolynomial::fromCurvatures( dx, dy, cv1, cv2 )`, the cubic
with rise `dy` over run `dx` and curvatures `cv1`, `cv2` at its ends. -/
def QwtSplinePolynomial.fromCurvaturesD (dx dy cv1 cv2 : ℚ) : QwtSplinePolynomial :=
  let c3 := (cv2 - cv1) / (6 * dx)
  let c2 := cv1 / 2
  let c1 := dy / dx - (c3 * dx + c2) * dx
  ⟨c3, c2, c1⟩

/-- Modelled from the spec: `QwtSplinePolynomial::fromCurvatures( p1, cv1, p2, cv2 )`. -/
def QwtSplinePolynomial.fromCurvatures (p1 : QPointF) (cv1 : ℚ) (p2 : QPointF) (cv2 : ℚ) :
    QwtSplinePolynomial :=
  QwtSplinePolynomial.fromCurvaturesD (p2.x - p1.x) (p2.y - p1.y) cv1 cv2

/-- The parametrization types the spline code dispatches on. -/
inductive ParameterType where
  | ParameterX
  | ParameterY
  | ParameterUniform
  | ParameterCentripetal
  | ParameterChordal
  | ParameterManhattan
  | ParameterCustom
  deriving DecidableEq, Repr

/-- Modelled from the spec: `QwtSplineParametrization` (qwt_spline_parametrization.h is not among
the sources): its type, its virtual `valueIncrement` and the static increments named by the
functors `paramUniform`, `paramCentripetal` and `paramChordal`.  Chordal and centripetal
increments are square roots, so the increments are kept as parameters. -/
structure QwtSplineParametrization where
  type : ParameterType
  valueIncrement : QPointF → QPointF → ℚ
  valueIncrementUniform : QPointF → QPointF → ℚ
  valueIncrementCentripetal : QPointF → QPointF → ℚ
  valueIncrementChordal : QPointF → QPointF → ℚ

/-- The template parameter `SplineStore` of the path builders: the operations both stores offer.
`new` is the default constructor and `finish` the member `end()`. -/
class SplineStore (σ : Type) where
  new : σ
  init : σ → Nat → σ
  start : σ → ℚ → ℚ → σ
  addCubic : σ → ℚ → ℚ → ℚ → ℚ → ℚ → ℚ → Except Fault σ
  finish : σ → σ

namespace QwtSplineC1P

/-- Source `QwtSplineC1P::PathStore` (qwt_spline.cpp 85-110). -/
structure PathStore where
  path : QPainterPath
  deriving DecidableEq, Repr

/-- Source `QwtSplineC1P::ControlPointsStore` (qwt_spline.cpp 112-150).  The pointer `d_cp` is
kept as its offset into `controlPoints`. -/
structure ControlPointsStore where
  controlPoints : List QLineF
  d_cp : Nat
  deriving DecidableEq, Repr

/-- Source `ControlPointsStore::addCubic`: `QLineF &l = *d_cp++; l.setLine( ... )`.  Writing
through a pointer that has left the vector is a fault. -/
def ControlPointsStore.addCubic (s : ControlPointsStore) (cx1 cy1 cx2 cy2 : ℚ) :
    Except Fault ControlPointsStore :=
  if s.d_cp < s.controlPoints.length then
    .ok ⟨s.controlPoints.set s.d_cp ⟨⟨cx1, cy1⟩, ⟨cx2, cy2⟩⟩, s.d_cp + 1⟩
  else
    .error .outOfRange

end QwtSplineC1P

instance : SplineStore QwtSplineC1P.PathStore where
  new := ⟨[]⟩
  init s _ := s
  start s x1 y1 := ⟨s.path ++ [PathElement.moveTo ⟨x1, y1⟩]⟩
  addCubic s cx1 cy1 cx2 cy2 x2 y2 :=
    .ok ⟨s.path ++ [PathElement.cubicTo ⟨cx1, cy1⟩ ⟨cx2, cy2⟩ ⟨x2, y2⟩]⟩
  finish s := ⟨s.path ++ [PathElement.closeSubpath]⟩

instance : SplineStore QwtSplineC1P.ControlPointsStore where
  new := ⟨[], 0⟩
  init _ size := ⟨List.replicate size ⟨⟨0, 0⟩, ⟨0, 0⟩⟩, 0⟩
  start s _ _ := s
  addCubic s cx1 cy1 cx2 cy2 _ _ := s.addCubic cx1 cy1 cx2 cy2
  finish s := s

/-- The boundary conditions of `QwtSplineC1` (qwt_spline.h, with their numeric order, is not
among the sources; the order of the constructors here carries no meaning). -/
inductive BoundaryCondition where
  | Clamped
  | Clamped2
  | Clamped3
  | LinearRunout
  | Natural
  | ParabolicRunout
  | CubicRunout
  | NotAKnot
  deriving DecidableEq, Repr

/-- Source `QwtSplineC1::PrivateData` (qwt_spline.cpp 598-621): the boundary condition with its
two values. -/
structure PrivateData where
  type : BoundaryCondition
  value0 : ℚ
  value1 : ℚ
  deriving DecidableEq, Repr

/-- Base class `QwtSpline`: parametrization, closing flag and the pure virtual hook
`bezierControlLines`. -/
structure QwtSpline where
  d_parametrization : QwtSplineParametrization
  d_isClosing : Bool
  bezierControlLines : QPolygonF → Except Fault (List QLineF)

/-- Class `QwtSplineC1`: a spline with boundary conditions and the pure virtual hook `slopes`. -/
structure QwtSplineC1 where
  d_parametrization : QwtSplineParametrization
  d_isClosing : Bool
  d_data : PrivateData
  slopes : QPolygonF → Except Fault (List ℚ)

/-- Class `QwtSplineC2`: a C1 spline whose slopes come from the pure virtual hook `curvatures`. -/
structure QwtSplineC2 where
  d_parametrization : QwtSplineParametrization
  d_isClosing : Bool
  d_data : PrivateData
  curvatures : QPolygonF → Except Fault (List ℚ)

/-- Loop body of `qwtSplineC1PathParamX` (qwt_spline.cpp 170-177). -/
def qwtSplineC1PathParamX.body {σ : Type} [SplineStore σ] (pd : QPolygonF) (md : List ℚ)
    (i : Nat) (store : σ) : Except Fault σ := do
  let pi ← readAt pd i
  let pi1 ← readAt pd (i + 1)
  let mi ← readAt md i
  let mi1 ← readAt md (i + 1)
  let dx3 := (pi1.x - pi.x) / 3
  SplineStore.addCubic store (pi.x + dx3) (pi.y + mi * dx3)
    (pi1.x - dx3) (pi1.y - mi1 * dx3) pi1.x pi1.y

/-- Source `qwtSplineC1PathParamX` (qwt_spline.cpp 153-180). -/
def qwtSplineC1PathParamX (σ : Type) [SplineStore σ] (spline : QwtSplineC1)
    (points : QPolygonF) : Except Fault σ := do
  let n := points.length
  let m ← spline.slopes points
  if m.length ≠ n then
    return SplineStore.new
  let pd := points
  let md := m
  let store : σ := SplineStore.new
  let store := SplineStore.init store (m.length - 1)
  let p0 ← readAt pd 0
  let store := SplineStore.start store p0.x p0.y
  forLoop (qwtSplineC1PathParamX.body pd md) (n - 1) 0 store

/-- Loop body of `qwtSplineC1PathParamY` (qwt_spline.cpp 207-214). -/
def qwtSplineC1PathParamY.body {σ : Type} [SplineStore σ] (pd : QPolygonF) (md : List ℚ)
    (i : Nat) (store : σ) : Except Fault σ := do
  let pi ← readAt pd i
  let pi1 ← readAt pd (i + 1)
  let mi ← readAt md i
  let mi1 ← readAt md (i + 1)
  let dx3 := (pi1.x - pi.x) / 3
  SplineStore.addCubic store (pi.y + mi * dx3) (pi.x + dx3)
    (pi1.y - mi1 * dx3) (pi1.x - dx3) pi1.y pi1.x

/-- Source `qwtSplineC1PathParamY` (qwt_spline.cpp 182-217). -/
def qwtSplineC1PathParamY (σ : Type) [SplineStore σ] (spline : QwtSplineC1)
    (points : QPolygonF) : Except Fault σ := do
  let n := points.length
  let pointsFlipped : QPolygonF := points.map (fun p => ⟨p.y, p.x⟩)
  let m ← spline.slopes pointsFlipped
  if m.length ≠ n then
    return SplineStore.new
  let pd := pointsFlipped
  let md := m
  let store : σ := SplineStore.new
  let store := SplineStore.init store (m.length - 1)
  let p0 ← readAt pd 0
  let store := SplineStore.start store p0.y p0.x
  forLoop (qwtSplineC1PathParamY.body pd md) (n - 1) 0 store

/-- First loop of `qwtSplineC1PathParametric` (qwt_spline.cpp 231-237): extends the auxiliary
polygons `px`, `py` and the running parameter `t` by point `i`. -/
def qwtSplineC1PathParametric.aux (param : QPointF → QPointF → ℚ) (points : QPolygonF)
    (i : Nat) (st : QPolygonF × QPolygonF × ℚ) : Except Fault (QPolygonF × QPolygonF × ℚ) := do
  let pim1 ← readAt points (i - 1)
  let pi ← readAt points i
  let t := st.2.2 + param pim1 pi
  return (st.1 ++ [⟨t, pi.x⟩], st.2.1 ++ [⟨t, pi.y⟩], t)

/-- Second loop of `qwtSplineC1PathParametric` (qwt_spline.cpp 256-271). -/
def qwtSplineC1PathParametric.body {σ : Type} [SplineStore σ] (param : QPointF → QPointF → ℚ)
    (points : QPolygonF) (mx my : List ℚ) (i : Nat) (store : σ) : Except Fault σ := do
  let pim1 ← readAt points (i - 1)
  let pi ← readAt points i
  let t3 := param pim1 pi / 3
  let mxim1 ← readAt mx (i - 1)
  let cx1 := pim1.x + mxim1 * t3
  let myim1 ← readAt my (i - 1)
  let cy1 := pim1.y + myim1 * t3
  let mxi ← readAt mx i
  let cx2 := pi.x - mxi * t3
  let myi ← readAt my i
  let cy2 := pi.y - myi * t3
  SplineStore.addCubic store cx1 cy1 cx2 cy2 pi.x pi.y

/-- Closing part of `qwtSplineC1PathParametric` (qwt_spline.cpp 273-285). -/
def qwtSplineC1PathParametric.closing {σ : Type} [SplineStore σ]
    (param : QPointF → QPointF → ℚ) (points : QPolygonF) (mx my : List ℚ) (store : σ) :
    Except Fault σ := do
  let n := points.length
  let pn1 ← readAt points (n - 1)
  let p0 ← readAt points 0
  let t3 := param pn1 p0 / 3
  let mxn ← readAt mx n
  let cx1 := pn1.x + mxn * t3
  let myn ← readAt my n
  let cy1 := pn1.y + myn * t3
  let mx0 ← readAt mx 0
  let cx2 := p0.x - mx0 * t3
  let my0 ← readAt my 0
  let cy2 := p0.y - my0 * t3
  let store ← SplineStore.addCubic store cx1 cy1 cx2 cy2 p0.x p0.y
  return SplineStore.finish store

/-- Source `qwtSplineC1PathParametric` (qwt_spline.cpp 219-288). -/
def qwtSplineC1PathParametric (σ : Type) [SplineStore σ] (spline : QwtSplineC1)
    (points : QPolygonF) (param : QPointF → QPointF → ℚ) : Except Fault σ := do
  let n := points.length
  let p0 ← readAt points 0
  let px : QPolygonF := [⟨0, p0.x⟩]
  let py : QPolygonF := [⟨0, p0.y⟩]
  let (px, py, t) ← forLoop (qwtSplineC1PathParametric.aux param points) (n - 1) 1 (px, py, 0)
  let (px, py) ←
    if spline.d_isClosing then do
      let pn1 ← readAt points (n - 1)
      let t := t + param pn1 p0
      pure (px ++ [(⟨t, p0.x⟩ : QPointF)], py ++ [(⟨t, p0.y⟩ : QPointF)])
    else
      pure (px, py)
  let mx ← spline.slopes px
  let my ← spline.slopes py
  let store : σ := SplineStore.new
  let store := SplineStore.init store (n - 1)
  let store := SplineStore.start store p0.x p0.y
  let store ← forLoop (qwtSplineC1PathParametric.body param points mx my) (n - 1) 1 store
  if spline.d_isClosing then
    qwtSplineC1PathParametric.closing param points mx my store
  else
    return store

/-- Source `QwtSpline::painterPath` (qwt_spline.cpp 450-488). -/
def QwtSpline.painterPath (spline : QwtSpline) (points : QPolygonF) :
    Except Fault QPainterPath := do
  let n := points.length
  let path : QPainterPath := []
  if n = 0 then
    return path
  if n = 1 then
    let p0 ← readAt points 0
    return path ++ [PathElement.moveTo p0]
  if n = 2 then
    return QPainterPath.addPolygon path points
  let controlPoints ← spline.bezierControlLines points
  if controlPoints.length < n - 1 then
    return path
  let p := points
  let l := controlPoints
  let p0 ← readAt p 0
  let path := path ++ [PathElement.moveTo p0]
  let path ← forLoop (fun i (path : QPainterPath) => do
      let li ← readAt l i
      let pi1 ← readAt p (i + 1)
      return path ++ [PathElement.cubicTo li.p1 li.p2 pi1]) (n - 1) 0 path
  if controlPoints.length ≥ n then
    let ln1 ← readAt l (n - 1)
    return path ++ [PathElement.cubicTo ln1.p1 ln1.p2 p0, PathElement.closeSubpath]
  return path

/-- Dispatch on the parametrization type shared by `QwtSplineC1::painterPath` and
`QwtSplineC1::bezierControlLines` (qwt_spline.cpp 818-853 and 876-911). -/
def QwtSplineC1.dispatch (σ : Type) [SplineStore σ] (spline : QwtSplineC1)
    (points : QPolygonF) : Except Fault σ :=
  match spline.d_parametrization.type with
  | .ParameterX => qwtSplineC1PathParamX σ spline points
  | .ParameterY => qwtSplineC1PathParamY σ spline points
  | .ParameterUniform =>
    qwtSplineC1PathParametric σ spline points spline.d_parametrization.valueIncrementUniform
  | .ParameterCentripetal =>
    qwtSplineC1PathParametric σ spline points spline.d_parametrization.valueIncrementCentripetal
  | .ParameterChordal =>
    qwtSplineC1PathParametric σ spline points spline.d_parametrization.valueIncrementChordal
  | _ => qwtSplineC1PathParametric σ spline points spline.d_parametrization.valueIncrement

/-- Source `QwtSplineC1::bezierControlLines` (qwt_spline.cpp 867-914). -/
def QwtSplineC1.bezierControlLines (spline : QwtSplineC1) (points : QPolygonF) :
    Except Fault (List QLineF) := do
  let n := points.length
  if n ≤ 2 then
    return []
  let store ← QwtSplineC1.dispatch QwtSplineC1P.ControlPointsStore spline points
  return store.controlPoints

/-- The `QwtSpline` part of a `QwtSplineC1` object: the hook `bezierControlLines` is bound to
`QwtSplineC1::bezierControlLines`. -/
def QwtSplineC1.toQwtSpline (spline : QwtSplineC1) : QwtSpline :=
  { d_parametrization := spline.d_parametrization
    d_isClosing := spline.d_isClosing
    bezierControlLines := spline.bezierControlLines }

/-- Source `QwtSplineC1::painterPath` (qwt_spline.cpp 809-856). -/
def QwtSplineC1.painterPath (spline : QwtSplineC1) (points : QPolygonF) :
    Except Fault QPainterPath := do
  let n := points.length
  if n ≤ 2 then
    spline.toQwtSpline.painterPath points
  else
    let store ← QwtSplineC1.dispatch QwtSplineC1P.PathStore spline points
    return store.path

/-- The statement `if ( qFuzzyCompare( path.last().x(), p.x() ) ) path.last() = p; else path += p;`
(qwt_spline.cpp 321-324, 554-557, 579-582). -/
def snapOrAppend (path : QPolygonF) (p : QPointF) : Except Fault QPolygonF :=
  match path.getLast? with
  | none => .error .outOfRange
  | some q => if qFuzzyCompare q.x p.x then .ok (path.dropLast ++ [p]) else .ok (path ++ [p])

/-- Body of the segment loop of `qwtPolygonParametric` (qwt_spline.cpp 304-330); the state is
`( fittedPoints, t )`. -/
def qwtPolygonParametric.body
    (toPolynomial : QPointF → ℚ → QPointF → ℚ → QwtSplinePolynomial)
    (fuel : Nat) (distance : ℚ) (p : QPolygonF) (v : List ℚ) (withNodes : Bool)
    (i : Nat) (st : QPolygonF × ℚ) : Except Fault (QPolygonF × ℚ) := do
  let p1 ← readAt p i
  let p2 ← readAt p (i + 1)
  let vi ← readAt v i
  let vi1 ← readAt v (i + 1)
  let polynomial := toPolynomial p1 vi p2 vi1
  let l := p2.x - p1.x
  let st ← whileLoop (fun s : QPolygonF × ℚ => decide (s.2 < l))
    (fun s => (s.1 ++ [⟨p1.x + s.2, p1.y + polynomial.valueAt s.2⟩], s.2 + distance)) fuel st
  if withNodes then
    let fittedPoints ← snapOrAppend st.1 p2
    return (fittedPoints, st.2)
  else
    return (st.1, st.2 - l)

/-- Source `qwtPolygonParametric` (qwt_spline.cpp 290-333); `fuel` bounds the iterations of each
run of the inner `while` loop. -/
def qwtPolygonParametric (toPolynomial : QPointF → ℚ → QPointF → ℚ → QwtSplinePolynomial)
    (fuel : Nat) (distance : ℚ) (points : QPolygonF) (values : List ℚ) (withNodes : Bool) :
    Except Fault QPolygonF := do
  let p := points
  let v := values
  let p0 ← readAt p 0
  let fittedPoints : QPolygonF := [p0]
  let t := distance
  let n := points.length
  let st ← forLoop (qwtPolygonParametric.body toPolynomial fuel distance p v withNodes)
    (n - 1) 0 (fittedPoints, t)
  return st.1

/-- Body of the segment loop of `QwtSpline::equidistantPolygon` (qwt_spline.cpp 540-565); the
state is `( path, t )`. -/
def QwtSpline.equidistantPolygon.body (spline : QwtSpline) (fuel : Nat) (distance : ℚ)
    (p : QPolygonF) (cl : List QLineF) (withNodes : Bool)
    (i : Nat) (st : QPolygonF × ℚ) : Except Fault (QPolygonF × ℚ) := do
  let pi ← readAt p i
  let pi1 ← readAt p (i + 1)
  let l := spline.d_parametrization.valueIncrement pi pi1
  let cli ← readAt cl i
  let st ← whileLoop (fun s : QPolygonF × ℚ => decide (s.2 < l))
    (fun s => (s.1 ++ [qwtBezierPoint pi cli.p1 cli.p2 pi1 (s.2 / l)], s.2 + distance)) fuel st
  if withNodes then
    let path ← snapOrAppend st.1 pi1
    return (path, distance)
  else
    return (st.1, st.2 - l)

/-- Closing part of `QwtSpline::equidistantPolygon` (qwt_spline.cpp 567-583). -/
def QwtSpline.equidistantPolygon.closing (spline : QwtSpline) (fuel : Nat) (distance : ℚ)
    (p : QPolygonF) (cl : List QLineF) (st : QPolygonF × ℚ) : Except Fault QPolygonF := do
  let n := p.length
  let pn1 ← readAt p (n - 1)
  let p0 ← readAt p 0
  let l := spline.d_parametrization.valueIncrement pn1 p0
  let cln1 ← readAt cl (n - 1)
  let st ← whileLoop (fun s : QPolygonF × ℚ => decide (s.2 < l))
    (fun s => (s.1 ++ [qwtBezierPoint pn1 cln1.p1 cln1.p2 p0 (s.2 / l)], s.2 + distance)) fuel st
  snapOrAppend st.1 p0

/-- Source `QwtSpline::equidistantPolygon` (qwt_spline.cpp 511-586); `fuel` bounds the iterations
of each run of an inner `while` loop. -/
def QwtSpline.equidistantPolygon (spline : QwtSpline) (fuel : Nat) (points : QPolygonF)
    (distance : ℚ) (withNodes : Bool) : Except Fault QPolygonF := do
  if distance ≤ 0 then
    return []
  let n := points.length
  if n ≤ 1 then
    return points
  if n = 2 then
    return points
  let path : QPolygonF := []
  let controlLines ← spline.bezierControlLines points
  if controlLines.length < n - 1 then
    return path
  let first ← readAt points 0
  let path := path ++ [first]
  let t := distance
  let p := points
  let cl := controlLines
  let st ← forLoop (QwtSpline.equidistantPolygon.body spline fuel distance p cl withNodes)
    (n - 1) 0 (path, t)
  if spline.d_isClosing && decide (controlLines.length ≥ n) then
    QwtSpline.equidistantPolygon.closing spline fuel distance p cl st
  else
    return st.1

/-- Class `QwtSplineG1` declares no `equidistantPolygon` of its own in this file, so
`QwtSplineG1::equidistantPolygon` is the inherited `QwtSpline::equidistantPolygon`. -/
def QwtSplineG1.equidistantPolygon (spline : QwtSpline) (fuel : Nat) (points : QPolygonF)
    (distance : ℚ) (withNodes : Bool) : Except Fault QPolygonF :=
  spline.equidistantPolygon fuel points distance withNodes

/-- Source `QwtSplineC1::equidistantPolygon` (qwt_spline.cpp 916-933). -/
def QwtSplineC1.equidistantPolygon (spline : QwtSplineC1) (fuel : Nat) (points : QPolygonF)
    (distance : ℚ) (withNodes : Bool) : Except Fault QPolygonF := do
  if spline.d_parametrization.type = ParameterType.ParameterX ∧ points.length > 2 then
    let m ← spline.slopes points
    if m.length ≠ points.length then
      return []
    qwtPolygonParametric QwtSplinePolynomial.fromSlopes fuel distance points m withNodes
  else
    QwtSplineG1.equidistantPolygon spline.toQwtSpline fuel points distance withNodes

/-- Source `QwtSplineC1::polynomials` (qwt_spline.cpp 935-951). -/
def QwtSplineC1.polynomials (spline : QwtSplineC1) (points : QPolygonF) :
    Except Fault (List QwtSplinePolynomial) := do
  let polynomials : List QwtSplinePolynomial := []
  let m ← spline.slopes points
  if m.length < 2 then
    return polynomials
  forLoop (fun i (polynomials : List QwtSplinePolynomial) => do
      let pim1 ← readAt points (i - 1)
      let mim1 ← readAt m (i - 1)
      let pi ← readAt points i
      let mi ← readAt m i
      return polynomials ++ [QwtSplinePolynomial.fromSlopes pim1 mim1 pi mi])
    (m.length - 1) 1 polynomials

/-- Loop body of `QwtSplineC2::slopes` (qwt_spline.cpp 1031-1035); the state is
`( slopes, polynomial )`. -/
def QwtSplineC2.slopes.body (p : QPolygonF) (cv : List ℚ) (i : Nat)
    (st : List ℚ × QwtSplinePolynomial) : Except Fault (List ℚ × QwtSplinePolynomial) := do
  let pi ← readAt p i
  let cvi ← readAt cv i
  let pi1 ← readAt p (i + 1)
  let cvi1 ← readAt cv (i + 1)
  let polynomial := QwtSplinePolynomial.fromCurvatures pi cvi pi1 cvi1
  if i < st.1.length then
    return (st.1.set i polynomial.c1, polynomial)
  else
    throw Fault.outOfRange

/-- Source `QwtSplineC2::slopes` (qwt_spline.cpp 1015-1040).  The indices `n - 1` and `n - 2` of
the last assignment are `int` expressions and may be negative. -/
def QwtSplineC2.slopes (spline : QwtSplineC2) (points : QPolygonF) :
    Except Fault (List ℚ) := do
  let curvatures ← spline.curvatures points
  if curvatures.length < 2 then
    return []
  let slopes : List ℚ := List.replicate curvatures.length 0
  let cv := curvatures
  let n := points.length
  let p := points
  let polynomial : QwtSplinePolynomial := ⟨0, 0, 0⟩
  let (slopes, polynomial) ← forLoop (QwtSplineC2.slopes.body p cv) (n - 1) 0 (slopes, polynomial)
  let pn1 ← readAtInt p ((n : Int) - 1)
  let pn2 ← readAtInt p ((n : Int) - 2)
  if 1 ≤ n ∧ n - 1 < slopes.length then
    return slopes.set (n - 1) (polynomial.slopeAt (pn1.x - pn2.x))
  else
    throw Fault.outOfRange

/-- Source `QwtSplineC2::polynomials` (qwt_spline.cpp 1042-1061). -/
def QwtSplineC2.polynomials (spline : QwtSplineC2) (points : QPolygonF) :
    Except Fault (List QwtSplinePolynomial) := do
  let polynomials : List QwtSplinePolynomial := []
  let curvatures ← spline.curvatures points
  if curvatures.length < 2 then
    return polynomials
  let p := points
  let cv := curvatures
  let n := curvatures.length
  forLoop (fun i (polynomials : List QwtSplinePolynomial) => do
      let pim1 ← readAt p (i - 1)
      let cvim1 ← readAt cv (i - 1)
      let pi ← readAt p i
      let cvi ← readAt cv i
      return polynomials ++ [QwtSplinePolynomial.fromCurvatures pim1 cvim1 pi cvi])
    (n - 1) 1 polynomials

/-- The `QwtSplineC1` part of a `QwtSplineC2` object: the hook `slopes` is bound to
`QwtSplineC2::slopes`. -/
def QwtSplineC2.toQwtSplineC1 (spline : QwtSplineC2) : QwtSplineC1 :=
  { d_parametrization := spline.d_parametrization
    d_isClosing := spline.d_isClosing
    d_data := spline.d_data
    slopes := spline.slopes }

/-- Source `QwtSplineC2::equidistantPolygon` (qwt_spline.cpp 996-1013). -/
def QwtSplineC2.equidistantPolygon (spline : QwtSplineC2) (fuel : Nat) (points : QPolygonF)
    (distance : ℚ) (withNodes : Bool) : Except Fault QPolygonF := do
  if spline.d_parametrization.type = ParameterType.ParameterX ∧ points.length > 2 then
    let cv ← spline.curvatures points
    if cv.length ≠ points.length then
      return []
    qwtPolygonParametric QwtSplinePolynomial.fromCurvatures fuel distance points cv withNodes
  else
    spline.toQwtSplineC1.equidistantPolygon fuel points distance withNodes

/-- Source `QwtSplineC2::painterPath` (qwt_spline.cpp 971-977). -/
def QwtSplineC2.painterPath (spline : QwtSplineC2) (points : QPolygonF) :
    Except Fault QPainterPath :=
  spline.toQwtSplineC1.painterPath points

/-- Source `QwtSplineC2::bezierControlLines` (qwt_spline.cpp 988-994). -/
def QwtSplineC2.bezierControlLines (spline : QwtSplineC2) (points : QPolygonF) :
    Except Fault (List QLineF) :=
  spline.toQwtSplineC1.bezierControlLines points

/-- Source `QwtSplineC1::PrivateData::setBoundaryCondition` (qwt_spline.cpp 607-613). -/
def PrivateData.setBoundaryCondition (_d : PrivateData) (condition : BoundaryCondition)
    (valueStart valueEnd : ℚ) : PrivateData :=
  { type := condition, value0 := valueStart, value1 := valueEnd }

/-- Source `QwtSplineC1::boundaryCondition` (qwt_spline.cpp 643-646). -/
def QwtSplineC1.boundaryCondition (spline : QwtSplineC1) : BoundaryCondition :=
  spline.d_data.type

/-- Source `QwtSplineC1::boundaryValueBegin` (qwt_spline.cpp 653-656). -/
def QwtSplineC1.boundaryValueBegin (spline : QwtSplineC1) : ℚ :=
  spline.d_data.value0

/-- Source `QwtSplineC1::boundaryValueEnd` (qwt_spline.cpp 658-661). -/
def QwtSplineC1.boundaryValueEnd (spline : QwtSplineC1) : ℚ :=
  spline.d_data.value1

/-- Source `QwtSplineC1::setBoundaryConditions` (qwt_spline.cpp 635-641).  The numeric order of
the enumeration, on which `condition >= Natural` depends, is declared in the missing header and
is taken as the parameter `order`. -/
def QwtSplineC1.setBoundaryConditions (order : BoundaryCondition → Nat) (spline : QwtSplineC1)
    (condition : BoundaryCondition) : QwtSplineC1 :=
  if order condition ≥ order BoundaryCondition.Natural then
    { spline with d_data := (spline.d_data.setBoundaryCondition condition 0 0) }
  else
    { spline with d_data := (spline.d_data.setBoundaryCondition condition
        spline.boundaryValueBegin spline.boundaryValueEnd) }

/-- Source `QwtSplineC1::setBoundaryValues` (qwt_spline.cpp 648-651). -/
def QwtSplineC1.setBoundaryValues (spline : QwtSplineC1) (valueBegin valueEnd : ℚ) :
    QwtSplineC1 :=
  { spline with d_data := (spline.d_data.setBoundaryCondition spline.boundaryCondition
      valueBegin valueEnd) }

/-- The `switch` of `QwtSplineC1::slopeBegin` (qwt_spline.cpp 688-719): the curvature `cv1` for
the first point, from the curvature `cv2` at the second point and the cubic `pnom` of the second
segment. -/
def QwtSplineC1.slopeBegin.cv1 (spline : QwtSplineC1) (boundaryValue cv2 : ℚ)
    (pnom : QwtSplinePolynomial) : ℚ :=
  match spline.boundaryCondition with
  | .Clamped2 => boundaryValue
  | .Clamped3 => cv2 - 6 * boundaryValue
  | .NotAKnot => cv2 - 6 * pnom.c3
  | .ParabolicRunout => cv2
  | .CubicRunout => 2 * cv2 - pnom.curvatureAt 1
  | _ => 0

/-- The part of `QwtSplineC1::slopeBegin` that builds `pnomBegin`, the cubic over the first
segment (qwt_spline.cpp 683-723), from the run `dx` and rise `dy` of that segment. -/
def QwtSplineC1.slopeBegin.pnomBegin (spline : QwtSplineC1) (points : QPolygonF) (m1 m2 : ℚ)
    (dx dy : ℚ) : Except Fault QwtSplinePolynomial := do
  let boundaryValue := spline.d_data.value0
  let p1 ← readAt points 1
  let p2 ← readAt points 2
  let pnom := QwtSplinePolynomial.fromSlopes p1 m1 p2 m2
  let cv2 := pnom.curvatureAt 0
  let cv1 := QwtSplineC1.slopeBegin.cv1 spline boundaryValue cv2 pnom
  return QwtSplinePolynomial.fromCurvaturesD dx dy cv1 cv2

/-- Source `QwtSplineC1::slopeBegin` (qwt_spline.cpp 663-726). -/
def QwtSplineC1.slopeBegin (spline : QwtSplineC1) (points : QPolygonF) (m1 m2 : ℚ) :
    Except Fault ℚ := do
  let size := points.length
  if size < 2 then
    return 0
  let boundaryValue := spline.d_data.value0
  if spline.boundaryCondition = BoundaryCondition.Clamped then
    return boundaryValue
  let p1 ← readAt points 1
  let p0 ← readAt points 0
  let dx := p1.x - p0.x
  let dy := p1.y - p0.y
  if spline.boundaryCondition = BoundaryCondition.LinearRunout then
    let s := dy / dx
    return s - boundaryValue * (s - m1)
  let pnomBegin ← QwtSplineC1.slopeBegin.pnomBegin spline points m1 m2 dx dy
  return pnomBegin.slopeAt 0

/-- The `switch` of `QwtSplineC1::slopeEnd` (qwt_spline.cpp 753-784): the curvature `cv2` for the
last point, from the curvature `cv1` at the point before it and the cubic `pnom` of the segment
before the last. -/
def QwtSplineC1.slopeEnd.cv2 (spline : QwtSplineC1) (boundaryValue cv1 : ℚ)
    (pnom : QwtSplinePolynomial) : ℚ :=
  match spline.boundaryCondition with
  | .Clamped2 => boundaryValue
  | .NotAKnot => cv1 - 6 * pnom.c3
  | .Clamped3 => cv1 - 6 * boundaryValue
  | .ParabolicRunout => cv1
  | .CubicRunout => 2 * cv1 - pnom.curvatureAt 0
  | _ => 0

/-- The part of `QwtSplineC1::slopeEnd` that builds `pnomEnd`, the cubic over the last segment
(qwt_spline.cpp 748-787), from the run `dx` and rise `dy` of that segment.  The index `size - 3`
is an `int` expression and may be negative. -/
def QwtSplineC1.slopeEnd.pnomEnd (spline : QwtSplineC1) (points : QPolygonF) (m1 m2 : ℚ)
    (dx dy : ℚ) : Except Fault QwtSplinePolynomial := do
  let size := points.length
  let boundaryValue := spline.d_data.value1
  let p3 ← readAtInt points ((size : Int) - 3)
  let p2 ← readAtInt points ((size : Int) - 2)
  let pnom := QwtSplinePolynomial.fromSlopes p3 m1 p2 m2
  let cv1 := pnom.curvatureAt (p2.x - p3.x)
  let cv2 := QwtSplineC1.slopeEnd.cv2 spline boundaryValue cv1 pnom
  return QwtSplinePolynomial.fromCurvaturesD dx dy cv1 cv2

/-- Source `QwtSplineC1::slopeEnd` (qwt_spline.cpp 728-790). -/
def QwtSplineC1.slopeEnd (spline : QwtSplineC1) (points : QPolygonF) (m1 m2 : ℚ) :
    Except Fault ℚ := do
  let size := points.length
  if size < 2 then
    return 0
  let boundaryValue := spline.d_data.value1
  if spline.boundaryCondition = BoundaryCondition.Clamped then
    return boundaryValue
  let pl ← readAtInt points ((size : Int) - 1)
  let pl2 ← readAtInt points ((size : Int) - 2)
  let dx := pl.x - pl2.x
  let dy := pl.y - pl2.y
  if spline.boundaryCondition = BoundaryCondition.LinearRunout then
    let s := dy / dx
    return s - boundaryValue * (s - m1)
  let pnomEnd ← QwtSplineC1.slopeEnd.pnomEnd spline points m1 m2 dx dy
  return pnomEnd.slopeAt dx

/-! ## Concrete objects used to evaluate the code -/

/-- A parametrization object of type X, Y or uniform: its `valueIncrement` is the x difference,
the y difference, or 1.  The chordal and centripetal increments, which no example evaluates, are
set to 1 as well. -/
def exParam (ty : ParameterType) : QwtSplineParametrization :=
  { type := ty
    valueIncrement := fun p1 p2 =>
      match ty with
      | .ParameterX => p2.x - p1.x
      | .ParameterY => p2.y - p1.y
      | _ => 1
    valueIncrementUniform := fun _ _ => 1
    valueIncrementCentripetal := fun _ _ => 1
    valueIncrementChordal := fun _ _ => 1 }

/-- A C1 spline whose `slopes` hook returns the slope 0 for every point. -/
def exSplineC1 (ty : ParameterType) (closing : Bool) : QwtSplineC1 :=
  { d_parametrization := exParam ty
    d_isClosing := closing
    d_data := ⟨BoundaryCondition.Natural, 0, 0⟩
    slopes := fun q => .ok (q.map (fun _ => 0)) }

/-- Three control points with increasing x. -/
def exPoints : QPolygonF := [⟨0, 0⟩, ⟨1, 1⟩, ⟨2, 0⟩]

/-- A base spline with uniform parametrization whose `bezierControlLines` hook returns the given
lines for every input. -/
def exSpline (closing : Bool) (lines : List QLineF) : QwtSpline :=
  { d_parametrization := exParam ParameterType.ParameterUniform
    d_isClosing := closing
    bezierControlLines := fun _ => .ok lines }

/-- A C2 spline with X parametrization whose `curvatures` hook returns the given values for every
input. -/
def exSplineC2 (cv : List ℚ) : QwtSplineC2 :=
  { d_parametrization := exParam ParameterType.ParameterX
    d_isClosing := false
    d_data := ⟨BoundaryCondition.Natural, 0, 0⟩
    curvatures := fun _ => .ok cv }

/-- A C1 spline whose `slopes` hook returns the given values for every input, whatever the
number of points. -/
def exSplineC1With (ty : ParameterType) (closing : Bool) (m : List ℚ) : QwtSplineC1 :=
  { d_parametrization := exParam ty
    d_isClosing := closing
    d_data := ⟨BoundaryCondition.Natural, 0, 0⟩
    slopes := fun _ => .ok m }

/-- A base spline whose hook never returns. -/
def exStuckSpline (ty : ParameterType) (closing : Bool) : QwtSpline :=
  { d_parametrization := exParam ty
    d_isClosing := closing
    bezierControlLines := fun _ => .error .outOfFuel }

/-- A C1 spline whose hook never returns. -/
def exStuckSplineC1 (ty : ParameterType) (closing : Bool) : QwtSplineC1 :=
  { d_parametrization := exParam ty
    d_isClosing := closing
    d_data := ⟨BoundaryCondition.Natural, 0, 0⟩
    slopes := fun _ => .error .outOfFuel }

/-- A C2 spline whose hook never returns. -/
def exStuckSplineC2 (ty : ParameterType) (closing : Bool) : QwtSplineC2 :=
  { d_parametrization := exParam ty
    d_isClosing := closing
    d_data := ⟨BoundaryCondition.Natural, 0, 0⟩
    curvatures := fun _ => .error .outOfFuel }

/-- The `i`-th point of a polygon, with a default outside of it (used only in statements). -/
def QPolygonF.nth (p : QPolygonF) (i : Nat) : QPointF := p.getD i ⟨0, 0⟩

/-- The point with abscissa `x` on segment `i` of the piecewise polynomial through `p` built by
`toPolynomial` from the values `v`: `x` lies in `[p[i].x, p[i+1].x)` and the ordinate is
`p[i].y + P_i( x - p[i].x )`. -/
def OnSegment (toPolynomial : QPointF → ℚ → QPointF → ℚ → QwtSplinePolynomial)
    (p : QPolygonF) (v : List ℚ) (i : Nat) (x : ℚ) (q : QPointF) : Prop :=
  (p.nth i).x ≤ x ∧ x < (p.nth (i + 1)).x ∧
  q = ⟨x, (p.nth i).y +
    (toPolynomial (p.nth i) (v.getD i 0) (p.nth (i + 1)) (v.getD (i + 1) 0)).valueAt
      (x - (p.nth i).x)⟩

/-- Invariant of the segment loop of `qwtPolygonParametric` without nodes, before segment `j`,
for the state `( fittedPoints, t )`: the `k`-th point so far has abscissa `p[0].x + k * d` and lies
on the curve, and `t` is the distance from `p[j]` to the next sample. -/
def ParametricInv (toPolynomial : QPointF → ℚ → QPointF → ℚ → QwtSplinePolynomial)
    (d : ℚ) (p : QPolygonF) (v : List ℚ) (j : Nat) (st : QPolygonF × ℚ) : Prop :=
  1 ≤ st.1.length ∧
  st.2 + ((p.nth j).x - (p.nth 0).x) = st.1.length * d ∧
  0 ≤ st.2 ∧ st.2 ≤ d ∧ (1 ≤ j → st.2 < d) ∧
  ∀ k, k < st.1.length → ∃ i q, i + 1 < p.length ∧ st.1[k]? = some q ∧
    OnSegment toPolynomial p v i ((p.nth 0).x + k * d) q

/-- Agreement of the two stores after the same `c` calls of `addCubic`: the path is the move to
`points[0]` followed by `c` cubics, cubic `i` having the two points of control line `i` as control
points and `points[i+1]` as end point; the control lines live in a vector of `N` entries. -/
def StoresAgree (points : QPolygonF) (N c : Nat) (ps : QwtSplineC1P.PathStore)
    (cs : QwtSplineC1P.ControlPointsStore) : Prop :=
  cs.controlPoints.length = N ∧ cs.d_cp = c ∧ ps.path.length = c + 1 ∧
  ps.path[0]? = some (PathElement.moveTo (points.nth 0)) ∧
  ∀ i, i < c → ∃ l, cs.controlPoints[i]? = some l ∧
    ps.path[i + 1]? = some (PathElement.cubicTo l.p1 l.p2 (points.nth (i + 1)))

/-- A C1 spline with X parametrization, not closing, with the given boundary condition and
boundary values, whose `slopes` hook returns the given values for every input. -/
def exSplineC1Bc (bc : BoundaryCondition) (v0 v1 : ℚ) (m : List ℚ) : QwtSplineC1 :=
  { d_parametrization := exParam ParameterType.ParameterX
    d_isClosing := false
    d_data := ⟨bc, v0, v1⟩
    slopes := fun _ => .ok m }

/-- The cubic over a boundary segment that the boundary policies Natural, ParabolicRunout and
Clamped2 describe: rise `dy` over run `dx`, curvature `k` at the inner knot, and at the boundary
point the curvature 0 (Natural), `k` (ParabolicRunout) or the stored value (Clamped2).  For the
first segment the boundary point is at offset 0 and the inner knot at offset `dx`; for the last
segment it is the other way round. -/
def IsBoundaryCubic (bc : BoundaryCondition) (stored dx dy k : ℚ) (atBegin : Bool)
    (P : QwtSplinePolynomial) : Prop :=
  P.valueAt dx = dy ∧
  P.curvatureAt (if atBegin then dx else 0) = k ∧
  (bc = BoundaryCondition.Natural → P.curvatureAt (if atBegin then 0 else dx) = 0) ∧
  (bc = BoundaryCondition.ParabolicRunout → P.curvatureAt (if atBegin then 0 else dx) = k) ∧
  (bc = BoundaryCondition.Clamped2 → P.curvatureAt (if atBegin then 0 else dx) = stored)

/-- The functor that the `switch` of `QwtSplineC1::bezierControlLines` and
`QwtSplineC1::painterPath` hands to `qwtSplineC1PathParametric` when the parametrization is
neither X nor Y (qwt_spline.cpp 30-83, 830-851, 888-909). -/
def QwtSplineC1.paramFunctor (spline : QwtSplineC1) : QPointF → QPointF → ℚ :=
  match spline.d_parametrization.type with
  | .ParameterUniform => spline.d_parametrization.valueIncrementUniform
  | .ParameterCentripetal => spline.d_parametrization.valueIncrementCentripetal
  | .ParameterChordal => spline.d_parametrization.valueIncrementChordal
  | _ => spline.d_parametrization.valueIncrement

/-- The curve parameter of `points[i]`: `t_0 = 0` and
`t_(i+1) = t_i + param( points[i], points[i+1] )`. -/
def paramT (param : QPointF → QPointF → ℚ) (points : QPolygonF) : Nat → ℚ
  | 0 => 0
  | i + 1 => paramT param points i + param (points.nth i) (points.nth (i + 1))

/-- The parameter increment of the segment from `p1` to `p2` as the builders of `QwtSplineC1`
compute it: the x difference under X parametrization (qwt_spline.cpp 172), the y difference under
Y parametrization (line 209) and the value of the functor otherwise (line 259). -/
def QwtSplineC1.increment (spline : QwtSplineC1) (p1 p2 : QPointF) : ℚ :=
  match spline.d_parametrization.type with
  | .ParameterX => p2.x - p1.x
  | .ParameterY => p2.y - p1.y
  | _ => spline.paramFunctor p1 p2

/-- First-derivative continuity of a Bezier curve at the point `p` where a segment with last
control point `cp2` and parameter increment `hin` meets a segment with first control point `cp1`
and parameter increment `hout`: `3*(p - cp2)/hin = 3*(cp1 - p)/hout` in both coordinates. -/
def TangentsAgree (p cp2 cp1 : QPointF) (hin hout : ℚ) : Prop :=
  3 * (p.x - cp2.x) / hin = 3 * (cp1.x - p.x) / hout ∧
  3 * (p.y - cp2.y) / hin = 3 * (cp1.y - p.y) / hout

/-! ## Basic facts about reads and loops -/

theorem readAt_of_lt {α : Type} (xs : List α) (i : Nat) (h : i < xs.length) :
    readAt xs i = .ok xs[i] := by
  simp [readAt, List.getElem?_eq_getElem h]

theorem readAt_nth (p : QPolygonF) (i : Nat) (h : i < p.length) :
    readAt p i = .ok (p.nth i) := by
  simp [readAt, QPolygonF.nth, List.getD, List.getElem?_eq_getElem h]

theorem readAt_getD (v : List ℚ) (i : Nat) (h : i < v.length) :
    readAt v i = .ok (v.getD i 0) := by
  simp [readAt, List.getD, List.getElem?_eq_getElem h]

/-- Invariant rule for the counted loop. -/
theorem forLoop_inv {σ : Type} (body : Nat → σ → Except Fault σ) (Inv : Nat → σ → Prop) :
    ∀ (count i : Nat) (s : σ), Inv i s →
      (∀ j t, i ≤ j → j < i + count → Inv j t → ∃ t1, body j t = .ok t1 ∧ Inv (j + 1) t1) →
      ∃ s1, forLoop body count i s = .ok s1 ∧ Inv (i + count) s1 := by
  intro count
  induction count with
  | zero => intro i s h _; exact ⟨s, rfl, by simpa using h⟩
  | succ c ih =>
    intro i s h hstep
    obtain ⟨t1, hb, ht1⟩ := hstep i s (le_refl i) (by omega) h
    obtain ⟨s1, hs1, hinv⟩ := ih (i + 1) t1 ht1
      (fun j t hj hlt hI => hstep j t (by omega) (by omega) hI)
    refine ⟨s1, ?_, ?_⟩
    · simp only [forLoop, hb, hs1]
    · have : i + (c + 1) = i + 1 + c := by omega
      rw [this]; exact hinv

/-- A `while` loop whose condition holds along the whole run exhausts every budget. -/
theorem whileLoop_diverges {σ : Type} (cond : σ → Bool) (body : σ → σ) (Inv : σ → Prop)
    (hstep : ∀ s, Inv s → cond s = true ∧ Inv (body s)) :
    ∀ (fuel : Nat) (s : σ), Inv s → whileLoop cond body fuel s = .error .outOfFuel := by
  intro fuel
  induction fuel with
  | zero => intro s hs; simp [whileLoop, (hstep s hs).1]
  | succ f ih => intro s hs; simp [whileLoop, (hstep s hs).1, ih _ (hstep s hs).2]

theorem whileLoop_exit {σ : Type} (cond : σ → Bool) (body : σ → σ) (fuel : Nat) (s : σ)
    (h : cond s = false) : whileLoop cond body fuel s = .ok s := by
  cases fuel <;> simp [whileLoop, h]

theorem whileLoop_step {σ : Type} (cond : σ → Bool) (body : σ → σ) (fuel : Nat) (s : σ)
    (h : cond s = true) :
    whileLoop cond body (fuel + 1) s = whileLoop cond body fuel (body s) := by
  simp [whileLoop, h]

/-- The fuzzy comparison of two ordered non-negative numbers. -/
theorem qFuzzyCompare_of_le (a b : ℚ) (ha : 0 ≤ a) (hab : a ≤ b) :
    qFuzzyCompare a b = decide ((b - a) * 1000000000000 ≤ a) := by
  unfold qFuzzyCompare
  rw [abs_sub_comm, abs_of_nonneg (sub_nonneg.mpr hab), abs_of_nonneg ha,
    abs_of_nonneg (le_trans ha hab), min_eq_left hab]

theorem paramX_body_cps (pd : QPolygonF) (md : List ℚ) (hm : md.length = pd.length)
    (j : Nat) (hj : j + 1 < pd.length) (st : QwtSplineC1P.ControlPointsStore)
    (hst : st.d_cp < st.controlPoints.length) :
    ∃ st1, qwtSplineC1PathParamX.body pd md j st = .ok st1 ∧
      st1.controlPoints.length = st.controlPoints.length ∧ st1.d_cp = st.d_cp + 1 := by
  have h1 := readAt_of_lt pd j (by omega)
  have h2 := readAt_of_lt pd (j + 1) hj
  have h3 := readAt_of_lt md j (by omega)
  have h4 := readAt_of_lt md (j + 1) (by omega)
  simp [qwtSplineC1PathParamX.body, h1, h2, h3, h4, bind, Except.bind, SplineStore.addCubic,
    QwtSplineC1P.ControlPointsStore.addCubic, hst]

theorem paramY_body_cps (pd : QPolygonF) (md : List ℚ) (hm : md.length = pd.length)
    (j : Nat) (hj : j + 1 < pd.length) (st : QwtSplineC1P.ControlPointsStore)
    (hst : st.d_cp < st.controlPoints.length) :
    ∃ st1, qwtSplineC1PathParamY.body pd md j st = .ok st1 ∧
      st1.controlPoints.length = st.controlPoints.length ∧ st1.d_cp = st.d_cp + 1 := by
  have h1 := readAt_of_lt pd j (by omega)
  have h2 := readAt_of_lt pd (j + 1) hj
  have h3 := readAt_of_lt md j (by omega)
  have h4 := readAt_of_lt md (j + 1) (by omega)
  simp [qwtSplineC1PathParamY.body, h1, h2, h3, h4, bind, Except.bind, SplineStore.addCubic,
    QwtSplineC1P.ControlPointsStore.addCubic, hst]

theorem paramX_cps (spline : QwtSplineC1) (points : QPolygonF) (m : List ℚ)
    (hn : 1 ≤ points.length) (hs : spline.slopes points = .ok m)
    (hm : m.length = points.length) :
    ∃ st, qwtSplineC1PathParamX QwtSplineC1P.ControlPointsStore spline points = .ok st ∧
      st.controlPoints.length = points.length - 1 := by
  obtain ⟨st, hst, hlen, _⟩ := forLoop_inv (qwtSplineC1PathParamX.body points m)
    (fun j (st : QwtSplineC1P.ControlPointsStore) =>
      st.controlPoints.length = points.length - 1 ∧ st.d_cp = j)
    (points.length - 1) 0 ⟨List.replicate (points.length - 1) ⟨⟨0, 0⟩, ⟨0, 0⟩⟩, 0⟩
    (by simp)
    (by
      intro j t _ hj ⟨hl, hc⟩
      obtain ⟨t1, h1, h2, h3⟩ := paramX_body_cps points m hm j (by omega) t (by omega)
      exact ⟨t1, h1, by omega, by omega⟩)
  refine ⟨st, ?_, hlen⟩
  have h0 := readAt_of_lt points 0 (by omega)
  simp [qwtSplineC1PathParamX, hs, hm, h0, bind, Except.bind, pure, Except.pure, SplineStore.new, SplineStore.init,
    SplineStore.start, hst]

theorem paramY_cps (spline : QwtSplineC1) (points : QPolygonF) (m : List ℚ)
    (hn : 1 ≤ points.length) (hs : spline.slopes (points.map (fun p => ⟨p.y, p.x⟩)) = .ok m)
    (hm : m.length = points.length) :
    ∃ st, qwtSplineC1PathParamY QwtSplineC1P.ControlPointsStore spline points = .ok st ∧
      st.controlPoints.length = points.length - 1 := by
  obtain ⟨st, hst, hlen, _⟩ := forLoop_inv
    (qwtSplineC1PathParamY.body (points.map (fun p => (⟨p.y, p.x⟩ : QPointF))) m)
    (fun j (st : QwtSplineC1P.ControlPointsStore) =>
      st.controlPoints.length = points.length - 1 ∧ st.d_cp = j)
    (points.length - 1) 0 ⟨List.replicate (points.length - 1) ⟨⟨0, 0⟩, ⟨0, 0⟩⟩, 0⟩
    (by simp)
    (by
      intro j t _ hj ⟨hl, hc⟩
      obtain ⟨t1, h1, h2, h3⟩ := paramY_body_cps (points.map (fun p => (⟨p.y, p.x⟩ : QPointF))) m
        (by simpa using hm) j (by simp; omega) t (by omega)
      exact ⟨t1, h1, by omega, by omega⟩)
  refine ⟨st, ?_, hlen⟩
  have h0 := readAt_of_lt (points.map (fun p => (⟨p.y, p.x⟩ : QPointF))) 0 (by simp; omega)
  simp [qwtSplineC1PathParamY, hs, hm, h0, bind, Except.bind, pure, Except.pure, SplineStore.new, SplineStore.init,
    SplineStore.start, hst]

theorem parametric_aux_loop (param : QPointF → QPointF → ℚ) (points : QPolygonF)
    (a b : QPointF) :
    ∃ st, forLoop (qwtSplineC1PathParametric.aux param points) (points.length - 1) 1
        ([a], [b], 0) = .ok st ∧
      st.1.length = 1 + (points.length - 1) ∧ st.2.1.length = 1 + (points.length - 1) := by
  apply forLoop_inv (qwtSplineC1PathParametric.aux param points)
    (fun j st => st.1.length = j ∧ st.2.1.length = j)
  · simp
  · intro j t h1 hj ⟨hx, hy⟩
    have r1 := readAt_of_lt points (j - 1) (by omega)
    have r2 := readAt_of_lt points j (by omega)
    simp [qwtSplineC1PathParametric.aux, r1, r2, bind, Except.bind, pure, Except.pure, hx, hy]

theorem parametric_body_cps (param : QPointF → QPointF → ℚ) (points : QPolygonF)
    (mx my : List ℚ) (j : Nat) (h1 : 1 ≤ j) (hj : j < points.length)
    (hmx : j < mx.length) (hmy : j < my.length)
    (st : QwtSplineC1P.ControlPointsStore) (hst : st.d_cp < st.controlPoints.length) :
    ∃ st1, qwtSplineC1PathParametric.body param points mx my j st = .ok st1 ∧
      st1.controlPoints.length = st.controlPoints.length ∧ st1.d_cp = st.d_cp + 1 := by
  have r1 := readAt_of_lt points (j - 1) (by omega)
  have r2 := readAt_of_lt points j hj
  have r3 := readAt_of_lt mx (j - 1) (by omega)
  have r4 := readAt_of_lt mx j hmx
  have r5 := readAt_of_lt my (j - 1) (by omega)
  have r6 := readAt_of_lt my j hmy
  simp [qwtSplineC1PathParametric.body, r1, r2, r3, r4, r5, r6, bind, Except.bind,
    SplineStore.addCubic, QwtSplineC1P.ControlPointsStore.addCubic, hst]

theorem parametric_cps (spline : QwtSplineC1) (points : QPolygonF)
    (param : QPointF → QPointF → ℚ) (hn : 1 ≤ points.length)
    (hs : ∀ q, ∃ m, spline.slopes q = .ok m ∧ m.length = q.length)
    (hc : spline.d_isClosing = false) :
    ∃ st, qwtSplineC1PathParametric QwtSplineC1P.ControlPointsStore spline points param = .ok st ∧
      st.controlPoints.length = points.length - 1 := by
  have hpos : 0 < points.length := by omega
  have h0 := readAt_of_lt points 0 hpos
  obtain ⟨⟨px, py, t⟩, haux, hpx, hpy⟩ := parametric_aux_loop param points
    ⟨0, points[0].x⟩ ⟨0, points[0].y⟩
  obtain ⟨mx, hmx, hmxl⟩ := hs px
  obtain ⟨my, hmy, hmyl⟩ := hs py
  simp only at hpx hpy
  obtain ⟨st, hst, hlen, _⟩ := forLoop_inv (qwtSplineC1PathParametric.body param points mx my)
    (fun j (st : QwtSplineC1P.ControlPointsStore) =>
      st.controlPoints.length = points.length - 1 ∧ st.d_cp + 1 = j)
    (points.length - 1) 1 ⟨List.replicate (points.length - 1) ⟨⟨0, 0⟩, ⟨0, 0⟩⟩, 0⟩
    (by simp)
    (by
      intro j t h1 hj ⟨hl, hcp⟩
      obtain ⟨t1, e1, e2, e3⟩ := parametric_body_cps param points mx my j h1 (by omega)
        (by omega) (by omega) t (by omega)
      exact ⟨t1, e1, by omega, by omega⟩)
  refine ⟨st, ?_, hlen⟩
  simp [qwtSplineC1PathParametric, h0, haux, hc, hmx, hmy, bind, Except.bind, pure, Except.pure,
    SplineStore.new, SplineStore.init, SplineStore.start, hst]

/-! ## C1: number of control lines -/

/-- C1, as stated, fails: under X parametrization a closing spline whose `slopes` hook returns
one value per point yields `n - 1 = 2` control lines for `n = 3` points, not `n`. -/
theorem C1_closing_paramX_counterexample :
    (exSplineC1 .ParameterX true).d_isClosing = true ∧
    (∀ q, ∃ m, (exSplineC1 .ParameterX true).slopes q = .ok m ∧ m.length = q.length) ∧
    3 ≤ exPoints.length ∧
    ∃ lines, (exSplineC1 .ParameterX true).bezierControlLines exPoints = .ok lines ∧
      lines.length ≠ exPoints.length := by
  refine ⟨rfl, fun q => ⟨_, rfl, by simp⟩, by decide, ?_⟩
  refine ⟨[⟨⟨1/3, 0⟩, ⟨2/3, 1⟩⟩, ⟨⟨4/3, 1⟩, ⟨5/3, 0⟩⟩], ?_, by decide⟩
  simp [QwtSplineC1.bezierControlLines, QwtSplineC1.dispatch, exSplineC1, exParam, exPoints,
    qwtSplineC1PathParamX, qwtSplineC1PathParamX.body, forLoop, readAt, bind, Except.bind, pure,
    Except.pure, SplineStore.new, SplineStore.init, SplineStore.start, SplineStore.addCubic,
    QwtSplineC1P.ControlPointsStore.addCubic]
  norm_num

/-- C1 (amended): for `n ≥ 3` points and a `slopes` hook that returns one value per point of the
sequence it is given, `QwtSplineC1::bezierControlLines` returns exactly `n - 1` control lines
when the spline is not closing (every parametrization), and also when the parametrization is X
or Y, where the closing flag is not consulted. -/
theorem C1_bezierControlLines_length (spline : QwtSplineC1) (points : QPolygonF)
    (hn : 3 ≤ points.length)
    (hs : ∀ q, ∃ m, spline.slopes q = .ok m ∧ m.length = q.length)
    (hc : spline.d_isClosing = false ∨
      spline.d_parametrization.type = ParameterType.ParameterX ∨
      spline.d_parametrization.type = ParameterType.ParameterY) :
    ∃ lines, spline.bezierControlLines points = .ok lines ∧
      lines.length = points.length - 1 := by
  have hn2 : ¬ points.length ≤ 2 := by omega
  have key : ∃ st, QwtSplineC1.dispatch QwtSplineC1P.ControlPointsStore spline points = .ok st ∧
      st.controlPoints.length = points.length - 1 := by
    unfold QwtSplineC1.dispatch
    cases hty : spline.d_parametrization.type with
    | ParameterX =>
      obtain ⟨m, hm, hml⟩ := hs points
      exact paramX_cps spline points m (by omega) hm hml
    | ParameterY =>
      obtain ⟨m, hm, hml⟩ := hs (points.map (fun p => ⟨p.y, p.x⟩))
      exact paramY_cps spline points m (by omega) hm (by simpa using hml)
    | _ =>
      have hcl : spline.d_isClosing = false := by
        rcases hc with h | h | h
        · exact h
        · rw [hty] at h; cases h
        · rw [hty] at h; cases h
      exact parametric_cps spline points _ (by omega) hs hcl
  obtain ⟨st, hst, hlen⟩ := key
  exact ⟨st.controlPoints, by simp [QwtSplineC1.bezierControlLines, hn2, hst, bind, Except.bind,
    pure, Except.pure], hlen⟩

/-- C1 witness: a non-closing spline with uniform parametrization and three points. -/
theorem C1_bezierControlLines_length_witness :
    ∃ lines, (exSplineC1 .ParameterUniform false).bezierControlLines exPoints = .ok lines ∧
      lines.length = exPoints.length - 1 :=
  C1_bezierControlLines_length (exSplineC1 .ParameterUniform false) exPoints (by decide)
    (fun q => ⟨_, rfl, by simp⟩) (Or.inl rfl)

/-! ## C2: painter path against control lines -/

/-- Relational invariant rule: two counted loops run in lockstep. -/
theorem forLoop_rel {σ τ : Type} (b1 : Nat → σ → Except Fault σ) (b2 : Nat → τ → Except Fault τ)
    (R : Nat → σ → τ → Prop) :
    ∀ (count i : Nat) (s : σ) (t : τ), R i s t →
      (∀ j s t, i ≤ j → j < i + count → R j s t →
        ∃ s1 t1, b1 j s = .ok s1 ∧ b2 j t = .ok t1 ∧ R (j + 1) s1 t1) →
      ∃ s1 t1, forLoop b1 count i s = .ok s1 ∧ forLoop b2 count i t = .ok t1 ∧
        R (i + count) s1 t1 := by
  intro count
  induction count with
  | zero => intro i s t h _; exact ⟨s, t, rfl, rfl, by simpa using h⟩
  | succ c ih =>
    intro i s t h hstep
    obtain ⟨s1, t1, e1, e2, hR⟩ := hstep i s t (le_refl i) (by omega) h
    obtain ⟨s2, t2, f1, f2, hR2⟩ := ih (i + 1) s1 t1 hR
      (fun j s t hj hlt hI => hstep j s t (by omega) (by omega) hI)
    refine ⟨s2, t2, ?_, ?_, ?_⟩
    · simp only [forLoop, e1, f1]
    · simp only [forLoop, e2, f2]
    · have : i + (c + 1) = i + 1 + c := by omega
      rw [this]; exact hR2

/-- The same `addCubic` call on both stores keeps them in agreement. -/
theorem addCubic_agree (points : QPolygonF) (N c : Nat) (ps : QwtSplineC1P.PathStore)
    (cs : QwtSplineC1P.ControlPointsStore) (h : StoresAgree points N c ps cs) (hc : c < N)
    (cx1 cy1 cx2 cy2 : ℚ) (e : QPointF) (he : e = points.nth (c + 1)) :
    ∃ ps1 cs1, SplineStore.addCubic ps cx1 cy1 cx2 cy2 e.x e.y = .ok ps1 ∧
      SplineStore.addCubic cs cx1 cy1 cx2 cy2 e.x e.y = .ok cs1 ∧
      StoresAgree points N (c + 1) ps1 cs1 := by
  obtain ⟨hN, hcp, hlen, h0, hall⟩ := h
  refine ⟨⟨ps.path ++ [PathElement.cubicTo ⟨cx1, cy1⟩ ⟨cx2, cy2⟩ ⟨e.x, e.y⟩]⟩,
    ⟨cs.controlPoints.set cs.d_cp ⟨⟨cx1, cy1⟩, ⟨cx2, cy2⟩⟩, cs.d_cp + 1⟩, rfl, ?_, ?_⟩
  · simp [SplineStore.addCubic, QwtSplineC1P.ControlPointsStore.addCubic, hN, hcp, hc]
  · refine ⟨by simp [hN], by simp [hcp], by simp [hlen], ?_, ?_⟩
    · simp only
      rw [List.getElem?_append_left (by omega)]
      exact h0
    · intro i hi
      simp only
      by_cases hic : i < c
      · obtain ⟨l, hl1, hl2⟩ := hall i hic
        refine ⟨l, ?_, ?_⟩
        · rw [List.getElem?_set_ne (by omega)]; exact hl1
        · rw [List.getElem?_append_left (by omega)]; exact hl2
      · have hic2 : i = c := by omega
        subst hic2
        refine ⟨⟨⟨cx1, cy1⟩, ⟨cx2, cy2⟩⟩, ?_, ?_⟩
        · rw [hcp]; simp [List.getElem?_set, hN, hc]
        · rw [List.getElem?_append_right (by omega)]
          simp [hlen, he]

theorem nth_map_flip (points : QPolygonF) (i : Nat) (h : i < points.length) :
    QPolygonF.nth (points.map (fun p => (⟨p.y, p.x⟩ : QPointF))) i
      = ⟨(points.nth i).y, (points.nth i).x⟩ := by
  simp [QPolygonF.nth, List.getD, List.getElem?_eq_getElem h]

theorem paramX_agree (spline : QwtSplineC1) (points : QPolygonF) (m : List ℚ)
    (hn : 1 ≤ points.length) (hs : spline.slopes points = .ok m)
    (hm : m.length = points.length) :
    ∃ ps cs, qwtSplineC1PathParamX QwtSplineC1P.PathStore spline points = .ok ps ∧
      qwtSplineC1PathParamX QwtSplineC1P.ControlPointsStore spline points = .ok cs ∧
      StoresAgree points (points.length - 1) (points.length - 1) ps cs := by
  obtain ⟨ps, cs, e1, e2, hR⟩ := forLoop_rel
    (qwtSplineC1PathParamX.body (σ := QwtSplineC1P.PathStore) points m)
    (qwtSplineC1PathParamX.body (σ := QwtSplineC1P.ControlPointsStore) points m)
    (fun j ps cs => StoresAgree points (points.length - 1) j ps cs)
    (points.length - 1) 0 ⟨[PathElement.moveTo (points.nth 0)]⟩
    ⟨List.replicate (points.length - 1) ⟨⟨0, 0⟩, ⟨0, 0⟩⟩, 0⟩
    ⟨by simp, rfl, rfl, rfl, fun i hi => absurd hi (by omega)⟩
    (by
      intro j ps cs _ hj hR
      have r1 := readAt_nth points j (by omega)
      have r2 := readAt_nth points (j + 1) (by omega)
      have r3 := readAt_getD m j (by omega)
      have r4 := readAt_getD m (j + 1) (by omega)
      simp only [qwtSplineC1PathParamX.body, r1, r2, r3, r4, bind, Except.bind]
      exact addCubic_agree points _ j ps cs hR (by omega) _ _ _ _ (points.nth (j + 1)) rfl)
  refine ⟨ps, cs, ?_, ?_, by simpa using hR⟩
  · have h0 := readAt_nth points 0 (by omega)
    simp only [qwtSplineC1PathParamX, hs, hm, h0, bind, Except.bind, pure, Except.pure,
      SplineStore.new, SplineStore.init, SplineStore.start, ne_eq, not_true_eq_false, if_false,
      List.nil_append]
    exact e1
  · have h0 := readAt_nth points 0 (by omega)
    simp only [qwtSplineC1PathParamX, hs, hm, h0, bind, Except.bind, pure, Except.pure,
      SplineStore.new, SplineStore.init, SplineStore.start, ne_eq, not_true_eq_false, if_false]
    exact e2

theorem paramY_agree (spline : QwtSplineC1) (points : QPolygonF) (m : List ℚ)
    (hn : 1 ≤ points.length)
    (hs : spline.slopes (points.map (fun p => ⟨p.y, p.x⟩)) = .ok m)
    (hm : m.length = points.length) :
    ∃ ps cs, qwtSplineC1PathParamY QwtSplineC1P.PathStore spline points = .ok ps ∧
      qwtSplineC1PathParamY QwtSplineC1P.ControlPointsStore spline points = .ok cs ∧
      StoresAgree points (points.length - 1) (points.length - 1) ps cs := by
  have hfl : (points.map (fun p => (⟨p.y, p.x⟩ : QPointF))).length = points.length := by simp
  obtain ⟨ps, cs, e1, e2, hR⟩ := forLoop_rel
    (qwtSplineC1PathParamY.body (σ := QwtSplineC1P.PathStore)
      (points.map (fun p => (⟨p.y, p.x⟩ : QPointF))) m)
    (qwtSplineC1PathParamY.body (σ := QwtSplineC1P.ControlPointsStore)
      (points.map (fun p => (⟨p.y, p.x⟩ : QPointF))) m)
    (fun j ps cs => StoresAgree points (points.length - 1) j ps cs)
    (points.length - 1) 0 ⟨[PathElement.moveTo (points.nth 0)]⟩
    ⟨List.replicate (points.length - 1) ⟨⟨0, 0⟩, ⟨0, 0⟩⟩, 0⟩
    ⟨by simp, rfl, rfl, rfl, fun i hi => absurd hi (by omega)⟩
    (by
      intro j ps cs _ hj hR
      have r1 := readAt_nth (points.map (fun p => (⟨p.y, p.x⟩ : QPointF))) j (by omega)
      have r2 := readAt_nth (points.map (fun p => (⟨p.y, p.x⟩ : QPointF))) (j + 1) (by omega)
      have r3 := readAt_getD m j (by omega)
      have r4 := readAt_getD m (j + 1) (by omega)
      rw [nth_map_flip points j (by omega)] at r1
      rw [nth_map_flip points (j + 1) (by omega)] at r2
      simp only [qwtSplineC1PathParamY.body, r1, r2, r3, r4, bind, Except.bind]
      exact addCubic_agree points _ j ps cs hR (by omega) _ _ _ _ (points.nth (j + 1)) rfl)
  have h0 := readAt_nth (points.map (fun p => (⟨p.y, p.x⟩ : QPointF))) 0 (by omega)
  rw [nth_map_flip points 0 (by omega)] at h0
  refine ⟨ps, cs, ?_, ?_, by simpa using hR⟩
  · simp only [qwtSplineC1PathParamY, hs, hm, h0, bind, Except.bind, pure, Except.pure,
      SplineStore.new, SplineStore.init, SplineStore.start, ne_eq, not_true_eq_false, if_false,
      List.nil_append]
    exact e1
  · simp only [qwtSplineC1PathParamY, hs, hm, h0, bind, Except.bind, pure, Except.pure,
      SplineStore.new, SplineStore.init, SplineStore.start, ne_eq, not_true_eq_false, if_false]
    exact e2

theorem parametric_agree (spline : QwtSplineC1) (points : QPolygonF)
    (param : QPointF → QPointF → ℚ) (hn : 1 ≤ points.length)
    (hs : ∀ q, ∃ m, spline.slopes q = .ok m ∧ m.length = q.length)
    (hc : spline.d_isClosing = false) :
    ∃ ps cs, qwtSplineC1PathParametric QwtSplineC1P.PathStore spline points param = .ok ps ∧
      qwtSplineC1PathParametric QwtSplineC1P.ControlPointsStore spline points param = .ok cs ∧
      StoresAgree points (points.length - 1) (points.length - 1) ps cs := by
  have h0 := readAt_nth points 0 (by omega)
  obtain ⟨⟨px, py, t⟩, haux, hpx, hpy⟩ := parametric_aux_loop param points
    ⟨0, (points.nth 0).x⟩ ⟨0, (points.nth 0).y⟩
  obtain ⟨mx, hmx, hmxl⟩ := hs px
  obtain ⟨my, hmy, hmyl⟩ := hs py
  simp only at hpx hpy
  obtain ⟨ps, cs, e1, e2, hR⟩ := forLoop_rel
    (qwtSplineC1PathParametric.body (σ := QwtSplineC1P.PathStore) param points mx my)
    (qwtSplineC1PathParametric.body (σ := QwtSplineC1P.ControlPointsStore) param points mx my)
    (fun j ps cs => StoresAgree points (points.length - 1) (j - 1) ps cs)
    (points.length - 1) 1 ⟨[PathElement.moveTo (points.nth 0)]⟩
    ⟨List.replicate (points.length - 1) ⟨⟨0, 0⟩, ⟨0, 0⟩⟩, 0⟩
    ⟨by simp, rfl, rfl, rfl, fun i hi => absurd hi (by omega)⟩
    (by
      intro j ps cs h1 hj hR
      have r1 := readAt_nth points (j - 1) (by omega)
      have r2 := readAt_nth points j (by omega)
      have r3 := readAt_getD mx (j - 1) (by omega)
      have r4 := readAt_getD mx j (by omega)
      have r5 := readAt_getD my (j - 1) (by omega)
      have r6 := readAt_getD my j (by omega)
      simp only [qwtSplineC1PathParametric.body, r1, r2, r3, r4, r5, r6, bind, Except.bind]
      have hjj : j + 1 - 1 = j - 1 + 1 := by omega
      rw [hjj]
      exact addCubic_agree points _ (j - 1) ps cs hR (by omega) _ _ _ _ (points.nth j)
        (by rw [Nat.sub_add_cancel h1]))
  have hfin : 1 + (points.length - 1) - 1 = points.length - 1 := by omega
  rw [hfin] at hR
  refine ⟨ps, cs, ?_, ?_, hR⟩
  · simp only [qwtSplineC1PathParametric, h0, haux, hc, hmx, hmy, bind, Except.bind, pure,
      Except.pure, SplineStore.new, SplineStore.init, SplineStore.start, List.nil_append]
    simp [e1]
  · simp only [qwtSplineC1PathParametric, h0, haux, hc, hmx, hmy, bind, Except.bind, pure,
      Except.pure, SplineStore.new, SplineStore.init, SplineStore.start]
    simp [e2]

/-- Where the spline is not closing, or the parametrization is X or Y, the painter path and the
control lines of a C1 spline describe the same cubics. -/
theorem painterPath_agrees_with_bezierControlLines (spline : QwtSplineC1) (points : QPolygonF)
    (hn : 3 ≤ points.length)
    (hs : ∀ q, ∃ m, spline.slopes q = .ok m ∧ m.length = q.length)
    (hc : spline.d_isClosing = false ∨
      spline.d_parametrization.type = ParameterType.ParameterX ∨
      spline.d_parametrization.type = ParameterType.ParameterY) :
    ∃ path lines, spline.painterPath points = .ok path ∧
      spline.bezierControlLines points = .ok lines ∧
      path[0]? = some (PathElement.moveTo (points.nth 0)) ∧
      ∀ i, i < points.length - 1 → ∃ l, lines[i]? = some l ∧
        path[i + 1]? = some (PathElement.cubicTo l.p1 l.p2 (points.nth (i + 1))) := by
  have hn2 : ¬ points.length ≤ 2 := by omega
  have key : ∃ ps cs, QwtSplineC1.dispatch QwtSplineC1P.PathStore spline points = .ok ps ∧
      QwtSplineC1.dispatch QwtSplineC1P.ControlPointsStore spline points = .ok cs ∧
      StoresAgree points (points.length - 1) (points.length - 1) ps cs := by
    unfold QwtSplineC1.dispatch
    cases hty : spline.d_parametrization.type with
    | ParameterX =>
      obtain ⟨m, hm, hml⟩ := hs points
      exact paramX_agree spline points m (by omega) hm hml
    | ParameterY =>
      obtain ⟨m, hm, hml⟩ := hs (points.map (fun p => ⟨p.y, p.x⟩))
      exact paramY_agree spline points m (by omega) hm (by simpa using hml)
    | _ =>
      have hcl : spline.d_isClosing = false := by
        rcases hc with h | h | h
        · exact h
        · rw [hty] at h; cases h
        · rw [hty] at h; cases h
      exact parametric_agree spline points _ (by omega) hs hcl
  obtain ⟨ps, cs, e1, e2, _, _, _, h0, hall⟩ := key
  refine ⟨ps.path, cs.controlPoints, ?_, ?_, h0, hall⟩
  · simp [QwtSplineC1.painterPath, hn2, e1, bind, Except.bind, pure, Except.pure]
  · simp [QwtSplineC1.bezierControlLines, hn2, e2, bind, Except.bind, pure, Except.pure]

/-- C2 at a closing spline with uniform parametrization, three points and a `slopes` hook that
returns one value per point: `painterPath` is the move, three cubics (the third closes the curve)
and a close, while `bezierControlLines` sizes its vector for `n - 1 = 2` lines and writes the
third line past the end of it. -/
theorem C2_closing_uniform_divergence :
    (∀ q, ∃ m, (exSplineC1 .ParameterUniform true).slopes q = .ok m ∧ m.length = q.length) ∧
    (exSplineC1 .ParameterUniform true).painterPath exPoints =
      .ok [PathElement.moveTo ⟨0, 0⟩,
        PathElement.cubicTo ⟨0, 0⟩ ⟨1, 1⟩ ⟨1, 1⟩,
        PathElement.cubicTo ⟨1, 1⟩ ⟨2, 0⟩ ⟨2, 0⟩,
        PathElement.cubicTo ⟨2, 0⟩ ⟨0, 0⟩ ⟨0, 0⟩,
        PathElement.closeSubpath] ∧
    (exSplineC1 .ParameterUniform true).bezierControlLines exPoints = .error .outOfRange := by
  refine ⟨fun q => ⟨_, rfl, by simp⟩, ?_, ?_⟩
  · simp [QwtSplineC1.painterPath, QwtSplineC1.dispatch, exSplineC1, exParam, exPoints,
      qwtSplineC1PathParametric, qwtSplineC1PathParametric.aux, qwtSplineC1PathParametric.body,
      qwtSplineC1PathParametric.closing, forLoop, readAt, bind, Except.bind, pure,
      Except.pure, SplineStore.new, SplineStore.init, SplineStore.start, SplineStore.addCubic,
      SplineStore.finish]
  · simp [QwtSplineC1.bezierControlLines, QwtSplineC1.dispatch, exSplineC1, exParam, exPoints,
      qwtSplineC1PathParametric, qwtSplineC1PathParametric.aux, qwtSplineC1PathParametric.body,
      qwtSplineC1PathParametric.closing, forLoop, readAt, bind, Except.bind, pure,
      Except.pure, SplineStore.new, SplineStore.init, SplineStore.start, SplineStore.addCubic,
      SplineStore.finish, QwtSplineC1P.ControlPointsStore.addCubic]

/-! ## C3: the closing cubic of the base painter path -/

/-- Shape of the base painter path for `n ≥ 3` points when the hook returns at least `n - 1`
lines: the move, the `n - 1` cubics, and the closing cubic with the close exactly when the hook
returned at least `n` lines; the closing flag plays no part. -/
theorem base_painterPath_shape (spline : QwtSpline) (points : QPolygonF) (lines : List QLineF)
    (hn : 3 ≤ points.length) (hh : spline.bezierControlLines points = .ok lines)
    (hl : points.length - 1 ≤ lines.length) :
    spline.painterPath points = .ok
      ([PathElement.moveTo (points.nth 0)] ++
        (List.range (points.length - 1)).map (fun i =>
          PathElement.cubicTo (lines.getD i ⟨⟨0, 0⟩, ⟨0, 0⟩⟩).p1 (lines.getD i ⟨⟨0, 0⟩, ⟨0, 0⟩⟩).p2
            (points.nth (i + 1))) ++
        if points.length ≤ lines.length then
          [PathElement.cubicTo (lines.getD (points.length - 1) ⟨⟨0, 0⟩, ⟨0, 0⟩⟩).p1
            (lines.getD (points.length - 1) ⟨⟨0, 0⟩, ⟨0, 0⟩⟩).p2 (points.nth 0),
            PathElement.closeSubpath]
        else []) := by
  have h0 : points.length ≠ 0 := by omega
  have h1 : points.length ≠ 1 := by omega
  have h2 : points.length ≠ 2 := by omega
  have h3 : ¬ lines.length < points.length - 1 := by omega
  have r0 := readAt_nth points 0 (by omega)
  have rl : ∀ i, i < lines.length → readAt lines i = .ok (lines.getD i ⟨⟨0, 0⟩, ⟨0, 0⟩⟩) := by
    intro i hi
    simp [readAt, List.getD, List.getElem?_eq_getElem hi]
  obtain ⟨path, hrun, hpath⟩ := forLoop_inv
    (fun i (path : QPainterPath) => do
      let li ← readAt lines i
      let pi1 ← readAt points (i + 1)
      return path ++ [PathElement.cubicTo li.p1 li.p2 pi1])
    (fun j path => path = [PathElement.moveTo (points.nth 0)] ++
      (List.range j).map (fun i =>
        PathElement.cubicTo (lines.getD i ⟨⟨0, 0⟩, ⟨0, 0⟩⟩).p1
          (lines.getD i ⟨⟨0, 0⟩, ⟨0, 0⟩⟩).p2 (points.nth (i + 1))))
    (points.length - 1) 0 [PathElement.moveTo (points.nth 0)] (by simp)
    (by
      intro j t _ hj hI
      have r1 := rl j (by omega)
      have r2 := readAt_nth points (j + 1) (by omega)
      simp only [r1, r2, bind, Except.bind, pure, Except.pure]
      refine ⟨_, rfl, ?_⟩
      rw [hI, List.range_succ, List.map_append]
      simp)
  simp only [zero_add] at hpath
  simp only [bind, Except.bind, pure, Except.pure] at hrun
  subst hpath
  simp only [QwtSpline.painterPath, h0, h1, h2, h3, hh, r0, bind, Except.bind, pure, Except.pure,
    if_false, List.nil_append, hrun, ge_iff_le]
  by_cases hc : points.length ≤ lines.length
  · have r3 := rl (points.length - 1) (by omega)
    simp [hc, r3]
  · simp [hc]

/-- C3 at a spline that is not closing, with three points and a hook that returns three lines:
`QwtSpline::painterPath` appends the closing cubic back to `points[0]` and closes the subpath,
because it tests only the number of lines, not `isClosing()`. -/
theorem C3_not_closing_extra_line_divergence :
    (exSpline false [⟨⟨1, 10⟩, ⟨1, 20⟩⟩, ⟨⟨2, 10⟩, ⟨2, 20⟩⟩, ⟨⟨3, 10⟩, ⟨3, 20⟩⟩]).d_isClosing
      = false ∧
    (exSpline false [⟨⟨1, 10⟩, ⟨1, 20⟩⟩, ⟨⟨2, 10⟩, ⟨2, 20⟩⟩, ⟨⟨3, 10⟩, ⟨3, 20⟩⟩]).painterPath
        exPoints =
      .ok [PathElement.moveTo ⟨0, 0⟩,
        PathElement.cubicTo ⟨1, 10⟩ ⟨1, 20⟩ ⟨1, 1⟩,
        PathElement.cubicTo ⟨2, 10⟩ ⟨2, 20⟩ ⟨2, 0⟩,
        PathElement.cubicTo ⟨3, 10⟩ ⟨3, 20⟩ ⟨0, 0⟩,
        PathElement.closeSubpath] := by
  refine ⟨rfl, ?_⟩
  simp [QwtSpline.painterPath, exSpline, exPoints, forLoop, readAt, bind, Except.bind, pure,
    Except.pure]

/-! ## C4: resampling with a spacing that is not positive -/

/-- The base resampler does return the empty polygon for `distance ≤ 0`, without calling its
hook; so do the C1 and C2 resamplers unless the parametrization is X with more than two points. -/
theorem equidistantPolygon_nonpositive (s0 : QwtSpline) (s1 : QwtSplineC1) (s2 : QwtSplineC2)
    (fuel : Nat) (points : QPolygonF) (distance : ℚ) (withNodes : Bool) (hd : distance ≤ 0) :
    s0.equidistantPolygon fuel points distance withNodes = .ok [] ∧
    (¬ (s1.d_parametrization.type = ParameterType.ParameterX ∧ points.length > 2) →
      s1.equidistantPolygon fuel points distance withNodes = .ok []) ∧
    (¬ (s2.d_parametrization.type = ParameterType.ParameterX ∧ points.length > 2) →
      s2.equidistantPolygon fuel points distance withNodes = .ok []) := by
  have base : ∀ s : QwtSpline, s.equidistantPolygon fuel points distance withNodes = .ok [] := by
    intro s
    simp [QwtSpline.equidistantPolygon, hd, bind, Except.bind, pure, Except.pure]
  refine ⟨base s0, ?_, ?_⟩
  · intro h
    simp only [QwtSplineC1.equidistantPolygon, h, if_false, QwtSplineG1.equidistantPolygon]
    exact base _
  · intro h
    have h1 : ¬ (s2.toQwtSplineC1.d_parametrization.type = ParameterType.ParameterX ∧
        points.length > 2) := h
    simp only [QwtSplineC2.equidistantPolygon, h, if_false, QwtSplineC1.equidistantPolygon, h1,
      QwtSplineG1.equidistantPolygon]
    exact base _

/-- With `distance ≤ 0` a segment of `qwtPolygonParametric` entered with `t < l` never ends. -/
theorem qwtPolygonParametric_body_diverges
    (toPolynomial : QPointF → ℚ → QPointF → ℚ → QwtSplinePolynomial)
    (fuel : Nat) (distance : ℚ) (p : QPolygonF) (v : List ℚ) (withNodes : Bool) (i : Nat)
    (st : QPolygonF × ℚ) (hd : distance ≤ 0) (hp : i + 1 < p.length) (hv : i + 1 < v.length)
    (hl : st.2 < p[i + 1].x - p[i].x) :
    qwtPolygonParametric.body toPolynomial fuel distance p v withNodes i st
      = .error .outOfFuel := by
  have r1 := readAt_of_lt p i (by omega)
  have r2 := readAt_of_lt p (i + 1) hp
  have r3 := readAt_of_lt v i (by omega)
  have r4 := readAt_of_lt v (i + 1) hv
  have hw := whileLoop_diverges (fun s : QPolygonF × ℚ => decide (s.2 < p[i + 1].x - p[i].x))
    (fun s => (s.1 ++ [⟨p[i].x + s.2,
      p[i].y + (toPolynomial p[i] v[i] p[i + 1] v[i + 1]).valueAt s.2⟩], s.2 + distance))
    (fun s => s.2 < p[i + 1].x - p[i].x)
    (fun s hs => ⟨by simpa using hs, by simp only; linarith⟩) fuel st hl
  simp [qwtPolygonParametric.body, r1, r2, r3, r4, bind, Except.bind, hw]

/-- C4 at X parametrization with three points of increasing x: for `distance = 0` the C1
resampler, and for `distance = -1` the C2 resampler, enter the sampling loop of the first
segment and exhaust every iteration budget; neither returns the empty polygon. -/
theorem C4_nonpositive_distance_divergence (fuel : Nat) (withNodes : Bool) :
    (exSplineC1 .ParameterX false).equidistantPolygon fuel exPoints 0 withNodes
      = .error .outOfFuel ∧
    (exSplineC2 [0, 0, 0]).equidistantPolygon fuel exPoints (-1) withNodes
      = .error .outOfFuel := by
  have hb1 := qwtPolygonParametric_body_diverges QwtSplinePolynomial.fromSlopes fuel 0 exPoints
    [0, 0, 0] withNodes 0 ([⟨0, 0⟩], 0) (le_refl _) (by decide) (by decide)
    (by simp [exPoints])
  have hb2 := qwtPolygonParametric_body_diverges QwtSplinePolynomial.fromCurvatures fuel (-1)
    exPoints [0, 0, 0] withNodes 0 ([⟨0, 0⟩], -1) (by norm_num) (by decide) (by decide)
    (by simp [exPoints])
  have h0 : readAt exPoints 0 = .ok ⟨0, 0⟩ := rfl
  have hl : exPoints.length = 3 := rfl
  have hs : (exSplineC1 .ParameterX false).slopes exPoints = .ok [0, 0, 0] := rfl
  have hc : (exSplineC2 [0, 0, 0]).curvatures exPoints = .ok [0, 0, 0] := rfl
  constructor
  · simp only [QwtSplineC1.equidistantPolygon, qwtPolygonParametric, hs, h0, hl, bind,
      Except.bind, pure, Except.pure, forLoop, hb1]
    simp [exSplineC1, exParam]
  · simp only [QwtSplineC2.equidistantPolygon, qwtPolygonParametric, hc, h0, hl, bind,
      Except.bind, pure, Except.pure, forLoop, hb2]
    simp [exSplineC2, exParam]

/-! ## C5: control points in the resampled polygon -/

/-- Points with equal x, for the generic resampler. -/
theorem qFuzzyCompare_zero_zero : qFuzzyCompare 0 0 = true := by
  rw [qFuzzyCompare_of_le 0 0 (le_refl _) (le_refl _)]; norm_num

theorem qFuzzyCompare_big_first : qFuzzyCompare 1000000000000 1000000000001 = true := by
  rw [qFuzzyCompare_of_le _ _ (by norm_num) (by norm_num)]; norm_num

theorem qFuzzyCompare_big_second : qFuzzyCompare 1000000000001 1000000000002 = true := by
  rw [qFuzzyCompare_of_le _ _ (by norm_num) (by norm_num)]; norm_num

/-- First segment of the X resampler on three points near `x = 10^12`: no sample is emitted and
the node `points[1]` replaces `points[0]`. -/
theorem qwtPolygonParametric_body_big_first (fuel : Nat) :
    qwtPolygonParametric.body QwtSplinePolynomial.fromSlopes fuel 10
      [⟨1000000000000, 0⟩, ⟨1000000000001, 1⟩, ⟨1000000000002, 0⟩] [0, 0, 0] true 0
      ([⟨1000000000000, 0⟩], 10) = .ok ([⟨1000000000001, 1⟩], 10) := by
  simp only [qwtPolygonParametric.body, readAt, bind, Except.bind, pure, Except.pure]
  simp only [List.getElem?_cons_zero, List.getElem?_cons_succ, zero_add]
  rw [whileLoop_exit _ _ _ _ (by norm_num)]
  simp [snapOrAppend, qFuzzyCompare_big_first]

/-- Second segment: the node `points[2]` replaces `points[1]`. -/
theorem qwtPolygonParametric_body_big_second (fuel : Nat) :
    qwtPolygonParametric.body QwtSplinePolynomial.fromSlopes fuel 10
      [⟨1000000000000, 0⟩, ⟨1000000000001, 1⟩, ⟨1000000000002, 0⟩] [0, 0, 0] true 1
      ([⟨1000000000001, 1⟩], 10) = .ok ([⟨1000000000002, 0⟩], 10) := by
  simp only [qwtPolygonParametric.body, readAt, bind, Except.bind, pure, Except.pure]
  simp only [List.getElem?_cons_zero, List.getElem?_cons_succ, zero_add]
  rw [whileLoop_exit _ _ _ _ (by norm_num)]
  simp [snapOrAppend, qFuzzyCompare_big_second]

/-- C5 with `withNodes = true` and `distance = 10`: the generic resampler (uniform
parametrization) on the points (0,0), (0,1), (0,2), and the X resampler on three points with
x = 10^12, 10^12 + 1, 10^12 + 2, both return only the last control point: each node is written
over the previous one, whose x compares fuzzily equal. -/
theorem C5_nodes_overwritten_divergence (fuel : Nat) :
    (exSpline false [⟨⟨0, 0⟩, ⟨0, 0⟩⟩, ⟨⟨0, 0⟩, ⟨0, 0⟩⟩]).equidistantPolygon fuel
        [⟨0, 0⟩, ⟨0, 1⟩, ⟨0, 2⟩] 10 true = .ok [⟨0, 2⟩] ∧
    (exSplineC1 .ParameterX false).equidistantPolygon fuel
        [⟨1000000000000, 0⟩, ⟨1000000000001, 1⟩, ⟨1000000000002, 0⟩] 10 true
      = .ok [⟨1000000000002, 0⟩] := by
  constructor
  · simp [QwtSpline.equidistantPolygon, QwtSpline.equidistantPolygon.body, exSpline, exParam,
      forLoop, readAt, bind, Except.bind, pure, Except.pure, whileLoop_exit, snapOrAppend,
      qFuzzyCompare_zero_zero]
  · have hs : (exSplineC1 .ParameterX false).slopes
        [⟨1000000000000, 0⟩, ⟨1000000000001, 1⟩, ⟨1000000000002, 0⟩] = .ok [0, 0, 0] := rfl
    have h0 : readAt ([⟨1000000000000, 0⟩, ⟨1000000000001, 1⟩, ⟨1000000000002, 0⟩] : QPolygonF) 0
        = .ok ⟨1000000000000, 0⟩ := rfl
    simp only [QwtSplineC1.equidistantPolygon, qwtPolygonParametric, hs, h0, List.length_cons,
      List.length_nil, bind, Except.bind, pure, Except.pure, forLoop,
      qwtPolygonParametric_body_big_first]
    rw [qwtPolygonParametric_body_big_second]
    simp [exSplineC1, exParam]

/-! ## C6: the spacing counter of the X resampler with nodes -/

theorem qFuzzyCompare_four_fifths_one : qFuzzyCompare (4/5) 1 = false := by
  rw [qFuzzyCompare_of_le _ _ (by norm_num) (by norm_num)]; norm_num

theorem qFuzzyCompare_one_two : qFuzzyCompare 1 2 = false := by
  rw [qFuzzyCompare_of_le _ _ (by norm_num) (by norm_num)]; norm_num

/-- First segment of the X resampler on `exPoints` with spacing 2/5: samples at x = 2/5 and 4/5,
then the node (1,1); the counter leaves the segment as 6/5. -/
theorem qwtPolygonParametric_body_nodes_first (fuel : Nat) :
    qwtPolygonParametric.body QwtSplinePolynomial.fromSlopes (fuel + 2) (2/5) exPoints [0, 0, 0]
      true 0 ([⟨0, 0⟩], 2/5)
      = .ok ([⟨0, 0⟩, ⟨2/5, 44/125⟩, ⟨4/5, 112/125⟩, ⟨1, 1⟩], 6/5) := by
  simp only [qwtPolygonParametric.body, exPoints, readAt, bind, Except.bind, pure, Except.pure]
  simp only [List.getElem?_cons_zero, List.getElem?_cons_succ, zero_add]
  rw [whileLoop_step _ _ _ _ (by norm_num), whileLoop_step _ _ _ _ (by norm_num),
    whileLoop_exit _ _ _ _ (by norm_num)]
  norm_num [snapOrAppend, qFuzzyCompare_four_fifths_one, QwtSplinePolynomial.valueAt,
    QwtSplinePolynomial.fromSlopes, QwtSplinePolynomial.fromSlopesD]

/-- Second segment: the counter 6/5 is not below the segment length 1, so no sample is emitted
and only the node (2,0) is added. -/
theorem qwtPolygonParametric_body_nodes_second (fuel : Nat) :
    qwtPolygonParametric.body QwtSplinePolynomial.fromSlopes (fuel + 2) (2/5) exPoints [0, 0, 0]
      true 1 ([⟨0, 0⟩, ⟨2/5, 44/125⟩, ⟨4/5, 112/125⟩, ⟨1, 1⟩], 6/5)
      = .ok ([⟨0, 0⟩, ⟨2/5, 44/125⟩, ⟨4/5, 112/125⟩, ⟨1, 1⟩, ⟨2, 0⟩], 6/5) := by
  simp only [qwtPolygonParametric.body, exPoints, readAt, bind, Except.bind, pure, Except.pure]
  simp only [List.getElem?_cons_zero, List.getElem?_cons_succ, zero_add]
  rw [whileLoop_exit _ _ _ _ (by norm_num)]
  norm_num [snapOrAppend, qFuzzyCompare_one_two]

/-- C6 at X parametrization, `withNodes = true`, spacing 2/5 and the points (0,0), (1,1), (2,0):
with any budget of at least two iterations the polygon has the samples x = 2/5 and 4/5 in the
first segment and no sample at all between (1,1) and (2,0), where the claim places x = 7/5 and
x = 9/5: the counter is not restarted at the node. -/
theorem C6_counter_not_restarted_divergence (fuel : Nat) :
    (exSplineC1 .ParameterX false).equidistantPolygon (fuel + 2) exPoints (2/5) true
      = .ok [⟨0, 0⟩, ⟨2/5, 44/125⟩, ⟨4/5, 112/125⟩, ⟨1, 1⟩, ⟨2, 0⟩] := by
  have hs : (exSplineC1 .ParameterX false).slopes exPoints = .ok [0, 0, 0] := rfl
  have h0 : readAt exPoints 0 = .ok ⟨0, 0⟩ := rfl
  have hl : exPoints.length = 3 := rfl
  simp only [QwtSplineC1.equidistantPolygon, qwtPolygonParametric, hs, h0, hl, bind, Except.bind,
    pure, Except.pure, forLoop, qwtPolygonParametric_body_nodes_first]
  rw [qwtPolygonParametric_body_nodes_second]
  simp [exSplineC1, exParam]

/-! ## C7: resampling without nodes under X parametrization -/

/-- Invariant rule for a counted loop whose body needs an iteration budget. -/
theorem forLoop_inv_fuel {σ : Type} (body : Nat → Nat → σ → Except Fault σ)
    (Inv : Nat → σ → Prop) :
    ∀ (count i : Nat) (s : σ), Inv i s →
      (∀ j t, i ≤ j → j < i + count → Inv j t →
        ∃ F t1, Inv (j + 1) t1 ∧ ∀ fuel, F ≤ fuel → body fuel j t = .ok t1) →
      ∃ F s1, Inv (i + count) s1 ∧ ∀ fuel, F ≤ fuel → forLoop (body fuel) count i s = .ok s1 := by
  intro count
  induction count with
  | zero => intro i s h _; exact ⟨0, s, by simpa using h, fun _ _ => rfl⟩
  | succ c ih =>
    intro i s h hstep
    obtain ⟨F1, t1, ht1, hb⟩ := hstep i s (le_refl i) (by omega) h
    obtain ⟨F2, s1, hinv, hs1⟩ := ih (i + 1) t1 ht1
      (fun j t hj hlt hI => hstep j t (by omega) (by omega) hI)
    refine ⟨max F1 F2, s1, ?_, ?_⟩
    · have : i + (c + 1) = i + 1 + c := by omega
      rw [this]; exact hinv
    · intro fuel hf
      simp only [forLoop, hb fuel (le_trans (le_max_left _ _) hf),
        hs1 fuel (le_trans (le_max_right _ _) hf)]

/-- A sampling loop with positive spacing `d` that starts at `t` runs `m` times, where `m` is
the least number with `l ≤ t + m * d`. -/
theorem whileLoop_sampling (f : ℚ → QPointF) (l d : ℚ) :
    ∀ (m : Nat) (out : QPolygonF) (t : ℚ), (∀ s, s < m → t + s * d < l) → l ≤ t + m * d →
      ∀ fuel, m ≤ fuel →
        whileLoop (fun s : QPolygonF × ℚ => decide (s.2 < l))
          (fun s => (s.1 ++ [f s.2], s.2 + d)) fuel (out, t)
        = .ok (out ++ (List.range m).map (fun s : Nat => f (t + s * d)), t + m * d) := by
  intro m
  induction m with
  | zero =>
    intro out t _ hl fuel _
    rw [whileLoop_exit _ _ _ _ (by simpa using hl)]
    simp
  | succ m ih =>
    intro out t hlt hl fuel hf
    obtain ⟨fuel1, rfl⟩ : ∃ f1, fuel = f1 + 1 := ⟨fuel - 1, by omega⟩
    have h0 : t < l := by simpa using hlt 0 (by omega)
    rw [whileLoop_step _ _ _ _ (by simpa using h0)]
    have := ih (out ++ [f t]) (t + d)
      (fun s hs => by have := hlt (s + 1) (by omega); push_cast at this; linarith)
      (by push_cast at hl; linarith) fuel1 (by omega)
    have e1 : List.map (fun s : ℕ => f (t + d + s * d)) (List.range m)
        = List.map ((fun s : ℕ => f (t + s * d)) ∘ Nat.succ) (List.range m) := by
      apply List.map_congr_left
      intro s _
      simp only [Function.comp, Nat.succ_eq_add_one]
      congr 1
      push_cast
      ring
    have e2 : t + d + (m : ℚ) * d = t + ((m + 1 : ℕ) : ℚ) * d := by push_cast; ring
    simp only at this ⊢
    rw [this, List.range_succ_eq_map, e1, e2]
    simp [List.map_map]

theorem sampling_count_exists (l d t : ℚ) (hd : 0 < d) :
    ∃ m : Nat, (∀ s : Nat, s < m → t + s * d < l) ∧ l ≤ t + m * d := by
  refine ⟨⌈(l - t) / d⌉₊, ?_, ?_⟩
  · intro s hs
    have := Nat.lt_ceil.mp hs
    rw [lt_div_iff₀ hd] at this
    linarith
  · have := Nat.le_ceil ((l - t) / d)
    rw [div_le_iff₀ hd] at this
    linarith

/-- One segment of `qwtPolygonParametric` without nodes keeps the invariant. -/
theorem qwtPolygonParametric_body_inv
    (toPolynomial : QPointF → ℚ → QPointF → ℚ → QwtSplinePolynomial)
    (d : ℚ) (p : QPolygonF) (v : List ℚ) (hd : 0 < d) (hv : v.length = p.length)
    (j : Nat) (hj : j + 1 < p.length) (hinc : (p.nth j).x < (p.nth (j + 1)).x)
    (st : QPolygonF × ℚ) (hI : ParametricInv toPolynomial d p v j st) :
    ∃ F st1, ParametricInv toPolynomial d p v (j + 1) st1 ∧
      ∀ fuel, F ≤ fuel → qwtPolygonParametric.body toPolynomial fuel d p v false j st = .ok st1 := by
  obtain ⟨out, t⟩ := st
  obtain ⟨hlen, hpos, ht0, htd, _, hel⟩ := hI
  simp only at hlen hpos ht0 htd hel
  obtain ⟨m, hlt, hle⟩ := sampling_count_exists ((p.nth (j + 1)).x - (p.nth j).x) d t hd
  refine ⟨m, (out ++ (List.range m).map (fun s : Nat => (⟨(p.nth j).x + (t + s * d),
      (p.nth j).y + (toPolynomial (p.nth j) (v.getD j 0) (p.nth (j + 1))
        (v.getD (j + 1) 0)).valueAt (t + s * d)⟩ : QPointF)),
      t + m * d - ((p.nth (j + 1)).x - (p.nth j).x)), ?_, ?_⟩
  · have hstrict : t + m * d - ((p.nth (j + 1)).x - (p.nth j).x) < d := by
      rcases Nat.eq_zero_or_pos m with h0 | h0
      · subst h0; simp only [Nat.cast_zero, zero_mul, add_zero]; linarith
      · have := hlt (m - 1) (by omega)
        have e : ((m - 1 : ℕ) : ℚ) = (m : ℚ) - 1 := by
          rw [Nat.cast_sub (by omega)]; simp
        rw [e] at this
        linarith
    refine ⟨by simp; omega, ?_, by simp only; linarith, by simp only; linarith,
      fun _ => hstrict, ?_⟩
    · simp only [List.length_append, List.length_map, List.length_range]
      push_cast
      linarith
    · intro k hk
      simp only [List.length_append, List.length_map, List.length_range] at hk
      by_cases hkK : k < out.length
      · obtain ⟨i, q, hi, hq, hon⟩ := hel k hkK
        exact ⟨i, q, hi, by simpa [List.getElem?_append_left hkK] using hq, hon⟩
      · obtain ⟨s, rfl⟩ : ∃ s, k = out.length + s := ⟨k - out.length, by omega⟩
        have hs : s < m := by omega
        have hx : (p.nth 0).x + ((out.length + s : ℕ) : ℚ) * d = (p.nth j).x + (t + s * d) := by
          push_cast; linarith
        refine ⟨j, ⟨(p.nth j).x + (t + s * d), (p.nth j).y + (toPolynomial (p.nth j)
          (v.getD j 0) (p.nth (j + 1)) (v.getD (j + 1) 0)).valueAt (t + s * d)⟩, hj, ?_, ?_⟩
        · simp only
          rw [List.getElem?_append_right (by omega)]
          simp [hs]
        · rw [hx]
          refine ⟨?_, ?_, ?_⟩
          · have : (0 : ℚ) ≤ s * d := by positivity
            linarith
          · have := hlt s hs; linarith
          · simp
  · intro fuel hf
    have r1 := readAt_nth p j (by omega)
    have r2 := readAt_nth p (j + 1) hj
    have r3 := readAt_getD v j (by omega)
    have r4 := readAt_getD v (j + 1) (by omega)
    have hw := whileLoop_sampling (fun t => (⟨(p.nth j).x + t,
      (p.nth j).y + (toPolynomial (p.nth j) (v.getD j 0) (p.nth (j + 1))
        (v.getD (j + 1) 0)).valueAt t⟩ : QPointF)) ((p.nth (j + 1)).x - (p.nth j).x) d m out t
      hlt hle fuel hf
    simp only [qwtPolygonParametric.body, r1, r2, r3, r4, bind, Except.bind, pure, Except.pure, hw]
    simp

theorem QwtSplinePolynomial.valueAt_zero (P : QwtSplinePolynomial) : P.valueAt 0 = 0 := by
  simp [QwtSplinePolynomial.valueAt]

/-- The whole resampling without nodes: with enough budget `qwtPolygonParametric` returns a
polygon for which the invariant holds at the last point. -/
theorem qwtPolygonParametric_equidistant
    (toPolynomial : QPointF → ℚ → QPointF → ℚ → QwtSplinePolynomial)
    (d : ℚ) (p : QPolygonF) (v : List ℚ) (hd : 0 < d) (hv : v.length = p.length)
    (hn : 2 ≤ p.length)
    (hinc : ∀ i, i + 1 < p.length → (p.nth i).x < (p.nth (i + 1)).x) :
    ∃ F out t, ParametricInv toPolynomial d p v (p.length - 1) (out, t) ∧
      ∀ fuel, F ≤ fuel → qwtPolygonParametric toPolynomial fuel d p v false = .ok out := by
  have hinit : ParametricInv toPolynomial d p v 0 ([p.nth 0], d) := by
    refine ⟨by simp, by simp, le_of_lt hd, le_refl _, fun h => absurd h (by omega), ?_⟩
    intro k hk
    have hk0 : k = 0 := by simpa using hk
    subst hk0
    refine ⟨0, p.nth 0, by omega, by simp, ?_⟩
    refine ⟨by simp, by simpa using hinc 0 (by omega), ?_⟩
    simp [QwtSplinePolynomial.valueAt_zero]
  obtain ⟨F, ⟨out, t⟩, hI, hrun⟩ := forLoop_inv_fuel
    (fun fuel => qwtPolygonParametric.body toPolynomial fuel d p v false)
    (ParametricInv toPolynomial d p v) (p.length - 1) 0 ([p.nth 0], d) hinit
    (fun j st _ hj hI => qwtPolygonParametric_body_inv toPolynomial d p v hd hv j (by omega)
      (hinc j (by omega)) st hI)
  refine ⟨F, out, t, by simpa using hI, ?_⟩
  intro fuel hf
  have r0 := readAt_nth p 0 (by omega)
  simp only [qwtPolygonParametric, r0, bind, Except.bind, pure, Except.pure, hrun fuel hf]

/-- C7: under X parametrization with `withNodes = false`, `distance > 0`, more than two points of
strictly increasing x and a `slopes` result `m` with one value per point, every large enough
iteration budget makes `QwtSplineC1::equidistantPolygon` return one polygon `out` such that
`out` has a `k`-th point exactly for the `k` with `k * distance < points[n-1].x - points[0].x`,
and the `k`-th point has abscissa `x = points[0].x + k * distance` and ordinate
`points[i].y + P_i( x - points[i].x )` for a segment `i` with `points[i].x ≤ x < points[i+1].x`,
`P_i` being `fromSlopes( points[i], m[i], points[i+1], m[i+1] )`. -/
theorem C7_equidistant_without_nodes (spline : QwtSplineC1) (points : QPolygonF) (m : List ℚ)
    (distance : ℚ) (hX : spline.d_parametrization.type = ParameterType.ParameterX)
    (hn : 2 < points.length) (hd : 0 < distance)
    (hinc : ∀ i, i + 1 < points.length → (points.nth i).x < (points.nth (i + 1)).x)
    (hs : spline.slopes points = .ok m) (hm : m.length = points.length) :
    ∃ out fuel0,
      (∀ fuel, fuel0 ≤ fuel →
        spline.equidistantPolygon fuel points distance false = .ok out) ∧
      (∀ k : ℕ, k < out.length ↔
        k * distance < (points.nth (points.length - 1)).x - (points.nth 0).x) ∧
      (∀ k : ℕ, k < out.length → ∃ i q, i + 1 < points.length ∧ out[k]? = some q ∧
        OnSegment QwtSplinePolynomial.fromSlopes points m i
          ((points.nth 0).x + k * distance) q) := by
  obtain ⟨F, out, t, ⟨hlen, hpos, ht0, htd, hlt, hel⟩, hrun⟩ :=
    qwtPolygonParametric_equidistant QwtSplinePolynomial.fromSlopes distance points m hd hm
      (by omega) hinc
  simp only at hlen hpos ht0 htd hlt hel
  have htlt : t < distance := hlt (by omega)
  refine ⟨out, F, ?_, ?_, hel⟩
  · intro fuel hf
    have hc : spline.d_parametrization.type = ParameterType.ParameterX ∧ points.length > 2 :=
      ⟨hX, hn⟩
    simp only [QwtSplineC1.equidistantPolygon, hc, hs, hm, bind, Except.bind, pure, Except.pure]
    simpa using hrun fuel hf
  · intro k
    constructor
    · intro hk
      have h1 : (k : ℚ) + 1 ≤ out.length := by exact_mod_cast hk
      have h2 : ((k : ℚ) + 1) * distance ≤ out.length * distance :=
        mul_le_mul_of_nonneg_right h1 (le_of_lt hd)
      linarith
    · intro hk
      by_contra hcon
      have h1 : (out.length : ℚ) ≤ k := by exact_mod_cast Nat.le_of_not_lt hcon
      have h2 : (out.length : ℚ) * distance ≤ k * distance :=
        mul_le_mul_of_nonneg_right h1 (le_of_lt hd)
      linarith

/-- C7 witness: the points (0,0), (1,1), (2,0) with slopes 0 and spacing 2/5. -/
theorem C7_equidistant_without_nodes_witness :
    (0 : ℚ) < 2/5 ∧ 2 < exPoints.length ∧
    ∃ out fuel0,
      (∀ fuel, fuel0 ≤ fuel →
        (exSplineC1 .ParameterX false).equidistantPolygon fuel exPoints (2/5) false = .ok out) ∧
      (∀ k : ℕ, k < out.length ↔
        k * (2/5 : ℚ) < (exPoints.nth (exPoints.length - 1)).x - (exPoints.nth 0).x) ∧
      (∀ k : ℕ, k < out.length → ∃ i q, i + 1 < exPoints.length ∧ out[k]? = some q ∧
        OnSegment QwtSplinePolynomial.fromSlopes exPoints [0, 0, 0] i
          ((exPoints.nth 0).x + k * (2/5 : ℚ)) q) :=
  ⟨by norm_num, by decide,
    C7_equidistant_without_nodes (exSplineC1 .ParameterX false) exPoints [0, 0, 0] (2/5) rfl
      (by decide) (by norm_num)
      (by
        intro i hi
        have hi2 : i = 0 ∨ i = 1 := by simp [exPoints] at hi; omega
        rcases hi2 with rfl | rfl <;> norm_num [QPolygonF.nth, exPoints])
      rfl rfl⟩

/-! ## C8: fewer than three points -/

theorem base_equidistantPolygon_short (spline : QwtSpline) (fuel : Nat)
    (points : QPolygonF) (distance : ℚ) (withNodes : Bool) (hd : 0 < distance)
    (hn : points.length < 3) :
    spline.equidistantPolygon fuel points distance withNodes = .ok points := by
  have h : ¬ distance ≤ 0 := not_le.mpr hd
  by_cases h1 : points.length ≤ 1
  · simp [QwtSpline.equidistantPolygon, h, h1, bind, Except.bind, pure, Except.pure]
  · have h2 : points.length = 2 := by omega
    simp [QwtSpline.equidistantPolygon, h, h2, bind, Except.bind, pure, Except.pure]

theorem c1_equidistantPolygon_short (spline : QwtSplineC1) (fuel : Nat)
    (points : QPolygonF) (distance : ℚ) (withNodes : Bool) (hd : 0 < distance)
    (hn : points.length < 3) :
    spline.equidistantPolygon fuel points distance withNodes = .ok points := by
  have h : ¬ (spline.d_parametrization.type = ParameterType.ParameterX ∧ points.length > 2) := by
    intro hh; omega
  simp only [QwtSplineC1.equidistantPolygon, h, if_false, QwtSplineG1.equidistantPolygon]
  exact base_equidistantPolygon_short _ fuel points distance withNodes hd hn

/-- C8: for `distance > 0` and fewer than three points, `equidistantPolygon` of `QwtSpline`,
`QwtSplineC1` and `QwtSplineC2` returns the input sequence itself, for every parametrization,
closing flag, iteration budget and value of `withNodes`, and for every hook, also one that
never returns: no hook is called. -/
theorem C8_equidistantPolygon_short (s0 : QwtSpline) (s1 : QwtSplineC1) (s2 : QwtSplineC2)
    (fuel : Nat) (points : QPolygonF) (distance : ℚ) (withNodes : Bool) (hd : 0 < distance)
    (hn : points.length < 3) :
    s0.equidistantPolygon fuel points distance withNodes = .ok points ∧
    s1.equidistantPolygon fuel points distance withNodes = .ok points ∧
    s2.equidistantPolygon fuel points distance withNodes = .ok points := by
  refine ⟨base_equidistantPolygon_short s0 fuel points distance withNodes hd hn,
    c1_equidistantPolygon_short s1 fuel points distance withNodes hd hn, ?_⟩
  have h : ¬ (s2.d_parametrization.type = ParameterType.ParameterX ∧ points.length > 2) := by
    intro hh; omega
  simp only [QwtSplineC2.equidistantPolygon, h, if_false]
  exact c1_equidistantPolygon_short _ fuel points distance withNodes hd hn

/-- C8 witness: two points, spacing 1/2, X parametrization, hooks that never return. -/
theorem C8_equidistantPolygon_short_witness :
    (0 : ℚ) < 1/2 ∧ ([⟨0, 0⟩, ⟨1, 1⟩] : QPolygonF).length < 3 ∧
    (exStuckSpline .ParameterX true).equidistantPolygon 0 [⟨0, 0⟩, ⟨1, 1⟩] (1/2) true
      = .ok [⟨0, 0⟩, ⟨1, 1⟩] ∧
    (exStuckSplineC1 .ParameterX true).equidistantPolygon 0 [⟨0, 0⟩, ⟨1, 1⟩] (1/2) true
      = .ok [⟨0, 0⟩, ⟨1, 1⟩] ∧
    (exStuckSplineC2 .ParameterX true).equidistantPolygon 0 [⟨0, 0⟩, ⟨1, 1⟩] (1/2) true
      = .ok [⟨0, 0⟩, ⟨1, 1⟩] :=
  ⟨by norm_num, by decide,
    C8_equidistantPolygon_short (exStuckSpline .ParameterX true) (exStuckSplineC1 .ParameterX true)
      (exStuckSplineC2 .ParameterX true) 0 [⟨0, 0⟩, ⟨1, 1⟩] (1/2) true (by norm_num) (by decide)⟩

/-! ## C9: control lines when `slopes` returns a wrong number of values -/

/-- Under X and Y parametrization a `slopes` result of the wrong length does give the empty
vector: these two builders compare `m.size()` with `n` before any indexed read. -/
theorem bezierControlLines_mismatch_paramXY (spline : QwtSplineC1) (points : QPolygonF)
    (hn : 3 ≤ points.length)
    (hs : ∀ q, ∃ m, spline.slopes q = .ok m ∧ m.length ≠ q.length)
    (hty : spline.d_parametrization.type = ParameterType.ParameterX ∨
      spline.d_parametrization.type = ParameterType.ParameterY) :
    spline.bezierControlLines points = .ok [] := by
  have hn2 : ¬ points.length ≤ 2 := by omega
  rcases hty with h | h
  · obtain ⟨m, hm, hml⟩ := hs points
    simp [QwtSplineC1.bezierControlLines, QwtSplineC1.dispatch, h, hn2, qwtSplineC1PathParamX,
      hm, hml, bind, Except.bind, pure, Except.pure, SplineStore.new]
  · obtain ⟨m, hm, hml⟩ := hs (points.map (fun p => ⟨p.y, p.x⟩))
    have hml2 : ¬ m.length = points.length := by simpa using hml
    simp [QwtSplineC1.bezierControlLines, QwtSplineC1.dispatch, h, hn2, qwtSplineC1PathParamY,
      hm, hml2, bind, Except.bind, pure, Except.pure, SplineStore.new]

/-- C9 at uniform parametrization, not closing, three points: when `slopes` returns no value
`bezierControlLines` reads `mx[0]`, which does not exist; when `slopes` returns five values it
returns two control lines.  In neither case is the result the empty vector. -/
theorem C9_parametric_mismatch_divergence :
    (exSplineC1With .ParameterUniform false []).bezierControlLines exPoints
      = .error .outOfRange ∧
    (exSplineC1With .ParameterUniform false [0, 0, 0, 0, 0]).bezierControlLines exPoints
      = .ok [⟨⟨0, 0⟩, ⟨1, 1⟩⟩, ⟨⟨1, 1⟩, ⟨2, 0⟩⟩] := by
  constructor <;>
  simp [QwtSplineC1.bezierControlLines, QwtSplineC1.dispatch, exSplineC1With, exParam, exPoints,
    qwtSplineC1PathParametric, qwtSplineC1PathParametric.aux, qwtSplineC1PathParametric.body,
    forLoop, readAt, bind, Except.bind, pure, Except.pure, SplineStore.new, SplineStore.init,
    SplineStore.start, SplineStore.addCubic, QwtSplineC1P.ControlPointsStore.addCubic]

/-! ## C10: polynomials and slopes when the hook returns a wrong number of values -/

/-- What the guards of the three functions do cover: a hook result with fewer than two values
gives an empty result, and no point is read. -/
theorem polynomials_slopes_short (s1 : QwtSplineC1) (s2 : QwtSplineC2) (points : QPolygonF)
    (m cv : List ℚ) (hm : s1.slopes points = .ok m) (hml : m.length < 2)
    (hc : s2.curvatures points = .ok cv) (hcl : cv.length < 2) :
    s1.polynomials points = .ok [] ∧ s2.slopes points = .ok [] ∧
    s2.polynomials points = .ok [] := by
  refine ⟨?_, ?_, ?_⟩
  · simp [QwtSplineC1.polynomials, hm, hml, bind, Except.bind, pure, Except.pure]
  · simp [QwtSplineC2.slopes, hc, hcl, bind, Except.bind, pure, Except.pure]
  · simp [QwtSplineC2.polynomials, hc, hcl, bind, Except.bind, pure, Except.pure]

/-- C10 with three points: `QwtSplineC2::slopes` with two curvatures reads `cv[2]`, and
`QwtSplineC1::polynomials` with four slopes reads `points[3]`, neither of which exists;
`QwtSplineC1::polynomials` with two slopes and `QwtSplineC2::polynomials` with two curvatures
return one polynomial instead of the empty vector. -/
theorem C10_mismatch_divergence :
    (exSplineC2 [0, 0]).slopes exPoints = .error .outOfRange ∧
    (exSplineC1With .ParameterX false [0, 0, 0, 0]).polynomials exPoints = .error .outOfRange ∧
    (exSplineC1With .ParameterX false [0, 0]).polynomials exPoints = .ok [⟨-2, 3, 0⟩] ∧
    (exSplineC2 [0, 0]).polynomials exPoints = .ok [⟨0, 0, 1⟩] := by
  refine ⟨?_, ?_, ?_, ?_⟩
  · simp [QwtSplineC2.slopes, QwtSplineC2.slopes.body, exSplineC2, exPoints, forLoop, readAt,
      bind, Except.bind, pure, Except.pure]
  · simp [QwtSplineC1.polynomials, exSplineC1With, exPoints, forLoop, readAt,
      bind, Except.bind, pure, Except.pure]
  · simp [QwtSplineC1.polynomials, exSplineC1With, exPoints, forLoop, readAt,
      bind, Except.bind, pure, Except.pure, QwtSplinePolynomial.fromSlopes,
      QwtSplinePolynomial.fromSlopesD]
    norm_num
  · simp [QwtSplineC2.polynomials, exSplineC2, exPoints, forLoop, readAt,
      bind, Except.bind, pure, Except.pure, QwtSplinePolynomial.fromCurvatures,
      QwtSplinePolynomial.fromCurvaturesD]

/-! ## Facts about the segment polynomials -/

theorem fromSlopes_slopeAt_zero (p1 : QPointF) (m1 : ℚ) (p2 : QPointF) (m2 : ℚ) :
    (QwtSplinePolynomial.fromSlopes p1 m1 p2 m2).slopeAt 0 = m1 := by
  simp [QwtSplinePolynomial.fromSlopes, QwtSplinePolynomial.fromSlopesD,
    QwtSplinePolynomial.slopeAt]

theorem fromSlopes_slopeAt_run (p1 : QPointF) (m1 : ℚ) (p2 : QPointF) (m2 : ℚ)
    (hdx : p2.x - p1.x ≠ 0) :
    (QwtSplinePolynomial.fromSlopes p1 m1 p2 m2).slopeAt (p2.x - p1.x) = m2 := by
  simp only [QwtSplinePolynomial.fromSlopes, QwtSplinePolynomial.fromSlopesD,
    QwtSplinePolynomial.slopeAt]
  field_simp
  ring

theorem fromCurvaturesD_curvatureAt_zero (dx dy cv1 cv2 : ℚ) :
    (QwtSplinePolynomial.fromCurvaturesD dx dy cv1 cv2).curvatureAt 0 = cv1 := by
  simp only [QwtSplinePolynomial.fromCurvaturesD, QwtSplinePolynomial.curvatureAt]
  ring

theorem fromCurvaturesD_curvatureAt_run (dx dy cv1 cv2 : ℚ) (hdx : dx ≠ 0) :
    (QwtSplinePolynomial.fromCurvaturesD dx dy cv1 cv2).curvatureAt dx = cv2 := by
  simp only [QwtSplinePolynomial.fromCurvaturesD, QwtSplinePolynomial.curvatureAt]
  field_simp
  ring

theorem fromCurvaturesD_valueAt_run (dx dy cv1 cv2 : ℚ) (hdx : dx ≠ 0) :
    (QwtSplinePolynomial.fromCurvaturesD dx dy cv1 cv2).valueAt dx = dy := by
  simp only [QwtSplinePolynomial.fromCurvaturesD, QwtSplinePolynomial.valueAt]
  field_simp
  ring

/-- A cubic is determined by its rise over a nonzero run and its curvatures at both ends. -/
theorem fromCurvaturesD_unique (P : QwtSplinePolynomial) (dx dy cv1 cv2 : ℚ) (hdx : dx ≠ 0)
    (hv : P.valueAt dx = dy) (h1 : P.curvatureAt 0 = cv1) (h2 : P.curvatureAt dx = cv2) :
    P = QwtSplinePolynomial.fromCurvaturesD dx dy cv1 cv2 := by
  obtain ⟨c3, c2, c1⟩ := P
  simp only [QwtSplinePolynomial.valueAt, QwtSplinePolynomial.curvatureAt] at hv h1 h2
  simp only [QwtSplinePolynomial.fromCurvaturesD, QwtSplinePolynomial.mk.injEq]
  subst hv h1 h2
  refine ⟨?_, ?_, ?_⟩ <;> field_simp <;> ring

/-! ## Facts about the boundary slopes -/

theorem readAtInt_nth (p : QPolygonF) (k : Nat) (h1 : 1 ≤ k) (hk : k ≤ p.length) :
    readAtInt p ((p.length : Int) - k) = .ok (p.nth (p.length - k)) := by
  have e : (p.length : Int) - k = ((p.length - k : Nat) : Int) := by omega
  have hneg : ¬ ((p.length - k : Nat) : Int) < 0 := by omega
  rw [e]
  simp only [readAtInt, hneg, if_false, Int.toNat_ofNat]
  exact readAt_nth p _ (by omega)

/-- The cubic `pnomBegin` of `slopeBegin` for at least three points. -/
theorem slopeBegin_pnomBegin_eq (spline : QwtSplineC1) (points : QPolygonF) (m1 m2 dx dy : ℚ)
    (hn : 3 ≤ points.length) :
    QwtSplineC1.slopeBegin.pnomBegin spline points m1 m2 dx dy = .ok
      (QwtSplinePolynomial.fromCurvaturesD dx dy
        (QwtSplineC1.slopeBegin.cv1 spline spline.d_data.value0
          ((QwtSplinePolynomial.fromSlopes (points.nth 1) m1 (points.nth 2) m2).curvatureAt 0)
          (QwtSplinePolynomial.fromSlopes (points.nth 1) m1 (points.nth 2) m2))
        ((QwtSplinePolynomial.fromSlopes (points.nth 1) m1 (points.nth 2) m2).curvatureAt 0)) := by
  have r1 := readAt_nth points 1 (by omega)
  have r2 := readAt_nth points 2 (by omega)
  simp only [QwtSplineC1.slopeBegin.pnomBegin, r1, r2, bind, Except.bind, pure, Except.pure]

/-- The cubic `pnomEnd` of `slopeEnd` for at least three points. -/
theorem slopeEnd_pnomEnd_eq (spline : QwtSplineC1) (points : QPolygonF) (m1 m2 dx dy : ℚ)
    (hn : 3 ≤ points.length) :
    QwtSplineC1.slopeEnd.pnomEnd spline points m1 m2 dx dy = .ok
      (QwtSplinePolynomial.fromCurvaturesD dx dy
        ((QwtSplinePolynomial.fromSlopes (points.nth (points.length - 3)) m1
          (points.nth (points.length - 2)) m2).curvatureAt
            ((points.nth (points.length - 2)).x - (points.nth (points.length - 3)).x))
        (QwtSplineC1.slopeEnd.cv2 spline spline.d_data.value1
          ((QwtSplinePolynomial.fromSlopes (points.nth (points.length - 3)) m1
            (points.nth (points.length - 2)) m2).curvatureAt
              ((points.nth (points.length - 2)).x - (points.nth (points.length - 3)).x))
          (QwtSplinePolynomial.fromSlopes (points.nth (points.length - 3)) m1
            (points.nth (points.length - 2)) m2))) := by
  have r3 := readAtInt_nth points 3 (by omega) (by omega)
  have r2 := readAtInt_nth points 2 (by omega) (by omega)
  simp only [Nat.cast_ofNat] at r3 r2
  simp only [QwtSplineC1.slopeEnd.pnomEnd, r3, r2, bind, Except.bind, pure, Except.pure]

/-- The value of `slopeBegin` for at least three points when the condition is neither `Clamped`
nor `LinearRunout`: the slope at offset 0 of `pnomBegin`. -/
theorem slopeBegin_eq (spline : QwtSplineC1) (points : QPolygonF) (m1 m2 : ℚ)
    (hn : 3 ≤ points.length) (h1 : spline.boundaryCondition ≠ BoundaryCondition.Clamped)
    (h2 : spline.boundaryCondition ≠ BoundaryCondition.LinearRunout) :
    spline.slopeBegin points m1 m2 = .ok
      ((QwtSplinePolynomial.fromCurvaturesD ((points.nth 1).x - (points.nth 0).x)
        ((points.nth 1).y - (points.nth 0).y)
        (QwtSplineC1.slopeBegin.cv1 spline spline.d_data.value0
          ((QwtSplinePolynomial.fromSlopes (points.nth 1) m1 (points.nth 2) m2).curvatureAt 0)
          (QwtSplinePolynomial.fromSlopes (points.nth 1) m1 (points.nth 2) m2))
        ((QwtSplinePolynomial.fromSlopes (points.nth 1) m1 (points.nth 2) m2).curvatureAt
          0)).slopeAt 0) := by
  have h : ¬ points.length < 2 := by omega
  have r1 := readAt_nth points 1 (by omega)
  have r0 := readAt_nth points 0 (by omega)
  simp only [QwtSplineC1.slopeBegin, h, h1, h2, r1, r0, bind, Except.bind, pure, Except.pure,
    if_false, slopeBegin_pnomBegin_eq spline points m1 m2 _ _ hn]

/-- The value of `slopeEnd` for at least three points when the condition is neither `Clamped`
nor `LinearRunout`: the slope at offset `dx` of `pnomEnd`. -/
theorem slopeEnd_eq (spline : QwtSplineC1) (points : QPolygonF) (m1 m2 : ℚ)
    (hn : 3 ≤ points.length) (h1 : spline.boundaryCondition ≠ BoundaryCondition.Clamped)
    (h2 : spline.boundaryCondition ≠ BoundaryCondition.LinearRunout) :
    spline.slopeEnd points m1 m2 = .ok
      ((QwtSplinePolynomial.fromCurvaturesD
        ((points.nth (points.length - 1)).x - (points.nth (points.length - 2)).x)
        ((points.nth (points.length - 1)).y - (points.nth (points.length - 2)).y)
        ((QwtSplinePolynomial.fromSlopes (points.nth (points.length - 3)) m1
          (points.nth (points.length - 2)) m2).curvatureAt
            ((points.nth (points.length - 2)).x - (points.nth (points.length - 3)).x))
        (QwtSplineC1.slopeEnd.cv2 spline spline.d_data.value1
          ((QwtSplinePolynomial.fromSlopes (points.nth (points.length - 3)) m1
            (points.nth (points.length - 2)) m2).curvatureAt
              ((points.nth (points.length - 2)).x - (points.nth (points.length - 3)).x))
          (QwtSplinePolynomial.fromSlopes (points.nth (points.length - 3)) m1
            (points.nth (points.length - 2)) m2))).slopeAt
        ((points.nth (points.length - 1)).x - (points.nth (points.length - 2)).x)) := by
  have h : ¬ points.length < 2 := by omega
  have r1 := readAtInt_nth points 1 (by omega) (by omega)
  have r2 := readAtInt_nth points 2 (by omega) (by omega)
  simp only [Nat.cast_ofNat, Nat.cast_one] at r1 r2
  simp only [QwtSplineC1.slopeEnd, h, h1, h2, r1, r2, bind, Except.bind, pure, Except.pure,
    if_false, slopeEnd_pnomEnd_eq spline points m1 m2 _ _ hn]

/-- The polynomials returned by `QwtSplineC1::polynomials` when `slopes` returns at least two
values and not more values than there are points: one Hermite cubic per pair of neighbours. -/
theorem c1_polynomials_eq (spline : QwtSplineC1) (points : QPolygonF) (m : List ℚ)
    (hs : spline.slopes points = .ok m) (hm2 : 2 ≤ m.length) (hmn : m.length ≤ points.length) :
    spline.polynomials points = .ok ((List.range (m.length - 1)).map (fun i =>
      QwtSplinePolynomial.fromSlopes (points.nth i) (m.getD i 0) (points.nth (i + 1))
        (m.getD (i + 1) 0))) := by
  have hlt : ¬ m.length < 2 := by omega
  obtain ⟨ps, hrun, hps⟩ := forLoop_inv
    (fun i (polynomials : List QwtSplinePolynomial) => do
      let pim1 ← readAt points (i - 1)
      let mim1 ← readAt m (i - 1)
      let pi ← readAt points i
      let mi ← readAt m i
      return polynomials ++ [QwtSplinePolynomial.fromSlopes pim1 mim1 pi mi])
    (fun j ps => ps = (List.range (j - 1)).map (fun i =>
      QwtSplinePolynomial.fromSlopes (points.nth i) (m.getD i 0) (points.nth (i + 1))
        (m.getD (i + 1) 0)))
    (m.length - 1) 1 [] (by simp)
    (by
      intro j t h1 hj hI
      have r1 := readAt_nth points (j - 1) (by omega)
      have r2 := readAt_getD m (j - 1) (by omega)
      have r3 := readAt_nth points j (by omega)
      have r4 := readAt_getD m j (by omega)
      simp only [r1, r2, r3, r4, bind, Except.bind, pure, Except.pure]
      refine ⟨_, rfl, ?_⟩
      obtain ⟨i, rfl⟩ : ∃ i, j = i + 1 := ⟨j - 1, by omega⟩
      rw [hI]
      simp [List.range_succ])
  simp only [bind, Except.bind, pure, Except.pure] at hrun
  have e : 1 + (m.length - 1) - 1 = m.length - 1 := by omega
  rw [e] at hps
  subst hps
  simp only [QwtSplineC1.polynomials, hs, hlt, bind, Except.bind, pure, Except.pure, if_false]
  exact hrun

/-! ## C11: clamped boundary condition -/

theorem slopeBegin_clamped (spline : QwtSplineC1) (points : QPolygonF) (m1 m2 : ℚ)
    (hbc : spline.boundaryCondition = BoundaryCondition.Clamped) (hn : 2 ≤ points.length) :
    spline.slopeBegin points m1 m2 = .ok spline.boundaryValueBegin := by
  have h : ¬ points.length < 2 := by omega
  simp [QwtSplineC1.slopeBegin, h, hbc, QwtSplineC1.boundaryValueBegin, bind, Except.bind, pure,
    Except.pure]

theorem slopeEnd_clamped (spline : QwtSplineC1) (points : QPolygonF) (m1 m2 : ℚ)
    (hbc : spline.boundaryCondition = BoundaryCondition.Clamped) (hn : 2 ≤ points.length) :
    spline.slopeEnd points m1 m2 = .ok spline.boundaryValueEnd := by
  have h : ¬ points.length < 2 := by omega
  simp [QwtSplineC1.slopeEnd, h, hbc, QwtSplineC1.boundaryValueEnd, bind, Except.bind, pure,
    Except.pure]

/-- C11: with boundary condition Clamped and at least two points, `slopeBegin` returns the stored
begin value and `slopeEnd` the stored end value, for all arguments `m1`, `m2`; and when `slopes`
returns one value per point with these two values at index 0 and `n - 1`, `polynomials` returns
`n - 1` cubics of which the first has slope `m0` at offset 0 and the last has slope `mN` at the
offset `dx` of the last point, `dx` being the (nonzero) run of the last segment. -/
theorem C11_clamped_boundary_slopes (spline : QwtSplineC1) (points : QPolygonF) (m1 m2 : ℚ)
    (hbc : spline.boundaryCondition = BoundaryCondition.Clamped) (hn : 2 ≤ points.length) :
    spline.slopeBegin points m1 m2 = .ok spline.boundaryValueBegin ∧
    spline.slopeEnd points m1 m2 = .ok spline.boundaryValueEnd ∧
    ∀ m : List ℚ, spline.slopes points = .ok m → m.length = points.length →
      m.getD 0 0 = spline.boundaryValueBegin →
      m.getD (points.length - 1) 0 = spline.boundaryValueEnd →
      (points.nth (points.length - 1)).x - (points.nth (points.length - 2)).x ≠ 0 →
      ∃ ps first last, spline.polynomials points = .ok ps ∧
        ps.length = points.length - 1 ∧
        ps[0]? = some first ∧ ps[points.length - 2]? = some last ∧
        first.slopeAt 0 = spline.boundaryValueBegin ∧
        last.slopeAt ((points.nth (points.length - 1)).x - (points.nth (points.length - 2)).x)
          = spline.boundaryValueEnd := by
  refine ⟨slopeBegin_clamped spline points m1 m2 hbc hn,
    slopeEnd_clamped spline points m1 m2 hbc hn, ?_⟩
  intro m hs hm h0 hN hdx
  have hp := c1_polynomials_eq spline points m hs (by omega) (by omega)
  have e1 : points.length - 2 + 1 = points.length - 1 := by omega
  refine ⟨_, QwtSplinePolynomial.fromSlopes (points.nth 0) (m.getD 0 0) (points.nth 1)
      (m.getD 1 0),
    QwtSplinePolynomial.fromSlopes (points.nth (points.length - 2))
      (m.getD (points.length - 2) 0) (points.nth (points.length - 1))
      (m.getD (points.length - 1) 0), hp, by simp [hm], ?_, ?_, ?_, ?_⟩
  · rw [List.getElem?_map, List.getElem?_range (by omega)]
    rfl
  · rw [List.getElem?_map, List.getElem?_range (by omega)]
    simp [e1]
  · rw [fromSlopes_slopeAt_zero, h0]
  · rw [fromSlopes_slopeAt_run _ _ _ _ hdx, hN]

/-- C11 witness: the points (0,0), (1,1), (2,0), stored values 3 and 7, slopes 3, 5, 7. -/
theorem C11_clamped_boundary_slopes_witness :
    2 ≤ exPoints.length ∧
    (exSplineC1Bc .Clamped 3 7 [3, 5, 7]).slopeBegin exPoints 0 0 = .ok 3 ∧
    (exSplineC1Bc .Clamped 3 7 [3, 5, 7]).slopeEnd exPoints 0 0 = .ok 7 ∧
    ∃ ps first last, (exSplineC1Bc .Clamped 3 7 [3, 5, 7]).polynomials exPoints = .ok ps ∧
      ps.length = exPoints.length - 1 ∧
      ps[0]? = some first ∧ ps[exPoints.length - 2]? = some last ∧
      first.slopeAt 0 = 3 ∧
      last.slopeAt ((exPoints.nth (exPoints.length - 1)).x - (exPoints.nth (exPoints.length - 2)).x)
        = 7 :=
  have h := C11_clamped_boundary_slopes (exSplineC1Bc .Clamped 3 7 [3, 5, 7]) exPoints 0 0 rfl
    (by decide)
  ⟨by decide, h.1, h.2.1,
    h.2.2 [3, 5, 7] rfl rfl rfl rfl (by norm_num [QPolygonF.nth, exPoints])⟩

/-! ## C12: cubic runout -/

/-- Under CubicRunout the cubic that `slopeEnd` builds over the last segment has, at the last
point, the curvature `2 * k(n-2) - k(n-3)` extrapolated from the two ends of the Hermite cubic
through `points[n-3]` and `points[n-2]`. -/
theorem slopeEnd_cubicRunout_curvature (spline : QwtSplineC1) (points : QPolygonF)
    (m1 m2 dx dy : ℚ) (hn : 3 ≤ points.length)
    (hbc : spline.boundaryCondition = BoundaryCondition.CubicRunout) (hdx : dx ≠ 0) :
    ∃ P, QwtSplineC1.slopeEnd.pnomEnd spline points m1 m2 dx dy = .ok P ∧
      P.curvatureAt dx =
        2 * (QwtSplinePolynomial.fromSlopes (points.nth (points.length - 3)) m1
          (points.nth (points.length - 2)) m2).curvatureAt
            ((points.nth (points.length - 2)).x - (points.nth (points.length - 3)).x)
        - (QwtSplinePolynomial.fromSlopes (points.nth (points.length - 3)) m1
          (points.nth (points.length - 2)) m2).curvatureAt 0 := by
  refine ⟨_, slopeEnd_pnomEnd_eq spline points m1 m2 dx dy hn, ?_⟩
  rw [fromCurvaturesD_curvatureAt_run _ _ _ _ hdx]
  simp [QwtSplineC1.slopeEnd.cv2, hbc]

/-- Under CubicRunout the cubic that `slopeBegin` builds over the first segment has, at the
first point, the curvature `2 * k1 - k`, where `k` is the curvature of the Hermite cubic through
`points[1]` and `points[2]` at offset 1 from `points[1]`, whatever the run of that segment. -/
theorem slopeBegin_cubicRunout_curvature (spline : QwtSplineC1) (points : QPolygonF)
    (m1 m2 dx dy : ℚ) (hn : 3 ≤ points.length)
    (hbc : spline.boundaryCondition = BoundaryCondition.CubicRunout) :
    ∃ P, QwtSplineC1.slopeBegin.pnomBegin spline points m1 m2 dx dy = .ok P ∧
      P.curvatureAt 0 =
        2 * (QwtSplinePolynomial.fromSlopes (points.nth 1) m1 (points.nth 2) m2).curvatureAt 0
        - (QwtSplinePolynomial.fromSlopes (points.nth 1) m1 (points.nth 2) m2).curvatureAt 1 := by
  refine ⟨_, slopeBegin_pnomBegin_eq spline points m1 m2 dx dy hn, ?_⟩
  rw [fromCurvaturesD_curvatureAt_zero]
  simp [QwtSplineC1.slopeBegin.cv1, hbc]

/-- C12 at the points (0,0), (1,1), (3,0) with `m1 = m2 = 0`: the Hermite cubic through
`points[1]` and `points[2]` has curvature `k1 = -3/2` at `points[1]` and `k2 = 3/2` at
`points[2]`, so `2*k1 - k2 = -9/2`; the cubic that `slopeBegin` builds has curvature `-3` at
point 0, because the code takes the second curvature at offset 1 instead of at the run 2 of the
segment; `slopeBegin` returns 9/4. -/
theorem C12_cubic_runout_begin_divergence :
    (∃ P, QwtSplineC1.slopeBegin.pnomBegin (exSplineC1Bc .CubicRunout 0 0 [])
        [⟨0, 0⟩, ⟨1, 1⟩, ⟨3, 0⟩] 0 0 (1 - 0) (1 - 0) = .ok P ∧ P.curvatureAt 0 = -3) ∧
    2 * (QwtSplinePolynomial.fromSlopes ⟨1, 1⟩ 0 ⟨3, 0⟩ 0).curvatureAt 0
      - (QwtSplinePolynomial.fromSlopes ⟨1, 1⟩ 0 ⟨3, 0⟩ 0).curvatureAt (3 - 1) = -9/2 ∧
    (exSplineC1Bc .CubicRunout 0 0 []).slopeBegin [⟨0, 0⟩, ⟨1, 1⟩, ⟨3, 0⟩] 0 0 = .ok (9/4) := by
  refine ⟨?_, ?_, ?_⟩
  · obtain ⟨P, hP, hc⟩ := slopeBegin_cubicRunout_curvature (exSplineC1Bc .CubicRunout 0 0 [])
      [⟨0, 0⟩, ⟨1, 1⟩, ⟨3, 0⟩] 0 0 (1 - 0) (1 - 0) (by decide) rfl
    refine ⟨P, hP, ?_⟩
    rw [hc]
    norm_num [QPolygonF.nth, QwtSplinePolynomial.fromSlopes, QwtSplinePolynomial.fromSlopesD,
      QwtSplinePolynomial.curvatureAt]
  · norm_num [QwtSplinePolynomial.fromSlopes, QwtSplinePolynomial.fromSlopesD,
      QwtSplinePolynomial.curvatureAt]
  · rw [slopeBegin_eq _ _ _ _ (by decide) (by decide) (by decide)]
    norm_num [QPolygonF.nth, QwtSplinePolynomial.fromSlopes, QwtSplinePolynomial.fromSlopesD,
      QwtSplinePolynomial.curvatureAt, QwtSplinePolynomial.fromCurvaturesD,
      QwtSplinePolynomial.slopeAt, QwtSplineC1.slopeBegin.cv1, exSplineC1Bc,
      QwtSplineC1.boundaryCondition]

/-! ## C13: not-a-knot -/

/-- Under NotAKnot the cubic that `slopeBegin` builds over a first segment of run `dx` has the
cubic coefficient `c3 / dx`, and the cubic that `slopeEnd` builds over a last segment of run `dx`
has the cubic coefficient `- c3 / dx`, where `c3` is the cubic coefficient of the Hermite cubic
over the neighbouring segment. -/
theorem notAKnot_c3 (spline : QwtSplineC1) (points : QPolygonF) (m1 m2 dx dy : ℚ)
    (hn : 3 ≤ points.length) (hbc : spline.boundaryCondition = BoundaryCondition.NotAKnot) :
    (∃ P, QwtSplineC1.slopeBegin.pnomBegin spline points m1 m2 dx dy = .ok P ∧
      P.c3 = (QwtSplinePolynomial.fromSlopes (points.nth 1) m1 (points.nth 2) m2).c3 / dx) ∧
    (∃ P, QwtSplineC1.slopeEnd.pnomEnd spline points m1 m2 dx dy = .ok P ∧
      P.c3 = - (QwtSplinePolynomial.fromSlopes (points.nth (points.length - 3)) m1
        (points.nth (points.length - 2)) m2).c3 / dx) := by
  refine ⟨⟨_, slopeBegin_pnomBegin_eq spline points m1 m2 dx dy hn, ?_⟩,
    ⟨_, slopeEnd_pnomEnd_eq spline points m1 m2 dx dy hn, ?_⟩⟩
  · simp only [QwtSplinePolynomial.fromCurvaturesD, QwtSplineC1.slopeBegin.cv1, hbc]
    by_cases h : dx = 0
    · simp [h]
    · field_simp; ring
  · simp only [QwtSplinePolynomial.fromCurvaturesD, QwtSplineC1.slopeEnd.cv2, hbc]
    by_cases h : dx = 0
    · simp [h]
    · field_simp; ring

/-- C13: over a first segment of run 2 (points (0,0), (2,1), (3,3), slopes 0) `slopeBegin`
builds a cubic with `c3 = -2` while the Hermite cubic of the second segment has `c3 = -4`; over
a last segment of run 1 (points (0,0), (1,2), (2,3), slopes 0) `slopeEnd` builds a cubic with
`c3 = 4` while the Hermite cubic of the segment before has `c3 = -4`. -/
theorem C13_not_a_knot_divergence :
    (∃ P, QwtSplineC1.slopeBegin.pnomBegin (exSplineC1Bc .NotAKnot 0 0 [])
        [⟨0, 0⟩, ⟨2, 1⟩, ⟨3, 3⟩] 0 0 (2 - 0) (1 - 0) = .ok P ∧ P.c3 = -2) ∧
    (QwtSplinePolynomial.fromSlopes ⟨2, 1⟩ 0 ⟨3, 3⟩ 0).c3 = -4 ∧
    (∃ P, QwtSplineC1.slopeEnd.pnomEnd (exSplineC1Bc .NotAKnot 0 0 [])
        [⟨0, 0⟩, ⟨1, 2⟩, ⟨2, 3⟩] 0 0 (2 - 1) (3 - 2) = .ok P ∧ P.c3 = 4) ∧
    (QwtSplinePolynomial.fromSlopes ⟨0, 0⟩ 0 ⟨1, 2⟩ 0).c3 = -4 := by
  refine ⟨?_, ?_, ?_, ?_⟩
  · obtain ⟨⟨P, hP, hc⟩, _⟩ := notAKnot_c3 (exSplineC1Bc .NotAKnot 0 0 [])
      [⟨0, 0⟩, ⟨2, 1⟩, ⟨3, 3⟩] 0 0 (2 - 0) (1 - 0) (by decide) rfl
    refine ⟨P, hP, ?_⟩
    rw [hc]
    norm_num [QPolygonF.nth, QwtSplinePolynomial.fromSlopes, QwtSplinePolynomial.fromSlopesD]
  · norm_num [QwtSplinePolynomial.fromSlopes, QwtSplinePolynomial.fromSlopesD]
  · obtain ⟨_, ⟨P, hP, hc⟩⟩ := notAKnot_c3 (exSplineC1Bc .NotAKnot 0 0 [])
      [⟨0, 0⟩, ⟨1, 2⟩, ⟨2, 3⟩] 0 0 (2 - 1) (3 - 2) (by decide) rfl
    refine ⟨P, hP, ?_⟩
    rw [hc]
    norm_num [QPolygonF.nth, QwtSplinePolynomial.fromSlopes, QwtSplinePolynomial.fromSlopesD]
  · norm_num [QwtSplinePolynomial.fromSlopes, QwtSplinePolynomial.fromSlopesD]

/-! ## C14: natural, parabolic runout and clamped curvature -/

theorem slopeBegin_cv1_of (spline : QwtSplineC1) (v k : ℚ) (pnom : QwtSplinePolynomial) :
    (spline.boundaryCondition = BoundaryCondition.Natural →
      QwtSplineC1.slopeBegin.cv1 spline v k pnom = 0) ∧
    (spline.boundaryCondition = BoundaryCondition.ParabolicRunout →
      QwtSplineC1.slopeBegin.cv1 spline v k pnom = k) ∧
    (spline.boundaryCondition = BoundaryCondition.Clamped2 →
      QwtSplineC1.slopeBegin.cv1 spline v k pnom = v) := by
  refine ⟨?_, ?_, ?_⟩ <;> intro h <;> simp [QwtSplineC1.slopeBegin.cv1, h]

theorem slopeEnd_cv2_of (spline : QwtSplineC1) (v k : ℚ) (pnom : QwtSplinePolynomial) :
    (spline.boundaryCondition = BoundaryCondition.Natural →
      QwtSplineC1.slopeEnd.cv2 spline v k pnom = 0) ∧
    (spline.boundaryCondition = BoundaryCondition.ParabolicRunout →
      QwtSplineC1.slopeEnd.cv2 spline v k pnom = k) ∧
    (spline.boundaryCondition = BoundaryCondition.Clamped2 →
      QwtSplineC1.slopeEnd.cv2 spline v k pnom = v) := by
  refine ⟨?_, ?_, ?_⟩ <;> intro h <;> simp [QwtSplineC1.slopeEnd.cv2, h]

/-- C14: for the policies Natural, ParabolicRunout and Clamped2, at least three points and
boundary segments of nonzero run, there is exactly one cubic over the first (last) segment with
rise `dy` over run `dx`, curvature `k` at the inner knot and the boundary curvature of the policy
(see `IsBoundaryCubic`), `k` being the curvature at that knot of the Hermite cubic of the
neighbouring segment; `slopeBegin` (`slopeEnd`) returns the slope of this cubic at the boundary
point.  Under Natural `slopeBegin = dy/dx - k*dx/6` and `slopeEnd = dy/dx + k*dx/6`. -/
theorem C14_boundary_slope_from_curvatures (spline : QwtSplineC1) (points : QPolygonF)
    (m1 m2 dxB dyB kB dxE dyE kE : ℚ) (hn : 3 ≤ points.length)
    (hbc : spline.boundaryCondition = BoundaryCondition.Natural ∨
      spline.boundaryCondition = BoundaryCondition.ParabolicRunout ∨
      spline.boundaryCondition = BoundaryCondition.Clamped2)
    (hdxB : dxB = (points.nth 1).x - (points.nth 0).x)
    (hdyB : dyB = (points.nth 1).y - (points.nth 0).y)
    (hkB : kB = (QwtSplinePolynomial.fromSlopes (points.nth 1) m1 (points.nth 2)
      m2).curvatureAt 0)
    (hdxE : dxE = (points.nth (points.length - 1)).x - (points.nth (points.length - 2)).x)
    (hdyE : dyE = (points.nth (points.length - 1)).y - (points.nth (points.length - 2)).y)
    (hkE : kE = (QwtSplinePolynomial.fromSlopes (points.nth (points.length - 3)) m1
      (points.nth (points.length - 2)) m2).curvatureAt
        ((points.nth (points.length - 2)).x - (points.nth (points.length - 3)).x))
    (hB0 : dxB ≠ 0) (hE0 : dxE ≠ 0) :
    (∃ P, IsBoundaryCubic spline.boundaryCondition spline.boundaryValueBegin dxB dyB kB true P ∧
      spline.slopeBegin points m1 m2 = .ok (P.slopeAt 0) ∧
      ∀ Q, IsBoundaryCubic spline.boundaryCondition spline.boundaryValueBegin dxB dyB kB true Q →
        Q = P) ∧
    (∃ P, IsBoundaryCubic spline.boundaryCondition spline.boundaryValueEnd dxE dyE kE false P ∧
      spline.slopeEnd points m1 m2 = .ok (P.slopeAt dxE) ∧
      ∀ Q, IsBoundaryCubic spline.boundaryCondition spline.boundaryValueEnd dxE dyE kE false Q →
        Q = P) ∧
    (spline.boundaryCondition = BoundaryCondition.Natural →
      spline.slopeBegin points m1 m2 = .ok (dyB / dxB - kB * dxB / 6) ∧
      spline.slopeEnd points m1 m2 = .ok (dyE / dxE + kE * dxE / 6)) := by
  have hc1 : spline.boundaryCondition ≠ BoundaryCondition.Clamped := by
    rcases hbc with h | h | h <;> rw [h] <;> decide
  have hc2 : spline.boundaryCondition ≠ BoundaryCondition.LinearRunout := by
    rcases hbc with h | h | h <;> rw [h] <;> decide
  have hB := slopeBegin_eq spline points m1 m2 hn hc1 hc2
  have hE := slopeEnd_eq spline points m1 m2 hn hc1 hc2
  rw [← hdxB, ← hdyB, ← hkB] at hB
  rw [← hdxE, ← hdyE, ← hkE] at hE
  obtain ⟨bN, bP, bC⟩ := slopeBegin_cv1_of spline spline.d_data.value0 kB
    (QwtSplinePolynomial.fromSlopes (points.nth 1) m1 (points.nth 2) m2)
  obtain ⟨eN, eP, eC⟩ := slopeEnd_cv2_of spline spline.d_data.value1 kE
    (QwtSplinePolynomial.fromSlopes (points.nth (points.length - 3)) m1
      (points.nth (points.length - 2)) m2)
  refine ⟨⟨_, ⟨?_, ?_, ?_, ?_, ?_⟩, hB, ?_⟩, ⟨_, ⟨?_, ?_, ?_, ?_, ?_⟩, hE, ?_⟩, ?_⟩
  · exact fromCurvaturesD_valueAt_run _ _ _ _ hB0
  · simpa using fromCurvaturesD_curvatureAt_run _ _ _ _ hB0
  · intro h; simp only [Bool.false_eq_true, if_false, if_true]
    rw [fromCurvaturesD_curvatureAt_zero, bN h]
  · intro h; simp only [Bool.false_eq_true, if_false, if_true]
    rw [fromCurvaturesD_curvatureAt_zero, bP h]
  · intro h; simp only [Bool.false_eq_true, if_false, if_true]
    rw [fromCurvaturesD_curvatureAt_zero, bC h]; rfl
  · intro Q ⟨q1, q2, q3, q4, q5⟩
    simp only [if_true] at q2 q3 q4 q5
    apply fromCurvaturesD_unique Q _ _ _ _ hB0 q1 _ q2
    rcases hbc with h | h | h
    · rw [q3 h, bN h]
    · rw [q4 h, bP h]
    · rw [q5 h, bC h]; rfl
  · exact fromCurvaturesD_valueAt_run _ _ _ _ hE0
  · simpa using fromCurvaturesD_curvatureAt_zero _ _ _ _
  · intro h; simp only [Bool.false_eq_true, if_false]
    rw [fromCurvaturesD_curvatureAt_run _ _ _ _ hE0, eN h]
  · intro h; simp only [Bool.false_eq_true, if_false]
    rw [fromCurvaturesD_curvatureAt_run _ _ _ _ hE0, eP h]
  · intro h; simp only [Bool.false_eq_true, if_false]
    rw [fromCurvaturesD_curvatureAt_run _ _ _ _ hE0, eC h]; rfl
  · intro Q ⟨q1, q2, q3, q4, q5⟩
    simp only [Bool.false_eq_true, if_false] at q2 q3 q4 q5
    apply fromCurvaturesD_unique Q _ _ _ _ hE0 q1 q2
    rcases hbc with h | h | h
    · rw [q3 h, eN h]
    · rw [q4 h, eP h]
    · rw [q5 h, eC h]; rfl
  · intro h
    rw [hB, hE, bN h, eN h]
    constructor
    · congr 1
      simp only [QwtSplinePolynomial.fromCurvaturesD, QwtSplinePolynomial.slopeAt]
      field_simp
      ring
    · congr 1
      simp only [QwtSplinePolynomial.fromCurvaturesD, QwtSplinePolynomial.slopeAt]
      field_simp
      ring

/-- C14 witness: Natural boundary condition on the points (0,0), (1,1), (2,0), slopes 0. -/
theorem C14_boundary_slope_from_curvatures_witness :
    3 ≤ exPoints.length ∧
    (exSplineC1Bc .Natural 0 0 []).slopeBegin exPoints 0 0 = .ok
      (((exPoints.nth 1).y - (exPoints.nth 0).y) / ((exPoints.nth 1).x - (exPoints.nth 0).x)
        - (QwtSplinePolynomial.fromSlopes (exPoints.nth 1) 0 (exPoints.nth 2) 0).curvatureAt 0
          * ((exPoints.nth 1).x - (exPoints.nth 0).x) / 6) :=
  ⟨by decide,
    ((C14_boundary_slope_from_curvatures (exSplineC1Bc .Natural 0 0 []) exPoints 0 0
      _ _ _ _ _ _ (by decide) (Or.inl rfl) rfl rfl rfl rfl rfl rfl
      (by norm_num [QPolygonF.nth, exPoints])
      (by norm_num [QPolygonF.nth, exPoints])).2.2 rfl).1⟩

/-! ## C15: linear runout -/

/-- Under LinearRunout, with at least two points, `slopeBegin` and `slopeEnd` both return
`s - v * ( s - m1 )` for the secant slope `s` of their boundary segment, the stored value `v` and
their FIRST slope argument `m1`. -/
theorem linearRunout_eq (spline : QwtSplineC1) (points : QPolygonF) (m1 m2 : ℚ)
    (hn : 2 ≤ points.length)
    (hbc : spline.boundaryCondition = BoundaryCondition.LinearRunout) :
    spline.slopeBegin points m1 m2 = .ok
      (((points.nth 1).y - (points.nth 0).y) / ((points.nth 1).x - (points.nth 0).x)
        - spline.boundaryValueBegin *
          (((points.nth 1).y - (points.nth 0).y) / ((points.nth 1).x - (points.nth 0).x) - m1)) ∧
    spline.slopeEnd points m1 m2 = .ok
      (((points.nth (points.length - 1)).y - (points.nth (points.length - 2)).y) /
          ((points.nth (points.length - 1)).x - (points.nth (points.length - 2)).x)
        - spline.boundaryValueEnd *
          (((points.nth (points.length - 1)).y - (points.nth (points.length - 2)).y) /
            ((points.nth (points.length - 1)).x - (points.nth (points.length - 2)).x) - m1)) := by
  have h : ¬ points.length < 2 := by omega
  have hc : spline.boundaryCondition ≠ BoundaryCondition.Clamped := by rw [hbc]; decide
  have r1 := readAt_nth points 1 (by omega)
  have r0 := readAt_nth points 0 (by omega)
  have e1 := readAtInt_nth points 1 (by omega) (by omega)
  have e2 := readAtInt_nth points 2 (by omega) (by omega)
  simp only [Nat.cast_ofNat, Nat.cast_one] at e1 e2
  constructor
  · simp only [QwtSplineC1.slopeBegin, h, hc, hbc, r1, r0, bind, Except.bind, pure, Except.pure,
      if_false, if_true, QwtSplineC1.boundaryValueBegin]
    simp
  · simp only [QwtSplineC1.slopeEnd, h, hc, hbc, e1, e2, bind, Except.bind, pure, Except.pure,
      if_false, if_true, QwtSplineC1.boundaryValueEnd]
    simp

/-- C15 under LinearRunout with stored value 1 on the points (0,0), (1,1), (2,0), with slope
arguments 5 (at `points[n-3]`) and 7 (at `points[n-2]`): `slopeEnd` returns 5, the slope of
`points[n-3]`, not the slope 7 of the control point adjacent to the end; `slopeBegin`, whose
first argument is the slope at `points[1]`, returns the adjacent slope 5. -/
theorem C15_linear_runout_end_divergence :
    (exSplineC1Bc .LinearRunout 1 1 []).slopeEnd exPoints 5 7 = .ok 5 ∧
    (exSplineC1Bc .LinearRunout 1 1 []).slopeBegin exPoints 5 7 = .ok 5 := by
  obtain ⟨hB, hE⟩ := linearRunout_eq (exSplineC1Bc .LinearRunout 1 1 []) exPoints 5 7
    (by decide) rfl
  rw [hB, hE]
  constructor <;>
  norm_num [QPolygonF.nth, exPoints, exSplineC1Bc, QwtSplineC1.boundaryValueBegin,
    QwtSplineC1.boundaryValueEnd]

/-! ## C16: the wrap-around segment of the parametric builder -/

/-- C16 at a closing spline with uniform parametrization on the points (0,0), (1,1), (2,0),
where `slopes` returns (0, 1, 2, 3) for both auxiliary sequences: the wrap-around cubic of the
path has the control points (3,1) = `points[2] + (mx[3], my[3]) / 3` and
(0,0) = `points[0] - (mx[0], my[0]) / 3`, not `points[2] + (mx[2], my[2]) / 3` = (8/3, 2/3) and
`points[0] - (mx[3], my[3]) / 3` = (-1,-1). -/
theorem C16_wrap_segment_divergence :
    (∀ q, ∃ m, (exSplineC1With .ParameterUniform true [0, 1, 2, 3]).slopes q = .ok m) ∧
    (exSplineC1With .ParameterUniform true [0, 1, 2, 3]).painterPath exPoints =
      .ok [PathElement.moveTo ⟨0, 0⟩,
        PathElement.cubicTo ⟨0, 0⟩ ⟨2/3, 2/3⟩ ⟨1, 1⟩,
        PathElement.cubicTo ⟨4/3, 4/3⟩ ⟨4/3, -2/3⟩ ⟨2, 0⟩,
        PathElement.cubicTo ⟨3, 1⟩ ⟨0, 0⟩ ⟨0, 0⟩,
        PathElement.closeSubpath] ∧
    (⟨3, 1⟩ : QPointF) ≠ ⟨2 + 2 * (1 / 3), 0 + 2 * (1 / 3)⟩ ∧
    (⟨0, 0⟩ : QPointF) ≠ ⟨0 - 3 * (1 / 3), 0 - 3 * (1 / 3)⟩ := by
  refine ⟨fun q => ⟨_, rfl⟩, ?_, ?_, ?_⟩
  · simp [QwtSplineC1.painterPath, QwtSplineC1.dispatch, exSplineC1With, exParam, exPoints,
      qwtSplineC1PathParametric, qwtSplineC1PathParametric.aux, qwtSplineC1PathParametric.body,
      qwtSplineC1PathParametric.closing, forLoop, readAt, bind, Except.bind, pure,
      Except.pure, SplineStore.new, SplineStore.init, SplineStore.start, SplineStore.addCubic,
      SplineStore.finish]
    norm_num
  · simp only [ne_eq, QPointF.mk.injEq, not_and]; norm_num
  · simp only [ne_eq, QPointF.mk.injEq, not_and]; norm_num

/-! ## C17: both ends of the resampled closed curve -/

theorem qFuzzyCompare_comm (a b : ℚ) : qFuzzyCompare a b = qFuzzyCompare b a := by
  unfold qFuzzyCompare
  rw [abs_sub_comm, min_comm]

theorem qFuzzyCompare_zero_five : qFuzzyCompare 0 5 = false := by
  rw [qFuzzyCompare_of_le _ _ (by norm_num) (by norm_num)]; norm_num

theorem qFuzzyCompare_five_zero : qFuzzyCompare 5 0 = false := by
  rw [qFuzzyCompare_comm, qFuzzyCompare_zero_five]

theorem snapOrAppend_spec (path : QPolygonF) (p : QPointF) (h : path ≠ []) :
    ∃ r, snapOrAppend path p = .ok r ∧ r.getLast? = some p ∧ r ≠ [] ∧
      (r = path.dropLast ++ [p] ∨ r = path ++ [p]) := by
  obtain ⟨q, hq⟩ : ∃ q, path.getLast? = some q := by
    cases hp : path.getLast? with
    | none => exact absurd (List.getLast?_eq_none_iff.mp hp) h
    | some q => exact ⟨q, rfl⟩
  by_cases hf : qFuzzyCompare q.x p.x = true
  · exact ⟨path.dropLast ++ [p], by simp [snapOrAppend, hq, hf], by simp, by simp, Or.inl rfl⟩
  · exact ⟨path ++ [p], by simp [snapOrAppend, hq, hf], by simp, by simp, Or.inr rfl⟩

theorem head?_dropLast_append (path : QPolygonF) (a : QPointF) (h : path.head? = some a) :
    (path.dropLast ++ [a]).head? = some a := by
  cases path with
  | nil => simp
  | cons x rest =>
    cases rest with
    | nil => simp
    | cons y r => simpa using h

/-- One segment of the generic resampler: with positive spacing it ends for every large enough
budget, keeps the polygon non-empty and, without nodes, keeps its first point. -/
theorem base_equidistantPolygon_body_ok (spline : QwtSpline) (d : ℚ) (p : QPolygonF)
    (cl : List QLineF) (withNodes : Bool) (hd : 0 < d) (i : Nat) (hi : i + 1 < p.length)
    (hcl : i < cl.length) (st : QPolygonF × ℚ) (hne : st.1 ≠ []) :
    ∃ F st1, st1.1 ≠ [] ∧ (withNodes = false → st1.1.head? = st.1.head?) ∧
      ∀ fuel, F ≤ fuel →
        QwtSpline.equidistantPolygon.body spline fuel d p cl withNodes i st = .ok st1 := by
  obtain ⟨out, t⟩ := st
  simp only at hne
  have r1 := readAt_nth p i (by omega)
  have r2 := readAt_nth p (i + 1) hi
  have r3 := readAt_of_lt cl i hcl
  obtain ⟨m, hlt, hle⟩ := sampling_count_exists
    (spline.d_parametrization.valueIncrement (p.nth i) (p.nth (i + 1))) d t hd
  have hw := whileLoop_sampling
    (fun t => qwtBezierPoint (p.nth i) cl[i].p1 cl[i].p2 (p.nth (i + 1))
      (t / spline.d_parametrization.valueIncrement (p.nth i) (p.nth (i + 1))))
    (spline.d_parametrization.valueIncrement (p.nth i) (p.nth (i + 1))) d m out t hlt hle
  beta_reduce at hw
  generalize hout1 : out ++ (List.range m).map (fun s : Nat => qwtBezierPoint (p.nth i)
    cl[i].p1 cl[i].p2 (p.nth (i + 1)) ((t + s * d) /
      spline.d_parametrization.valueIncrement (p.nth i) (p.nth (i + 1)))) = out1 at hw
  have hne1 : out1 ≠ [] := by rw [← hout1]; simp [hne]
  have hhead : out1.head? = out.head? := by
    rw [← hout1, List.head?_append_of_ne_nil _ hne]
  cases withNodes with
  | false =>
    refine ⟨m, (out1, t + m * d -
      spline.d_parametrization.valueIncrement (p.nth i) (p.nth (i + 1))), hne1,
      fun _ => hhead, ?_⟩
    intro fuel hf
    simp only [QwtSpline.equidistantPolygon.body, r1, r2, r3, bind, Except.bind, pure,
      Except.pure, hw fuel hf]
    rfl
  | true =>
    obtain ⟨r, hr, _, hrne, _⟩ := snapOrAppend_spec out1 (p.nth (i + 1)) hne1
    refine ⟨m, (r, d), hrne, fun h => absurd h (by decide), ?_⟩
    intro fuel hf
    simp only [QwtSpline.equidistantPolygon.body, r1, r2, r3, bind, Except.bind, pure,
      Except.pure, hw fuel hf, hr]
    rfl

/-- The generic resampler on a closing spline whose hook returns at least `n` lines: for every
large enough budget it returns one polygon, which ends with `points[0]` and, without nodes, also
begins with `points[0]`. -/
theorem base_equidistantPolygon_closing_ends (spline : QwtSpline) (points : QPolygonF)
    (lines : List QLineF) (distance : ℚ) (withNodes : Bool) (hn : 3 ≤ points.length)
    (hd : 0 < distance) (hc : spline.d_isClosing = true)
    (hh : spline.bezierControlLines points = .ok lines) (hl : points.length ≤ lines.length) :
    ∃ F out, (∀ fuel, F ≤ fuel →
        spline.equidistantPolygon fuel points distance withNodes = .ok out) ∧
      out.getLast? = some (points.nth 0) ∧
      (withNodes = false → out.head? = some (points.nth 0)) := by
  obtain ⟨F1, ⟨out, t⟩, ⟨hne, hhead⟩, hrun⟩ := forLoop_inv_fuel
    (fun fuel => QwtSpline.equidistantPolygon.body spline fuel distance points lines withNodes)
    (fun _ st => st.1 ≠ [] ∧ (withNodes = false → st.1.head? = some (points.nth 0)))
    (points.length - 1) 0 ([points.nth 0], distance) ⟨by simp, fun _ => rfl⟩
    (by
      intro j st _ hj ⟨h1, h2⟩
      obtain ⟨F, st1, g1, g2, g3⟩ := base_equidistantPolygon_body_ok spline distance points lines
        withNodes hd j (by omega) (by omega) st h1
      exact ⟨F, st1, ⟨g1, fun h => by rw [g2 h, h2 h]⟩, g3⟩)
  simp only at hne hhead
  have r1 := readAt_nth points (points.length - 1) (by omega)
  have r0 := readAt_nth points 0 (by omega)
  have r3 := readAt_of_lt lines (points.length - 1) (by omega)
  obtain ⟨m, hlt, hle⟩ := sampling_count_exists
    (spline.d_parametrization.valueIncrement (points.nth (points.length - 1)) (points.nth 0))
    distance t hd
  have hw := whileLoop_sampling
    (fun t => qwtBezierPoint (points.nth (points.length - 1)) lines[points.length - 1].p1
      lines[points.length - 1].p2 (points.nth 0)
      (t / spline.d_parametrization.valueIncrement (points.nth (points.length - 1))
        (points.nth 0)))
    (spline.d_parametrization.valueIncrement (points.nth (points.length - 1)) (points.nth 0))
    distance m out t hlt hle
  beta_reduce at hw
  generalize hout1 : out ++ (List.range m).map (fun s : Nat =>
    qwtBezierPoint (points.nth (points.length - 1)) lines[points.length - 1].p1
      lines[points.length - 1].p2 (points.nth 0)
      ((t + s * distance) / spline.d_parametrization.valueIncrement
        (points.nth (points.length - 1)) (points.nth 0))) = out1 at hw
  have hne1 : out1 ≠ [] := by rw [← hout1]; simp [hne]
  have hhead1 : out1.head? = out.head? := by
    rw [← hout1, List.head?_append_of_ne_nil _ hne]
  obtain ⟨r, hr, hlast, _, hshape⟩ := snapOrAppend_spec out1 (points.nth 0) hne1
  refine ⟨max F1 m, r, ?_, hlast, ?_⟩
  · intro fuel hf
    have hd0 : ¬ distance ≤ 0 := not_le.mpr hd
    have h1 : ¬ points.length ≤ 1 := by omega
    have h2 : points.length ≠ 2 := by omega
    have h3 : ¬ lines.length < points.length - 1 := by omega
    simp only [QwtSpline.equidistantPolygon, hd0, h1, h2, h3, hh, r0, bind, Except.bind, pure,
      Except.pure, if_false, List.nil_append, hrun fuel (le_trans (le_max_left _ _) hf), hc,
      ge_iff_le, hl, decide_True, Bool.and_self, if_true,
      QwtSpline.equidistantPolygon.closing, r1, r3,
      hw fuel (le_trans (le_max_right _ _) hf), hr]
  · intro h
    have hh1 : out1.head? = some (points.nth 0) := by rw [hhead1, hhead h]
    rcases hshape with e | e
    · rw [e]; exact head?_dropLast_append out1 _ hh1
    · rw [e, List.head?_append_of_ne_nil _ hne1]; exact hh1

/-- C17 with `withNodes = true`, spacing 10, uniform parametrization, a closing spline whose hook
returns three lines, and the points (0,0), (0,1), (5,2): the polygon is (0,1), (5,2), (0,0).  It
ends with `points[0]` but begins with `points[1]`, which was written over `points[0]`. -/
theorem C17_first_point_overwritten_divergence (fuel : Nat) :
    (exSpline true [⟨⟨0, 0⟩, ⟨0, 0⟩⟩, ⟨⟨0, 0⟩, ⟨0, 0⟩⟩, ⟨⟨0, 0⟩, ⟨0, 0⟩⟩]).equidistantPolygon fuel
        [⟨0, 0⟩, ⟨0, 1⟩, ⟨5, 2⟩] 10 true = .ok [⟨0, 1⟩, ⟨5, 2⟩, ⟨0, 0⟩] := by
  simp [QwtSpline.equidistantPolygon, QwtSpline.equidistantPolygon.body,
    QwtSpline.equidistantPolygon.closing, exSpline, exParam,
    forLoop, readAt, bind, Except.bind, pure, Except.pure, whileLoop_exit, snapOrAppend,
    qFuzzyCompare_zero_zero, qFuzzyCompare_zero_five, qFuzzyCompare_five_zero]

/-! ## C18: empty input -/

/-- C18: for a C1 spline in any configuration and with any hook, the empty point sequence gives
the empty path, the empty control-line vector and, for every distance, budget and value of
`withNodes`, the empty polygon; `polynomials` gives the empty vector whenever `slopes` returns
fewer than two values.  No result is a fault, so no point is read. -/
theorem C18_empty_input (spline : QwtSplineC1) (fuel : Nat) (distance : ℚ) (withNodes : Bool) :
    spline.painterPath [] = .ok [] ∧
    spline.bezierControlLines [] = .ok [] ∧
    spline.equidistantPolygon fuel [] distance withNodes = .ok [] ∧
    (∀ m, spline.slopes [] = .ok m → m.length < 2 → spline.polynomials [] = .ok []) := by
  refine ⟨?_, ?_, ?_, ?_⟩
  · simp [QwtSplineC1.painterPath, QwtSpline.painterPath, bind, Except.bind, pure, Except.pure]
  · simp [QwtSplineC1.bezierControlLines, bind, Except.bind, pure, Except.pure]
  · by_cases hd : distance ≤ 0
    · simp [QwtSplineC1.equidistantPolygon, QwtSplineG1.equidistantPolygon,
        QwtSpline.equidistantPolygon, hd, bind, Except.bind, pure, Except.pure]
    · simp [QwtSplineC1.equidistantPolygon, QwtSplineG1.equidistantPolygon,
        QwtSpline.equidistantPolygon, hd, bind, Except.bind, pure, Except.pure]
  · intro m hm hl
    simp [QwtSplineC1.polynomials, hm, hl, bind, Except.bind, pure, Except.pure]

/-- C18 witness: a closing C1 spline with X parametrization whose `slopes` hook returns no value
for no point. -/
theorem C18_empty_input_witness :
    (exSplineC1 .ParameterX true).painterPath [] = .ok [] ∧
    (exSplineC1 .ParameterX true).bezierControlLines [] = .ok [] ∧
    (exSplineC1 .ParameterX true).equidistantPolygon 0 [] 1 true = .ok [] ∧
    (exSplineC1 .ParameterX true).polynomials [] = .ok [] :=
  have h := C18_empty_input (exSplineC1 .ParameterX true) 0 1 true
  ⟨h.1, h.2.1, h.2.2.1, h.2.2.2 [] rfl (by decide)⟩

/-! ## C19: one and two points -/

/-- C19: for exactly two points `painterPath` of `QwtSpline`, `QwtSplineC1` and `QwtSplineC2` is
the move to the first point followed by one line to the second, and for exactly one point it is
the single move, whatever the parametrization, closing flag, boundary condition and hook. -/
theorem C19_short_painterPath (s0 : QwtSpline) (s1 : QwtSplineC1) (s2 : QwtSplineC2)
    (a b : QPointF) :
    s0.painterPath [a, b] = .ok [PathElement.moveTo a, PathElement.lineTo b] ∧
    s1.painterPath [a, b] = .ok [PathElement.moveTo a, PathElement.lineTo b] ∧
    s2.painterPath [a, b] = .ok [PathElement.moveTo a, PathElement.lineTo b] ∧
    s0.painterPath [a] = .ok [PathElement.moveTo a] ∧
    s1.painterPath [a] = .ok [PathElement.moveTo a] ∧
    s2.painterPath [a] = .ok [PathElement.moveTo a] := by
  have h2 : ∀ s : QwtSpline,
      s.painterPath [a, b] = .ok [PathElement.moveTo a, PathElement.lineTo b] := by
    intro s
    simp [QwtSpline.painterPath, QPainterPath.addPolygon, bind, Except.bind, pure, Except.pure]
  have h1 : ∀ s : QwtSpline, s.painterPath [a] = .ok [PathElement.moveTo a] := by
    intro s
    simp [QwtSpline.painterPath, readAt, bind, Except.bind, pure, Except.pure]
  refine ⟨h2 s0, ?_, ?_, h1 s0, ?_, ?_⟩
  · simp [QwtSplineC1.painterPath, h2]
  · simp [QwtSplineC2.painterPath, QwtSplineC1.painterPath, h2]
  · simp [QwtSplineC1.painterPath, h1]
  · simp [QwtSplineC2.painterPath, QwtSplineC1.painterPath, h1]

/-! ## C20: boundary condition setters -/

/-- C20: after `setBoundaryConditions( c )` the condition is `c` and both boundary values are 0
if `c` is `Natural` or later in the enumeration order, and unchanged otherwise; after
`setBoundaryValues( a, b )` the values are `a` and `b` and the condition is unchanged.  This
holds for every numeric order of the enumeration. -/
theorem C20_boundary_setters (order : BoundaryCondition → Nat) (spline : QwtSplineC1)
    (c : BoundaryCondition) (a b : ℚ) :
    (spline.setBoundaryConditions order c).boundaryCondition = c ∧
    (spline.setBoundaryConditions order c).boundaryValueBegin =
      (if order BoundaryCondition.Natural ≤ order c then 0 else spline.boundaryValueBegin) ∧
    (spline.setBoundaryConditions order c).boundaryValueEnd =
      (if order BoundaryCondition.Natural ≤ order c then 0 else spline.boundaryValueEnd) ∧
    (spline.setBoundaryValues a b).boundaryValueBegin = a ∧
    (spline.setBoundaryValues a b).boundaryValueEnd = b ∧
    (spline.setBoundaryValues a b).boundaryCondition = spline.boundaryCondition := by
  refine ⟨?_, ?_, ?_, rfl, rfl, rfl⟩
  · unfold QwtSplineC1.setBoundaryConditions
    split <;> rfl
  · unfold QwtSplineC1.setBoundaryConditions
    by_cases h : order BoundaryCondition.Natural ≤ order c
    · simp [h, QwtSplineC1.boundaryValueBegin, PrivateData.setBoundaryCondition]
    · simp [h, QwtSplineC1.boundaryValueBegin, PrivateData.setBoundaryCondition]
  · unfold QwtSplineC1.setBoundaryConditions
    by_cases h : order BoundaryCondition.Natural ≤ order c
    · simp [h, QwtSplineC1.boundaryValueEnd, PrivateData.setBoundaryCondition]
    · simp [h, QwtSplineC1.boundaryValueEnd, PrivateData.setBoundaryCondition]

/-! ## Facts about the slopes and cubics of a C2 spline -/

theorem fromSlopesD_of_cubic (P : QwtSplinePolynomial) (dx dy : ℚ) (hdx : dx ≠ 0)
    (hv : P.valueAt dx = dy) :
    QwtSplinePolynomial.fromSlopesD dx dy (P.slopeAt 0) (P.slopeAt dx) = P := by
  obtain ⟨c3, c2, c1⟩ := P
  simp only [QwtSplinePolynomial.valueAt] at hv
  subst hv
  simp only [QwtSplinePolynomial.fromSlopesD, QwtSplinePolynomial.slopeAt,
    QwtSplinePolynomial.mk.injEq]
  refine ⟨?_, ?_, ?_⟩
  · field_simp; ring
  · field_simp; ring
  · ring

/-- The result of `QwtSplineC2::slopes` when `curvatures` returns one value per point. -/
theorem c2_slopes_eq (spline : QwtSplineC2) (points : QPolygonF) (cv : List ℚ)
    (hn : 2 ≤ points.length) (hc : spline.curvatures points = .ok cv)
    (hcv : cv.length = points.length) :
    ∃ m, spline.slopes points = .ok m ∧ m.length = points.length ∧
      (∀ i, i + 1 < points.length → m[i]? = some
        (QwtSplinePolynomial.fromCurvatures (points.nth i) (cv.getD i 0) (points.nth (i + 1))
          (cv.getD (i + 1) 0)).c1) ∧
      m[points.length - 1]? = some
        ((QwtSplinePolynomial.fromCurvatures (points.nth (points.length - 2))
          (cv.getD (points.length - 2) 0) (points.nth (points.length - 1))
          (cv.getD (points.length - 1) 0)).slopeAt
            ((points.nth (points.length - 1)).x - (points.nth (points.length - 2)).x)) := by
  obtain ⟨⟨sl, pol⟩, hrun, hlen, hel, hpol⟩ := forLoop_inv (QwtSplineC2.slopes.body points cv)
    (fun j (st : List ℚ × QwtSplinePolynomial) => st.1.length = points.length ∧
      (∀ i, i < j → st.1[i]? = some
        (QwtSplinePolynomial.fromCurvatures (points.nth i) (cv.getD i 0) (points.nth (i + 1))
          (cv.getD (i + 1) 0)).c1) ∧
      (1 ≤ j → st.2 = QwtSplinePolynomial.fromCurvatures (points.nth (j - 1))
        (cv.getD (j - 1) 0) (points.nth j) (cv.getD j 0)))
    (points.length - 1) 0 (List.replicate cv.length 0, ⟨0, 0, 0⟩)
    ⟨by simp [hcv], fun i hi => absurd hi (by omega), fun h => absurd h (by omega)⟩
    (by
      intro j st _ hj ⟨h1, h2, _⟩
      have r1 := readAt_nth points j (by omega)
      have r2 := readAt_getD cv j (by omega)
      have r3 := readAt_nth points (j + 1) (by omega)
      have r4 := readAt_getD cv (j + 1) (by omega)
      have hjl : j < st.1.length := by omega
      refine ⟨(st.1.set j (QwtSplinePolynomial.fromCurvatures (points.nth j) (cv.getD j 0)
        (points.nth (j + 1)) (cv.getD (j + 1) 0)).c1,
        QwtSplinePolynomial.fromCurvatures (points.nth j) (cv.getD j 0)
        (points.nth (j + 1)) (cv.getD (j + 1) 0)), ?_, ?_, ?_, ?_⟩
      · simp only [QwtSplineC2.slopes.body, r1, r2, r3, r4, bind, Except.bind, pure, Except.pure,
          hjl, if_true]
      · simpa using h1
      · intro i hi
        by_cases hij : i = j
        · subst hij
          simp [List.getElem?_set, hjl]
        · have := h2 i (by omega)
          simp only [List.getElem?_set_ne (Ne.symm hij)]
          exact this
      · intro _
        simp)
  simp only [zero_add] at hlen hel hpol
  have hpol1 := hpol (by omega)
  have e2 : points.length - 1 - 1 = points.length - 2 := by omega
  rw [e2] at hpol1
  have rn1 := readAtInt_nth points 1 (by omega) (by omega)
  have rn2 := readAtInt_nth points 2 (by omega) (by omega)
  simp only [Nat.cast_ofNat, Nat.cast_one] at rn1 rn2
  have hlt : ¬ cv.length < 2 := by omega
  have hg : 1 ≤ points.length ∧ points.length - 1 < sl.length := ⟨by omega, by omega⟩
  refine ⟨sl.set (points.length - 1) (pol.slopeAt
    ((points.nth (points.length - 1)).x - (points.nth (points.length - 2)).x)), ?_, ?_, ?_, ?_⟩
  · simp only [QwtSplineC2.slopes, hc, hlt, bind, Except.bind, pure, Except.pure, if_false, hrun,
      rn1, rn2, hg]
    simp
  · simpa using hlen
  · intro i hi
    rw [List.getElem?_set_ne (by omega)]
    exact hel i (by omega)
  · rw [hpol1]
    rw [List.getElem?_set_self (by omega)]

/-- The polynomials returned by `QwtSplineC2::polynomials` when `curvatures` returns at least two
values and not more values than there are points. -/
theorem c2_polynomials_eq (spline : QwtSplineC2) (points : QPolygonF) (cv : List ℚ)
    (hc : spline.curvatures points = .ok cv) (hm2 : 2 ≤ cv.length)
    (hmn : cv.length ≤ points.length) :
    spline.polynomials points = .ok ((List.range (cv.length - 1)).map (fun i =>
      QwtSplinePolynomial.fromCurvatures (points.nth i) (cv.getD i 0) (points.nth (i + 1))
        (cv.getD (i + 1) 0))) := by
  have hlt : ¬ cv.length < 2 := by omega
  obtain ⟨ps, hrun, hps⟩ := forLoop_inv
    (fun i (polynomials : List QwtSplinePolynomial) => do
      let pim1 ← readAt points (i - 1)
      let cvim1 ← readAt cv (i - 1)
      let pi ← readAt points i
      let cvi ← readAt cv i
      return polynomials ++ [QwtSplinePolynomial.fromCurvatures pim1 cvim1 pi cvi])
    (fun j ps => ps = (List.range (j - 1)).map (fun i =>
      QwtSplinePolynomial.fromCurvatures (points.nth i) (cv.getD i 0) (points.nth (i + 1))
        (cv.getD (i + 1) 0)))
    (cv.length - 1) 1 [] (by simp)
    (by
      intro j t h1 hj hI
      have r1 := readAt_nth points (j - 1) (by omega)
      have r2 := readAt_getD cv (j - 1) (by omega)
      have r3 := readAt_nth points j (by omega)
      have r4 := readAt_getD cv j (by omega)
      simp only [r1, r2, r3, r4, bind, Except.bind, pure, Except.pure]
      refine ⟨_, rfl, ?_⟩
      obtain ⟨i, rfl⟩ : ∃ i, j = i + 1 := ⟨j - 1, by omega⟩
      rw [hI]
      simp [List.range_succ])
  simp only [bind, Except.bind, pure, Except.pure] at hrun
  have e : 1 + (cv.length - 1) - 1 = cv.length - 1 := by omega
  rw [e] at hps
  subst hps
  simp only [QwtSplineC2.polynomials, hc, hlt, bind, Except.bind, pure, Except.pure, if_false]
  exact hrun

/-! ## The control lines written by the builders -/

/-- One `addCubic` on the control-point store: when the first `j` lines are `L 0 .. L (j-1)` and
the pointer is at line `j` of `N`, the store then holds `L 0 .. L j`. -/
theorem cps_addCubic_lines (L : Nat → QLineF) (N j : Nat)
    (st : QwtSplineC1P.ControlPointsStore) (hlen : st.controlPoints.length = N)
    (hcp : st.d_cp = j) (hel : ∀ i, i < j → st.controlPoints[i]? = some (L i)) (hj : j < N)
    (cx1 cy1 cx2 cy2 x2 y2 : ℚ) (hL : L j = ⟨⟨cx1, cy1⟩, ⟨cx2, cy2⟩⟩) :
    ∃ st1, SplineStore.addCubic st cx1 cy1 cx2 cy2 x2 y2 = .ok st1 ∧
      st1.controlPoints.length = N ∧ st1.d_cp = j + 1 ∧
      ∀ i, i < j + 1 → st1.controlPoints[i]? = some (L i) := by
  refine ⟨⟨st.controlPoints.set st.d_cp ⟨⟨cx1, cy1⟩, ⟨cx2, cy2⟩⟩, st.d_cp + 1⟩, ?_, ?_, ?_, ?_⟩
  · simp [SplineStore.addCubic, QwtSplineC1P.ControlPointsStore.addCubic, hlen, hcp, hj]
  · simp [hlen]
  · simp [hcp]
  · intro i hi
    simp only
    by_cases hij : i < j
    · rw [List.getElem?_set_ne (by omega)]; exact hel i hij
    · have : i = j := by omega
      subst this
      rw [hcp, List.getElem?_set_self (by omega), hL]

/-- A vector of `N` lines whose entries are `L 0 .. L (N-1)` is the list of these lines. -/
theorem lines_eq_map_range (L : Nat → QLineF) (N : Nat) (cps : List QLineF)
    (hlen : cps.length = N) (hel : ∀ i, i < N → cps[i]? = some (L i)) :
    cps = (List.range N).map L := by
  apply List.ext_getElem?
  intro i
  by_cases hi : i < N
  · rw [hel i hi]; simp [hi]
  · rw [List.getElem?_eq_none (by omega), List.getElem?_eq_none (by simp; omega)]

/-- The control lines written by `qwtSplineC1PathParamX` when `slopes` returns one value per
point. -/
theorem paramX_lines (spline : QwtSplineC1) (points : QPolygonF) (m : List ℚ)
    (hn : 1 ≤ points.length) (hs : spline.slopes points = .ok m)
    (hm : m.length = points.length) :
    ∃ st, qwtSplineC1PathParamX QwtSplineC1P.ControlPointsStore spline points = .ok st ∧
      st.controlPoints = (List.range (points.length - 1)).map (fun i =>
        (⟨⟨(points.nth i).x + ((points.nth (i + 1)).x - (points.nth i).x) / 3,
           (points.nth i).y + m.getD i 0 * (((points.nth (i + 1)).x - (points.nth i).x) / 3)⟩,
          ⟨(points.nth (i + 1)).x - ((points.nth (i + 1)).x - (points.nth i).x) / 3,
           (points.nth (i + 1)).y -
             m.getD (i + 1) 0 * (((points.nth (i + 1)).x - (points.nth i).x) / 3)⟩⟩ : QLineF)) := by
  obtain ⟨st, hst, hlen, _, hel⟩ := forLoop_inv (qwtSplineC1PathParamX.body points m)
    (fun j (st : QwtSplineC1P.ControlPointsStore) =>
      st.controlPoints.length = points.length - 1 ∧ st.d_cp = j ∧
      ∀ i, i < j → st.controlPoints[i]? = some
        (⟨⟨(points.nth i).x + ((points.nth (i + 1)).x - (points.nth i).x) / 3,
           (points.nth i).y + m.getD i 0 * (((points.nth (i + 1)).x - (points.nth i).x) / 3)⟩,
          ⟨(points.nth (i + 1)).x - ((points.nth (i + 1)).x - (points.nth i).x) / 3,
           (points.nth (i + 1)).y -
             m.getD (i + 1) 0 * (((points.nth (i + 1)).x - (points.nth i).x) / 3)⟩⟩ : QLineF))
    (points.length - 1) 0 ⟨List.replicate (points.length - 1) ⟨⟨0, 0⟩, ⟨0, 0⟩⟩, 0⟩
    ⟨by simp, rfl, fun i hi => absurd hi (by omega)⟩
    (by
      intro j t _ hj ⟨hl, hc, he⟩
      have r1 := readAt_nth points j (by omega)
      have r2 := readAt_nth points (j + 1) (by omega)
      have r3 := readAt_getD m j (by omega)
      have r4 := readAt_getD m (j + 1) (by omega)
      simp only [qwtSplineC1PathParamX.body, r1, r2, r3, r4, bind, Except.bind]
      exact cps_addCubic_lines _ _ j t hl hc he (by omega) _ _ _ _ _ _ rfl)
  simp only [zero_add] at hel
  refine ⟨st, ?_, lines_eq_map_range _ _ _ hlen hel⟩
  have h0 := readAt_nth points 0 (by omega)
  simp only [qwtSplineC1PathParamX, hs, hm, h0, bind, Except.bind, pure, Except.pure,
    SplineStore.new, SplineStore.init, SplineStore.start, ne_eq, not_true_eq_false, if_false]
  exact hst

/-- The control lines written by `qwtSplineC1PathParamY` when `slopes` returns one value per
point of the flipped sequence. -/
theorem paramY_lines (spline : QwtSplineC1) (points : QPolygonF) (m : List ℚ)
    (hn : 1 ≤ points.length)
    (hs : spline.slopes (points.map (fun p => ⟨p.y, p.x⟩)) = .ok m)
    (hm : m.length = points.length) :
    ∃ st, qwtSplineC1PathParamY QwtSplineC1P.ControlPointsStore spline points = .ok st ∧
      st.controlPoints = (List.range (points.length - 1)).map (fun i =>
        (⟨⟨(points.nth i).x + m.getD i 0 * (((points.nth (i + 1)).y - (points.nth i).y) / 3),
           (points.nth i).y + ((points.nth (i + 1)).y - (points.nth i).y) / 3⟩,
          ⟨(points.nth (i + 1)).x -
             m.getD (i + 1) 0 * (((points.nth (i + 1)).y - (points.nth i).y) / 3),
           (points.nth (i + 1)).y - ((points.nth (i + 1)).y - (points.nth i).y) / 3⟩⟩ :
          QLineF)) := by
  obtain ⟨st, hst, hlen, _, hel⟩ := forLoop_inv
    (qwtSplineC1PathParamY.body (points.map (fun p => (⟨p.y, p.x⟩ : QPointF))) m)
    (fun j (st : QwtSplineC1P.ControlPointsStore) =>
      st.controlPoints.length = points.length - 1 ∧ st.d_cp = j ∧
      ∀ i, i < j → st.controlPoints[i]? = some
        (⟨⟨(points.nth i).x + m.getD i 0 * (((points.nth (i + 1)).y - (points.nth i).y) / 3),
           (points.nth i).y + ((points.nth (i + 1)).y - (points.nth i).y) / 3⟩,
          ⟨(points.nth (i + 1)).x -
             m.getD (i + 1) 0 * (((points.nth (i + 1)).y - (points.nth i).y) / 3),
           (points.nth (i + 1)).y - ((points.nth (i + 1)).y - (points.nth i).y) / 3⟩⟩ :
          QLineF))
    (points.length - 1) 0 ⟨List.replicate (points.length - 1) ⟨⟨0, 0⟩, ⟨0, 0⟩⟩, 0⟩
    ⟨by simp, rfl, fun i hi => absurd hi (by omega)⟩
    (by
      intro j t _ hj ⟨hl, hc, he⟩
      have r1 := readAt_nth (points.map (fun p => (⟨p.y, p.x⟩ : QPointF))) j (by simp; omega)
      have r2 := readAt_nth (points.map (fun p => (⟨p.y, p.x⟩ : QPointF))) (j + 1)
        (by simp; omega)
      rw [nth_map_flip points j (by omega)] at r1
      rw [nth_map_flip points (j + 1) (by omega)] at r2
      have r3 := readAt_getD m j (by omega)
      have r4 := readAt_getD m (j + 1) (by omega)
      simp only [qwtSplineC1PathParamY.body, r1, r2, r3, r4, bind, Except.bind]
      exact cps_addCubic_lines _ _ j t hl hc he (by omega) _ _ _ _ _ _ rfl)
  simp only [zero_add] at hel
  refine ⟨st, ?_, lines_eq_map_range _ _ _ hlen hel⟩
  have h0 := readAt_nth (points.map (fun p => (⟨p.y, p.x⟩ : QPointF))) 0 (by simp; omega)
  simp only [qwtSplineC1PathParamY, hs, hm, h0, bind, Except.bind, pure, Except.pure,
    SplineStore.new, SplineStore.init, SplineStore.start, ne_eq, not_true_eq_false, if_false]
  exact hst

theorem dispatch_parametric (σ : Type) [SplineStore σ] (spline : QwtSplineC1)
    (points : QPolygonF) (hX : spline.d_parametrization.type ≠ ParameterType.ParameterX)
    (hY : spline.d_parametrization.type ≠ ParameterType.ParameterY) :
    QwtSplineC1.dispatch σ spline points =
      qwtSplineC1PathParametric σ spline points spline.paramFunctor := by
  unfold QwtSplineC1.dispatch QwtSplineC1.paramFunctor
  cases hty : spline.d_parametrization.type <;> simp_all

/-- The first loop of `qwtSplineC1PathParametric` pairs every point with its curve parameter. -/
theorem parametric_aux_values (param : QPointF → QPointF → ℚ) (points : QPolygonF)
    (hn : 1 ≤ points.length) :
    forLoop (qwtSplineC1PathParametric.aux param points) (points.length - 1) 1
        ([⟨0, (points.nth 0).x⟩], [⟨0, (points.nth 0).y⟩], 0) = .ok
      ((List.range points.length).map (fun i => ⟨paramT param points i, (points.nth i).x⟩),
       (List.range points.length).map (fun i => ⟨paramT param points i, (points.nth i).y⟩),
       paramT param points (points.length - 1)) := by
  obtain ⟨st, hrun, h1, h2, h3⟩ := forLoop_inv (qwtSplineC1PathParametric.aux param points)
    (fun j (st : QPolygonF × QPolygonF × ℚ) =>
      st.1 = (List.range j).map (fun i => ⟨paramT param points i, (points.nth i).x⟩) ∧
      st.2.1 = (List.range j).map (fun i => ⟨paramT param points i, (points.nth i).y⟩) ∧
      st.2.2 = paramT param points (j - 1))
    (points.length - 1) 1 ([⟨0, (points.nth 0).x⟩], [⟨0, (points.nth 0).y⟩], 0)
    ⟨by simp [paramT, List.range_succ], by simp [paramT, List.range_succ], by simp [paramT]⟩
    (by
      intro j t hj1 hj ⟨hx, hy, ht⟩
      obtain ⟨k, rfl⟩ : ∃ k, j = k + 1 := ⟨j - 1, by omega⟩
      have r1 := readAt_nth points k (by omega)
      have r2 := readAt_nth points (k + 1) (by omega)
      simp only [Nat.add_sub_cancel] at ht
      simp only [qwtSplineC1PathParametric.aux, Nat.add_sub_cancel, r1, r2, bind, Except.bind,
        pure, Except.pure]
      refine ⟨_, rfl, ?_, ?_, ?_⟩
      · simp only [hx, ht]
        rw [List.range_succ (n := k + 1), List.map_append]
        simp [paramT]
      · simp only [hy, ht]
        rw [List.range_succ (n := k + 1), List.map_append]
        simp [paramT]
      · simp only [ht, Nat.add_sub_cancel]
        simp [paramT])
  have e : 1 + (points.length - 1) = points.length := by omega
  rw [e] at h1 h2 h3
  rw [hrun]
  congr 1
  exact Prod.ext h1 (Prod.ext h2 h3)

/-- The control lines written by `qwtSplineC1PathParametric` for a spline that is not closing,
when both `slopes` results have at least one value per point. -/
theorem parametric_lines (spline : QwtSplineC1) (points : QPolygonF)
    (param : QPointF → QPointF → ℚ) (mx my : List ℚ) (hn : 1 ≤ points.length)
    (hc : spline.d_isClosing = false)
    (hmx : spline.slopes ((List.range points.length).map
      (fun i => ⟨paramT param points i, (points.nth i).x⟩)) = .ok mx)
    (hmy : spline.slopes ((List.range points.length).map
      (fun i => ⟨paramT param points i, (points.nth i).y⟩)) = .ok my)
    (hlx : points.length ≤ mx.length) (hly : points.length ≤ my.length) :
    ∃ st, qwtSplineC1PathParametric QwtSplineC1P.ControlPointsStore spline points param = .ok st ∧
      st.controlPoints = (List.range (points.length - 1)).map (fun i =>
        (⟨⟨(points.nth i).x + mx.getD i 0 * (param (points.nth i) (points.nth (i + 1)) / 3),
           (points.nth i).y + my.getD i 0 * (param (points.nth i) (points.nth (i + 1)) / 3)⟩,
          ⟨(points.nth (i + 1)).x -
             mx.getD (i + 1) 0 * (param (points.nth i) (points.nth (i + 1)) / 3),
           (points.nth (i + 1)).y -
             my.getD (i + 1) 0 * (param (points.nth i) (points.nth (i + 1)) / 3)⟩⟩ :
          QLineF)) := by
  obtain ⟨st, hst, hlen, _, hel⟩ := forLoop_inv
    (qwtSplineC1PathParametric.body param points mx my)
    (fun j (st : QwtSplineC1P.ControlPointsStore) =>
      st.controlPoints.length = points.length - 1 ∧ st.d_cp + 1 = j ∧
      ∀ i, i + 1 < j → st.controlPoints[i]? = some
        (⟨⟨(points.nth i).x + mx.getD i 0 * (param (points.nth i) (points.nth (i + 1)) / 3),
           (points.nth i).y + my.getD i 0 * (param (points.nth i) (points.nth (i + 1)) / 3)⟩,
          ⟨(points.nth (i + 1)).x -
             mx.getD (i + 1) 0 * (param (points.nth i) (points.nth (i + 1)) / 3),
           (points.nth (i + 1)).y -
             my.getD (i + 1) 0 * (param (points.nth i) (points.nth (i + 1)) / 3)⟩⟩ :
          QLineF))
    (points.length - 1) 1 ⟨List.replicate (points.length - 1) ⟨⟨0, 0⟩, ⟨0, 0⟩⟩, 0⟩
    ⟨by simp, rfl, fun i hi => absurd hi (by omega)⟩
    (by
      intro j t hj1 hj ⟨hl, hcp, he⟩
      obtain ⟨k, rfl⟩ : ∃ k, j = k + 1 := ⟨j - 1, by omega⟩
      have r1 := readAt_nth points k (by omega)
      have r2 := readAt_nth points (k + 1) (by omega)
      have r3 := readAt_getD mx k (by omega)
      have r4 := readAt_getD mx (k + 1) (by omega)
      have r5 := readAt_getD my k (by omega)
      have r6 := readAt_getD my (k + 1) (by omega)
      simp only [qwtSplineC1PathParametric.body, Nat.add_sub_cancel, r1, r2, r3, r4, r5, r6,
        bind, Except.bind]
      obtain ⟨st1, e1, e2, e3, e4⟩ := cps_addCubic_lines _ _ k t hl (by omega)
        (fun i hi => he i (by omega)) (by omega) _ _ _ _ (points.nth (k + 1)).x
        (points.nth (k + 1)).y rfl
      exact ⟨st1, e1, e2, by omega, fun i hi => e4 i (by omega)⟩)
  have e : 1 + (points.length - 1) = points.length := by omega
  rw [e] at hel
  refine ⟨st, ?_, lines_eq_map_range _ _ _ hlen (fun i hi => hel i (by omega))⟩
  have h0 := readAt_nth points 0 (by omega)
  have haux := parametric_aux_values param points hn
  simp only [qwtSplineC1PathParametric, h0, haux, hc, hmx, hmy, bind, Except.bind, pure,
    Except.pure, SplineStore.new, SplineStore.init, SplineStore.start, hst]
  simp

/-! ## C21: control lines under Y parametrization -/

/-- C21: for a C1 spline with Y parametrization, `n ≥ 3` points, `q[i] = (points[i].y,
points[i].x)` and a result `m = slopes( q )` with one value per point, `bezierControlLines`
returns the lines of the X construction `qwtSplineC1PathParamX` applied to `q`, each with the
coordinates of both its points swapped; there are `n - 1` of them, and line `i` is
`((points[i].x + m[i]*d, points[i].y + d), (points[i+1].x - m[i+1]*d, points[i+1].y - d))` with
`d = (points[i+1].y - points[i].y)/3`. -/
theorem C21_paramY_swaps_paramX (spline : QwtSplineC1) (points : QPolygonF) (m : List ℚ)
    (hY : spline.d_parametrization.type = ParameterType.ParameterY) (hn : 3 ≤ points.length)
    (hs : spline.slopes (points.map (fun p => ⟨p.y, p.x⟩)) = .ok m)
    (hm : m.length = points.length) :
    ∃ lines stX, spline.bezierControlLines points = .ok lines ∧
      qwtSplineC1PathParamX QwtSplineC1P.ControlPointsStore spline
        (points.map (fun p => ⟨p.y, p.x⟩)) = .ok stX ∧
      lines = stX.controlPoints.map (fun l => ⟨⟨l.p1.y, l.p1.x⟩, ⟨l.p2.y, l.p2.x⟩⟩) ∧
      lines.length = points.length - 1 ∧
      ∀ i, i + 1 < points.length → lines[i]? = some
        ⟨⟨(points.nth i).x + m.getD i 0 * (((points.nth (i + 1)).y - (points.nth i).y) / 3),
          (points.nth i).y + ((points.nth (i + 1)).y - (points.nth i).y) / 3⟩,
         ⟨(points.nth (i + 1)).x -
            m.getD (i + 1) 0 * (((points.nth (i + 1)).y - (points.nth i).y) / 3),
          (points.nth (i + 1)).y - ((points.nth (i + 1)).y - (points.nth i).y) / 3⟩⟩ := by
  obtain ⟨stY, hstY, hcY⟩ := paramY_lines spline points m (by omega) hs hm
  obtain ⟨stX, hstX, hcX⟩ := paramX_lines spline (points.map (fun p => (⟨p.y, p.x⟩ : QPointF))) m
    (by simp; omega) hs (by simpa using hm)
  have hn2 : ¬ points.length ≤ 2 := by omega
  refine ⟨stY.controlPoints, stX, ?_, hstX, ?_, by simp [hcY], ?_⟩
  · simp only [QwtSplineC1.bezierControlLines, QwtSplineC1.dispatch, hY, hn2, hstY, bind,
      Except.bind, pure, Except.pure, if_false]
  · rw [hcY, hcX, List.map_map, List.length_map]
    apply List.map_congr_left
    intro i hi
    have hi2 : i + 1 < points.length := by simp at hi; omega
    simp only [Function.comp, nth_map_flip points i (by omega),
      nth_map_flip points (i + 1) hi2]
  · intro i hi
    have hi2 : i < points.length - 1 := by omega
    rw [hcY]
    simp [hi2]

/-- C21 witness: the points (0,0), (1,1), (2,0) with the slopes 1, 2, 3. -/
theorem C21_paramY_swaps_paramX_witness :
    ∃ lines stX, (exSplineC1With .ParameterY false [1, 2, 3]).bezierControlLines exPoints
        = .ok lines ∧
      qwtSplineC1PathParamX QwtSplineC1P.ControlPointsStore
        (exSplineC1With .ParameterY false [1, 2, 3])
        (exPoints.map (fun p => ⟨p.y, p.x⟩)) = .ok stX ∧
      lines = stX.controlPoints.map (fun l => ⟨⟨l.p1.y, l.p1.x⟩, ⟨l.p2.y, l.p2.x⟩⟩) ∧
      lines.length = exPoints.length - 1 ∧
      ∀ i, i + 1 < exPoints.length → lines[i]? = some
        ⟨⟨(exPoints.nth i).x +
            ([1, 2, 3] : List ℚ).getD i 0 * (((exPoints.nth (i + 1)).y - (exPoints.nth i).y) / 3),
          (exPoints.nth i).y + ((exPoints.nth (i + 1)).y - (exPoints.nth i).y) / 3⟩,
         ⟨(exPoints.nth (i + 1)).x -
            ([1, 2, 3] : List ℚ).getD (i + 1) 0 *
              (((exPoints.nth (i + 1)).y - (exPoints.nth i).y) / 3),
          (exPoints.nth (i + 1)).y - ((exPoints.nth (i + 1)).y - (exPoints.nth i).y) / 3⟩⟩ :=
  C21_paramY_swaps_paramX (exSplineC1With .ParameterY false [1, 2, 3]) exPoints [1, 2, 3] rfl
    (by decide) rfl rfl

/-! ## C22: slopes of a C2 spline -/

/-- C22: for `n ≥ 2` points and a `curvatures` result `cv` with one value per point,
`QwtSplineC2::slopes` returns `n` values; for every `i < n - 1` the `i`-th value is the
coefficient `c1` of the cubic `fromCurvatures( points[i], cv[i], points[i+1], cv[i+1] )`, which is
that cubic's slope at offset 0, and the last value is the slope of the cubic of the last segment
at offset `points[n-1].x - points[n-2].x`. -/
theorem C22_c2_slopes (spline : QwtSplineC2) (points : QPolygonF) (cv : List ℚ)
    (hn : 2 ≤ points.length) (hc : spline.curvatures points = .ok cv)
    (hcv : cv.length = points.length) :
    ∃ m, spline.slopes points = .ok m ∧ m.length = points.length ∧
      (∀ i, i + 1 < points.length →
        m[i]? = some (QwtSplinePolynomial.fromCurvatures (points.nth i) (cv.getD i 0)
          (points.nth (i + 1)) (cv.getD (i + 1) 0)).c1 ∧
        (QwtSplinePolynomial.fromCurvatures (points.nth i) (cv.getD i 0)
          (points.nth (i + 1)) (cv.getD (i + 1) 0)).c1 =
        (QwtSplinePolynomial.fromCurvatures (points.nth i) (cv.getD i 0)
          (points.nth (i + 1)) (cv.getD (i + 1) 0)).slopeAt 0) ∧
      m[points.length - 1]? = some
        ((QwtSplinePolynomial.fromCurvatures (points.nth (points.length - 2))
          (cv.getD (points.length - 2) 0) (points.nth (points.length - 1))
          (cv.getD (points.length - 1) 0)).slopeAt
            ((points.nth (points.length - 1)).x - (points.nth (points.length - 2)).x)) := by
  obtain ⟨m, h1, h2, h3, h4⟩ := c2_slopes_eq spline points cv hn hc hcv
  exact ⟨m, h1, h2, fun i hi => ⟨h3 i hi, by simp [QwtSplinePolynomial.slopeAt]⟩, h4⟩

/-- C22 witness: the points (0,0), (1,1), (2,0) with the curvatures 0, -3, 0. -/
theorem C22_c2_slopes_witness :
    ∃ m, (exSplineC2 [0, -3, 0]).slopes exPoints = .ok m ∧ m.length = exPoints.length ∧
      (∀ i, i + 1 < exPoints.length →
        m[i]? = some (QwtSplinePolynomial.fromCurvatures (exPoints.nth i)
          (([0, -3, 0] : List ℚ).getD i 0)
          (exPoints.nth (i + 1)) (([0, -3, 0] : List ℚ).getD (i + 1) 0)).c1 ∧
        (QwtSplinePolynomial.fromCurvatures (exPoints.nth i) (([0, -3, 0] : List ℚ).getD i 0)
          (exPoints.nth (i + 1)) (([0, -3, 0] : List ℚ).getD (i + 1) 0)).c1 =
        (QwtSplinePolynomial.fromCurvatures (exPoints.nth i) (([0, -3, 0] : List ℚ).getD i 0)
          (exPoints.nth (i + 1)) (([0, -3, 0] : List ℚ).getD (i + 1) 0)).slopeAt 0) ∧
      m[exPoints.length - 1]? = some
        ((QwtSplinePolynomial.fromCurvatures (exPoints.nth (exPoints.length - 2))
          (([0, -3, 0] : List ℚ).getD (exPoints.length - 2) 0) (exPoints.nth (exPoints.length - 1))
          (([0, -3, 0] : List ℚ).getD (exPoints.length - 1) 0)).slopeAt
            ((exPoints.nth (exPoints.length - 1)).x - (exPoints.nth (exPoints.length - 2)).x)) :=
  C22_c2_slopes (exSplineC2 [0, -3, 0]) exPoints [0, -3, 0] (by decide) rfl rfl

/-! ## C23: the polynomials of a C1 spline -/

/-- C23: for `n ≥ 2` points and a `slopes` result `m` with one value per point,
`QwtSplineC1::polynomials` returns exactly `n - 1` polynomials; the `i`-th one is
`fromSlopes( points[i], m[i], points[i+1], m[i+1] )`, its slope at offset 0 is `m[i]` and, when
the run `points[i+1].x - points[i].x` is not zero, its slope at that offset is `m[i+1]`. -/
theorem C23_c1_polynomials (spline : QwtSplineC1) (points : QPolygonF) (m : List ℚ)
    (hn : 2 ≤ points.length) (hs : spline.slopes points = .ok m)
    (hm : m.length = points.length) :
    ∃ ps, spline.polynomials points = .ok ps ∧ ps.length = points.length - 1 ∧
      ∀ i, i + 1 < points.length →
        ps[i]? = some (QwtSplinePolynomial.fromSlopes (points.nth i) (m.getD i 0)
          (points.nth (i + 1)) (m.getD (i + 1) 0)) ∧
        (QwtSplinePolynomial.fromSlopes (points.nth i) (m.getD i 0)
          (points.nth (i + 1)) (m.getD (i + 1) 0)).slopeAt 0 = m.getD i 0 ∧
        ((points.nth (i + 1)).x - (points.nth i).x ≠ 0 →
          (QwtSplinePolynomial.fromSlopes (points.nth i) (m.getD i 0)
            (points.nth (i + 1)) (m.getD (i + 1) 0)).slopeAt
              ((points.nth (i + 1)).x - (points.nth i).x) = m.getD (i + 1) 0) := by
  refine ⟨_, c1_polynomials_eq spline points m hs (by omega) (by omega), by simp [hm], ?_⟩
  intro i hi
  refine ⟨?_, fromSlopes_slopeAt_zero _ _ _ _, fun h => fromSlopes_slopeAt_run _ _ _ _ h⟩
  have hi2 : i < m.length - 1 := by omega
  simp [hi2]

/-- C23 witness: the four points (0,0), (1,1), (2,0), (3,1) with the slopes 1, 0, 0, 1. -/
theorem C23_c1_polynomials_witness :
    ∃ ps, (exSplineC1With .ParameterX false [1, 0, 0, 1]).polynomials
        [⟨0, 0⟩, ⟨1, 1⟩, ⟨2, 0⟩, ⟨3, 1⟩] = .ok ps ∧
      ps.length = ([⟨0, 0⟩, ⟨1, 1⟩, ⟨2, 0⟩, ⟨3, 1⟩] : QPolygonF).length - 1 ∧
      ∀ i, i + 1 < ([⟨0, 0⟩, ⟨1, 1⟩, ⟨2, 0⟩, ⟨3, 1⟩] : QPolygonF).length →
        ps[i]? = some (QwtSplinePolynomial.fromSlopes
          (QPolygonF.nth [⟨0, 0⟩, ⟨1, 1⟩, ⟨2, 0⟩, ⟨3, 1⟩] i) (([1, 0, 0, 1] : List ℚ).getD i 0)
          (QPolygonF.nth [⟨0, 0⟩, ⟨1, 1⟩, ⟨2, 0⟩, ⟨3, 1⟩] (i + 1))
          (([1, 0, 0, 1] : List ℚ).getD (i + 1) 0)) ∧
        (QwtSplinePolynomial.fromSlopes
          (QPolygonF.nth [⟨0, 0⟩, ⟨1, 1⟩, ⟨2, 0⟩, ⟨3, 1⟩] i) (([1, 0, 0, 1] : List ℚ).getD i 0)
          (QPolygonF.nth [⟨0, 0⟩, ⟨1, 1⟩, ⟨2, 0⟩, ⟨3, 1⟩] (i + 1))
          (([1, 0, 0, 1] : List ℚ).getD (i + 1) 0)).slopeAt 0 = ([1, 0, 0, 1] : List ℚ).getD i 0 ∧
        ((QPolygonF.nth [⟨0, 0⟩, ⟨1, 1⟩, ⟨2, 0⟩, ⟨3, 1⟩] (i + 1)).x -
            (QPolygonF.nth [⟨0, 0⟩, ⟨1, 1⟩, ⟨2, 0⟩, ⟨3, 1⟩] i).x ≠ 0 →
          (QwtSplinePolynomial.fromSlopes
            (QPolygonF.nth [⟨0, 0⟩, ⟨1, 1⟩, ⟨2, 0⟩, ⟨3, 1⟩] i) (([1, 0, 0, 1] : List ℚ).getD i 0)
            (QPolygonF.nth [⟨0, 0⟩, ⟨1, 1⟩, ⟨2, 0⟩, ⟨3, 1⟩] (i + 1))
            (([1, 0, 0, 1] : List ℚ).getD (i + 1) 0)).slopeAt
              ((QPolygonF.nth [⟨0, 0⟩, ⟨1, 1⟩, ⟨2, 0⟩, ⟨3, 1⟩] (i + 1)).x -
                (QPolygonF.nth [⟨0, 0⟩, ⟨1, 1⟩, ⟨2, 0⟩, ⟨3, 1⟩] i).x) =
            ([1, 0, 0, 1] : List ℚ).getD (i + 1) 0) :=
  C23_c1_polynomials (exSplineC1With .ParameterX false [1, 0, 0, 1])
    [⟨0, 0⟩, ⟨1, 1⟩, ⟨2, 0⟩, ⟨3, 1⟩] [1, 0, 0, 1] (by decide) rfl rfl

/-! ## C24: the X resampler against the generic resampler -/

/-- Two counted loops with bodies that agree on the indices they run over agree. -/
theorem forLoop_congr {σ : Type} (b1 b2 : Nat → σ → Except Fault σ) :
    ∀ (count i : Nat) (s : σ), (∀ j t, i ≤ j → j < i + count → b1 j t = b2 j t) →
      forLoop b1 count i s = forLoop b2 count i s := by
  intro count
  induction count with
  | zero => intro i s _; rfl
  | succ c ih =>
    intro i s h
    simp only [forLoop, h i s (le_refl i) (by omega)]
    cases b2 i s with
    | error e => rfl
    | ok s1 => exact ih (i + 1) s1 (fun j t hj hlt => h j t (by omega) (by omega))

/-- The Bezier segment whose control points are derived from the slopes `m1`, `m2` with the
offset `dx/3` is the graph of the Hermite cubic over the segment. -/
theorem qwtBezierPoint_hermite (p1 p2 : QPointF) (m1 m2 u : ℚ) (hdx : p2.x - p1.x ≠ 0) :
    qwtBezierPoint p1
      ⟨p1.x + (p2.x - p1.x) / 3, p1.y + m1 * ((p2.x - p1.x) / 3)⟩
      ⟨p2.x - (p2.x - p1.x) / 3, p2.y - m2 * ((p2.x - p1.x) / 3)⟩ p2 u =
    ⟨p1.x + u * (p2.x - p1.x),
      p1.y + (QwtSplinePolynomial.fromSlopes p1 m1 p2 m2).valueAt (u * (p2.x - p1.x))⟩ := by
  simp only [qwtBezierPoint, QwtSplinePolynomial.fromSlopes, QwtSplinePolynomial.fromSlopesD,
    QwtSplinePolynomial.valueAt, QPointF.mk.injEq]
  constructor
  · ring
  · field_simp
    ring

/-- One segment of the generic resampler on the control lines of the X construction does what
one segment of `qwtPolygonParametric` does. -/
theorem equidistantPolygon_body_eq (spline : QwtSplineC1) (points : QPolygonF) (m : List ℚ)
    (hv : ∀ a b, spline.d_parametrization.valueIncrement a b = b.x - a.x)
    (hm : m.length = points.length)
    (fuel : Nat) (d : ℚ) (j : Nat) (hj : j + 1 < points.length)
    (hinc : (points.nth j).x < (points.nth (j + 1)).x) (st : QPolygonF × ℚ) :
    QwtSpline.equidistantPolygon.body spline.toQwtSpline fuel d points
      ((List.range (points.length - 1)).map (fun i =>
        (⟨⟨(points.nth i).x + ((points.nth (i + 1)).x - (points.nth i).x) / 3,
           (points.nth i).y + m.getD i 0 * (((points.nth (i + 1)).x - (points.nth i).x) / 3)⟩,
          ⟨(points.nth (i + 1)).x - ((points.nth (i + 1)).x - (points.nth i).x) / 3,
           (points.nth (i + 1)).y -
             m.getD (i + 1) 0 * (((points.nth (i + 1)).x - (points.nth i).x) / 3)⟩⟩ : QLineF)))
      false j st =
    qwtPolygonParametric.body QwtSplinePolynomial.fromSlopes fuel d points m false j st := by
  have hdx : (points.nth (j + 1)).x - (points.nth j).x ≠ 0 := by
    intro h0; linarith
  have r1 := readAt_nth points j (by omega)
  have r2 := readAt_nth points (j + 1) hj
  have r3 := readAt_getD m j (by omega)
  have r4 := readAt_getD m (j + 1) (by omega)
  have r5 : readAt ((List.range (points.length - 1)).map (fun i =>
        (⟨⟨(points.nth i).x + ((points.nth (i + 1)).x - (points.nth i).x) / 3,
           (points.nth i).y + m.getD i 0 * (((points.nth (i + 1)).x - (points.nth i).x) / 3)⟩,
          ⟨(points.nth (i + 1)).x - ((points.nth (i + 1)).x - (points.nth i).x) / 3,
           (points.nth (i + 1)).y -
             m.getD (i + 1) 0 * (((points.nth (i + 1)).x - (points.nth i).x) / 3)⟩⟩ : QLineF)))
        j = .ok
        ⟨⟨(points.nth j).x + ((points.nth (j + 1)).x - (points.nth j).x) / 3,
           (points.nth j).y + m.getD j 0 * (((points.nth (j + 1)).x - (points.nth j).x) / 3)⟩,
          ⟨(points.nth (j + 1)).x - ((points.nth (j + 1)).x - (points.nth j).x) / 3,
           (points.nth (j + 1)).y -
             m.getD (j + 1) 0 * (((points.nth (j + 1)).x - (points.nth j).x) / 3)⟩⟩ := by
    have hjl : j < points.length - 1 := by omega
    simp [readAt, hjl]
  have hbody : (fun s : QPolygonF × ℚ =>
      (s.1 ++ [qwtBezierPoint (points.nth j)
        ⟨(points.nth j).x + ((points.nth (j + 1)).x - (points.nth j).x) / 3,
          (points.nth j).y + m.getD j 0 * (((points.nth (j + 1)).x - (points.nth j).x) / 3)⟩
        ⟨(points.nth (j + 1)).x - ((points.nth (j + 1)).x - (points.nth j).x) / 3,
          (points.nth (j + 1)).y -
            m.getD (j + 1) 0 * (((points.nth (j + 1)).x - (points.nth j).x) / 3)⟩
        (points.nth (j + 1)) (s.2 / ((points.nth (j + 1)).x - (points.nth j).x))],
       s.2 + d)) =
      (fun s : QPolygonF × ℚ =>
        (s.1 ++ [(⟨(points.nth j).x + s.2, (points.nth j).y +
          (QwtSplinePolynomial.fromSlopes (points.nth j) (m.getD j 0) (points.nth (j + 1))
            (m.getD (j + 1) 0)).valueAt s.2⟩ : QPointF)], s.2 + d)) := by
    funext s
    rw [qwtBezierPoint_hermite _ _ _ _ _ hdx, div_mul_cancel₀ _ hdx]
  simp only [QwtSpline.equidistantPolygon.body, qwtPolygonParametric.body,
    QwtSplineC1.toQwtSpline, hv, r1, r2, r3, r4, r5, bind, Except.bind, pure, Except.pure, hbody]
  simp

/-- C24: for a C1 spline with X parametrization, whose parametrization object has the increment
`p2.x - p1.x`, with `withNodes = false`, `distance > 0`, more than two points of strictly
increasing x and a `slopes` result with one value per point: for every iteration budget
`QwtSplineC1::equidistantPolygon` gives what `QwtSpline::equidistantPolygon` gives when its hook
is `QwtSplineC1::bezierControlLines`; every large enough budget makes both return one and the
same polygon; and the Bezier segment with the control points `(x_i + dx/3, y_i + m_i*dx/3)` and
`(x_(i+1) - dx/3, y_(i+1) - m_(i+1)*dx/3)` at `u` is `(x_i + u*dx, y_i + H_i( u*dx ))` for the
Hermite cubic `H_i = fromSlopes( points[i], m[i], points[i+1], m[i+1] )`. -/
theorem C24_resamplers_agree (spline : QwtSplineC1) (points : QPolygonF) (m : List ℚ)
    (distance : ℚ) (hX : spline.d_parametrization.type = ParameterType.ParameterX)
    (hv : ∀ a b, spline.d_parametrization.valueIncrement a b = b.x - a.x)
    (hn : 2 < points.length) (hd : 0 < distance)
    (hinc : ∀ i, i + 1 < points.length → (points.nth i).x < (points.nth (i + 1)).x)
    (hs : spline.slopes points = .ok m) (hm : m.length = points.length) :
    (∀ fuel, spline.equidistantPolygon fuel points distance false =
      spline.toQwtSpline.equidistantPolygon fuel points distance false) ∧
    (∃ out fuel0, ∀ fuel, fuel0 ≤ fuel →
      spline.equidistantPolygon fuel points distance false = .ok out ∧
      spline.toQwtSpline.equidistantPolygon fuel points distance false = .ok out) ∧
    (∀ i u, i + 1 < points.length →
      qwtBezierPoint (points.nth i)
        ⟨(points.nth i).x + ((points.nth (i + 1)).x - (points.nth i).x) / 3,
          (points.nth i).y + m.getD i 0 * (((points.nth (i + 1)).x - (points.nth i).x) / 3)⟩
        ⟨(points.nth (i + 1)).x - ((points.nth (i + 1)).x - (points.nth i).x) / 3,
          (points.nth (i + 1)).y -
            m.getD (i + 1) 0 * (((points.nth (i + 1)).x - (points.nth i).x) / 3)⟩
        (points.nth (i + 1)) u =
      ⟨(points.nth i).x + u * ((points.nth (i + 1)).x - (points.nth i).x),
        (points.nth i).y + (QwtSplinePolynomial.fromSlopes (points.nth i) (m.getD i 0)
          (points.nth (i + 1)) (m.getD (i + 1) 0)).valueAt
            (u * ((points.nth (i + 1)).x - (points.nth i).x))⟩) := by
  have hc : spline.d_parametrization.type = ParameterType.ParameterX ∧ points.length > 2 :=
    ⟨hX, hn⟩
  have heq : ∀ fuel, spline.equidistantPolygon fuel points distance false =
      spline.toQwtSpline.equidistantPolygon fuel points distance false := by
    intro fuel
    obtain ⟨st, hst, hcp⟩ := paramX_lines spline points m (by omega) hs hm
    have hn2 : ¬ points.length ≤ 2 := by omega
    have hlines : spline.toQwtSpline.bezierControlLines points = .ok st.controlPoints := by
      simp only [QwtSplineC1.toQwtSpline, QwtSplineC1.bezierControlLines, QwtSplineC1.dispatch,
        hX, hn2, hst, bind, Except.bind, pure, Except.pure, if_false]
    have hlen : st.controlPoints.length = points.length - 1 := by simp [hcp]
    have hd0 : ¬ distance ≤ 0 := not_le.mpr hd
    have h1 : ¬ points.length ≤ 1 := by omega
    have h2 : points.length ≠ 2 := by omega
    have h3 : ¬ st.controlPoints.length < points.length - 1 := by omega
    have h4 : ¬ st.controlPoints.length ≥ points.length := by omega
    have r0 := readAt_nth points 0 (by omega)
    have hloop := forLoop_congr
      (QwtSpline.equidistantPolygon.body spline.toQwtSpline fuel distance points
        st.controlPoints false)
      (qwtPolygonParametric.body QwtSplinePolynomial.fromSlopes fuel distance points m false)
      (points.length - 1) 0 ([points.nth 0], distance)
      (by
        intro j t _ hj
        rw [hcp]
        exact equidistantPolygon_body_eq spline points m hv hm fuel distance j (by omega)
          (hinc j (by omega)) t)
    simp only [QwtSplineC1.equidistantPolygon, hc, hs, hm, qwtPolygonParametric,
      QwtSpline.equidistantPolygon, hd0, h1, h2, h3, h4, hlines, r0, bind, Except.bind, pure,
      Except.pure, if_false, List.nil_append, hloop, decide_False, Bool.and_false]
    simp
  obtain ⟨F, out, t, _, hrun⟩ :=
    qwtPolygonParametric_equidistant QwtSplinePolynomial.fromSlopes distance points m hd hm
      (by omega) hinc
  refine ⟨heq, ⟨out, F, ?_⟩, ?_⟩
  · intro fuel hf
    have e : spline.equidistantPolygon fuel points distance false = .ok out := by
      simp only [QwtSplineC1.equidistantPolygon, hc, hs, hm, bind, Except.bind, pure,
        Except.pure]
      simpa using hrun fuel hf
    exact ⟨e, by rw [← heq fuel]; exact e⟩
  · intro i u hi
    have hdx : (points.nth (i + 1)).x - (points.nth i).x ≠ 0 := by
      have := hinc i hi; intro h0; linarith
    exact qwtBezierPoint_hermite _ _ _ _ _ hdx

/-- C24 witness: the points (0,0), (1,1), (2,0) with slopes 0 and spacing 2/5. -/
theorem C24_resamplers_agree_witness :
    (∀ fuel, (exSplineC1 .ParameterX false).equidistantPolygon fuel exPoints (2/5) false =
      (exSplineC1 .ParameterX false).toQwtSpline.equidistantPolygon fuel exPoints (2/5) false) ∧
    (∃ out fuel0, ∀ fuel, fuel0 ≤ fuel →
      (exSplineC1 .ParameterX false).equidistantPolygon fuel exPoints (2/5) false = .ok out ∧
      (exSplineC1 .ParameterX false).toQwtSpline.equidistantPolygon fuel exPoints (2/5) false
        = .ok out) :=
  have h := C24_resamplers_agree (exSplineC1 .ParameterX false) exPoints [0, 0, 0] (2/5) rfl
    (fun _ _ => rfl) (by decide) (by norm_num)
    (by
      intro i hi
      have hi2 : i = 0 ∨ i = 1 := by simp [exPoints] at hi; omega
      rcases hi2 with rfl | rfl <;> norm_num [QPolygonF.nth, exPoints])
    rfl rfl
  ⟨h.1, h.2.1⟩

/-! ## C25: control lines under a parametric parametrization -/

/-- C25: for a C1 spline that is not closing, with a parametrization other than X and Y and
`n ≥ 3` points, let `t_0 = 0`, `t_i = t_(i-1) + increment( points[i-1], points[i] )`.  The first
loop of the builder produces `px = [(t_i, points[i].x)]` and `py = [(t_i, points[i].y)]`; with
`mx = slopes( px )` and `my = slopes( py )`, which need at least `n` values each,
`bezierControlLines` returns `n - 1` lines, and for every `k < n - 1` line `k` is
`(points[k] + (mx[k], my[k])*h, points[k+1] - (mx[k+1], my[k+1])*h)` with
`h = increment( points[k], points[k+1] )/3`.  If no increment is negative, `t` never decreases. -/
theorem C25_parametric_control_lines (spline : QwtSplineC1) (points : QPolygonF)
    (mx my : List ℚ)
    (hX : spline.d_parametrization.type ≠ ParameterType.ParameterX)
    (hY : spline.d_parametrization.type ≠ ParameterType.ParameterY)
    (hc : spline.d_isClosing = false) (hn : 3 ≤ points.length)
    (hmx : spline.slopes ((List.range points.length).map
      (fun i => ⟨paramT spline.paramFunctor points i, (points.nth i).x⟩)) = .ok mx)
    (hmy : spline.slopes ((List.range points.length).map
      (fun i => ⟨paramT spline.paramFunctor points i, (points.nth i).y⟩)) = .ok my)
    (hlx : points.length ≤ mx.length) (hly : points.length ≤ my.length) :
    forLoop (qwtSplineC1PathParametric.aux spline.paramFunctor points) (points.length - 1) 1
        ([⟨0, (points.nth 0).x⟩], [⟨0, (points.nth 0).y⟩], 0) = .ok
      ((List.range points.length).map
        (fun i => ⟨paramT spline.paramFunctor points i, (points.nth i).x⟩),
       (List.range points.length).map
        (fun i => ⟨paramT spline.paramFunctor points i, (points.nth i).y⟩),
       paramT spline.paramFunctor points (points.length - 1)) ∧
    (∃ lines, spline.bezierControlLines points = .ok lines ∧
      lines.length = points.length - 1 ∧
      ∀ k, k + 1 < points.length → lines[k]? = some
        ⟨⟨(points.nth k).x +
            mx.getD k 0 * (spline.paramFunctor (points.nth k) (points.nth (k + 1)) / 3),
          (points.nth k).y +
            my.getD k 0 * (spline.paramFunctor (points.nth k) (points.nth (k + 1)) / 3)⟩,
         ⟨(points.nth (k + 1)).x -
            mx.getD (k + 1) 0 * (spline.paramFunctor (points.nth k) (points.nth (k + 1)) / 3),
          (points.nth (k + 1)).y -
            my.getD (k + 1) 0 *
              (spline.paramFunctor (points.nth k) (points.nth (k + 1)) / 3)⟩⟩) ∧
    ((∀ a b, 0 ≤ spline.paramFunctor a b) →
      ∀ i, paramT spline.paramFunctor points i ≤ paramT spline.paramFunctor points (i + 1)) := by
  refine ⟨parametric_aux_values _ points (by omega), ?_, ?_⟩
  · obtain ⟨st, hst, hcp⟩ := parametric_lines spline points spline.paramFunctor mx my
      (by omega) hc hmx hmy hlx hly
    have hn2 : ¬ points.length ≤ 2 := by omega
    refine ⟨st.controlPoints, ?_, by simp [hcp], ?_⟩
    · simp only [QwtSplineC1.bezierControlLines, hn2, dispatch_parametric _ spline points hX hY,
        hst, bind, Except.bind, pure, Except.pure, if_false]
    · intro k hk
      have hk2 : k < points.length - 1 := by omega
      rw [hcp]
      simp [hk2]
  · intro hpos i
    have := hpos (points.nth i) (points.nth (i + 1))
    simp only [paramT]
    linarith

/-- C25 witness: uniform parametrization, the points (0,0), (1,1), (2,0) and a `slopes` hook
that returns 0 for every point of the sequence it is given. -/
theorem C25_parametric_control_lines_witness :
    forLoop (qwtSplineC1PathParametric.aux (exSplineC1 .ParameterUniform false).paramFunctor
        exPoints) (exPoints.length - 1) 1
        ([⟨0, (exPoints.nth 0).x⟩], [⟨0, (exPoints.nth 0).y⟩], 0) = .ok
      ((List.range exPoints.length).map
        (fun i => ⟨paramT (exSplineC1 .ParameterUniform false).paramFunctor exPoints i,
          (exPoints.nth i).x⟩),
       (List.range exPoints.length).map
        (fun i => ⟨paramT (exSplineC1 .ParameterUniform false).paramFunctor exPoints i,
          (exPoints.nth i).y⟩),
       paramT (exSplineC1 .ParameterUniform false).paramFunctor exPoints
        (exPoints.length - 1)) ∧
    (∃ lines, (exSplineC1 .ParameterUniform false).bezierControlLines exPoints = .ok lines ∧
      lines.length = exPoints.length - 1 ∧
      ∀ k, k + 1 < exPoints.length → lines[k]? = some
        ⟨⟨(exPoints.nth k).x + ([0, 0, 0] : List ℚ).getD k 0 *
            ((exSplineC1 .ParameterUniform false).paramFunctor (exPoints.nth k)
              (exPoints.nth (k + 1)) / 3),
          (exPoints.nth k).y + ([0, 0, 0] : List ℚ).getD k 0 *
            ((exSplineC1 .ParameterUniform false).paramFunctor (exPoints.nth k)
              (exPoints.nth (k + 1)) / 3)⟩,
         ⟨(exPoints.nth (k + 1)).x - ([0, 0, 0] : List ℚ).getD (k + 1) 0 *
            ((exSplineC1 .ParameterUniform false).paramFunctor (exPoints.nth k)
              (exPoints.nth (k + 1)) / 3),
          (exPoints.nth (k + 1)).y - ([0, 0, 0] : List ℚ).getD (k + 1) 0 *
            ((exSplineC1 .ParameterUniform false).paramFunctor (exPoints.nth k)
              (exPoints.nth (k + 1)) / 3)⟩⟩) ∧
    ((∀ a b, 0 ≤ (exSplineC1 .ParameterUniform false).paramFunctor a b) →
      ∀ i, paramT (exSplineC1 .ParameterUniform false).paramFunctor exPoints i ≤
        paramT (exSplineC1 .ParameterUniform false).paramFunctor exPoints (i + 1)) :=
  C25_parametric_control_lines (exSplineC1 .ParameterUniform false) exPoints [0, 0, 0] [0, 0, 0]
    (by decide) (by decide) rfl (by decide) rfl rfl (by decide) (by decide)

/-! ## C26: continuity of the first derivative -/

/-- At every interior point the curve described by `bezierControlLines` has one tangent: for a
spline that is not closing, or with X or Y parametrization, and a `slopes` hook that returns one
value per point, the last control point of segment `k` and the first control point of segment
`k + 1` satisfy the continuity equation at `points[k+1]`, provided neither increment is zero. -/
theorem bezierControlLines_tangents_interior (spline : QwtSplineC1) (points : QPolygonF)
    (hn : 3 ≤ points.length)
    (hs : ∀ q, ∃ m, spline.slopes q = .ok m ∧ m.length = q.length)
    (hc : spline.d_isClosing = false ∨
      spline.d_parametrization.type = ParameterType.ParameterX ∨
      spline.d_parametrization.type = ParameterType.ParameterY) :
    ∃ lines, spline.bezierControlLines points = .ok lines ∧
      ∀ k, k + 2 < points.length →
        spline.increment (points.nth k) (points.nth (k + 1)) ≠ 0 →
        spline.increment (points.nth (k + 1)) (points.nth (k + 2)) ≠ 0 →
        ∃ lin lout, lines[k]? = some lin ∧ lines[k + 1]? = some lout ∧
          TangentsAgree (points.nth (k + 1)) lin.p2 lout.p1
            (spline.increment (points.nth k) (points.nth (k + 1)))
            (spline.increment (points.nth (k + 1)) (points.nth (k + 2))) := by
  have hn2 : ¬ points.length ≤ 2 := by omega
  by_cases hX : spline.d_parametrization.type = ParameterType.ParameterX
  · obtain ⟨m, hm, hml⟩ := hs points
    obtain ⟨st, hst, hcp⟩ := paramX_lines spline points m (by omega) hm hml
    refine ⟨st.controlPoints, ?_, ?_⟩
    · simp only [QwtSplineC1.bezierControlLines, QwtSplineC1.dispatch, hX, hn2, hst, bind,
        Except.bind, pure, Except.pure, if_false]
    · intro k hk h1 h2
      simp only [QwtSplineC1.increment, hX] at h1 h2 ⊢
      have hk1 : k < points.length - 1 := by omega
      have hk2 : k + 1 < points.length - 1 := by omega
      refine ⟨_, _, by rw [hcp]; simp [hk1]; rfl, by rw [hcp]; simp [hk2]; rfl, ?_⟩
      constructor
      · simp only; field_simp; ring
      · simp only; field_simp; ring
  by_cases hY : spline.d_parametrization.type = ParameterType.ParameterY
  · obtain ⟨m, hm, hml⟩ := hs (points.map (fun p => ⟨p.y, p.x⟩))
    obtain ⟨st, hst, hcp⟩ := paramY_lines spline points m (by omega) hm (by simpa using hml)
    refine ⟨st.controlPoints, ?_, ?_⟩
    · simp only [QwtSplineC1.bezierControlLines, QwtSplineC1.dispatch, hY, hn2, hst, bind,
        Except.bind, pure, Except.pure, if_false]
    · intro k hk h1 h2
      simp only [QwtSplineC1.increment, hY] at h1 h2 ⊢
      have hk1 : k < points.length - 1 := by omega
      have hk2 : k + 1 < points.length - 1 := by omega
      refine ⟨_, _, by rw [hcp]; simp [hk1]; rfl, by rw [hcp]; simp [hk2]; rfl, ?_⟩
      constructor
      · simp only; field_simp; ring
      · simp only; field_simp; ring
  · have hcl : spline.d_isClosing = false := by
      rcases hc with h | h | h
      · exact h
      · exact absurd h hX
      · exact absurd h hY
    obtain ⟨mx, hmx, hmxl⟩ := hs ((List.range points.length).map
      (fun i => ⟨paramT spline.paramFunctor points i, (points.nth i).x⟩))
    obtain ⟨my, hmy, hmyl⟩ := hs ((List.range points.length).map
      (fun i => ⟨paramT spline.paramFunctor points i, (points.nth i).y⟩))
    obtain ⟨st, hst, hcp⟩ := parametric_lines spline points spline.paramFunctor mx my
      (by omega) hcl hmx hmy (by simp at hmxl; omega) (by simp at hmyl; omega)
    have hinc : ∀ a b, spline.increment a b = spline.paramFunctor a b := by
      intro a b
      unfold QwtSplineC1.increment
      cases hty : spline.d_parametrization.type <;> simp_all
    refine ⟨st.controlPoints, ?_, ?_⟩
    · simp only [QwtSplineC1.bezierControlLines, hn2, dispatch_parametric _ spline points hX hY,
        hst, bind, Except.bind, pure, Except.pure, if_false]
    · intro k hk h1 h2
      rw [hinc] at h1 h2 ⊢
      rw [hinc]
      have hk1 : k < points.length - 1 := by omega
      have hk2 : k + 1 < points.length - 1 := by omega
      refine ⟨_, _, by rw [hcp]; simp [hk1]; rfl, by rw [hcp]; simp [hk2]; rfl, ?_⟩
      constructor
      · simp only; field_simp; ring
      · simp only; field_simp; ring

/-- C26, as stated, fails where the wrap-around segment starts.  Closing spline with uniform
parametrization (every increment is 1), points (0,0), (1,1), (2,0), `slopes` returning
(1, 2, 3, 1) for both auxiliary sequences: `bezierControlLines` writes its third line past the
end of the vector, and in the path built by the same code the segment that arrives at
`points[2]` ends with the control point (1,-1) while the wrap-around segment leaves with the
control point (7/3, 1/3), so the derivative is (3,3) before and (1,1) after `points[2]`. -/
theorem C26_wrap_tangent_divergence :
    (exSplineC1With .ParameterUniform true [1, 2, 3, 1]).bezierControlLines exPoints
      = .error .outOfRange ∧
    (exSplineC1With .ParameterUniform true [1, 2, 3, 1]).painterPath exPoints = .ok
      [PathElement.moveTo ⟨0, 0⟩,
       PathElement.cubicTo ⟨1/3, 1/3⟩ ⟨1/3, 1/3⟩ ⟨1, 1⟩,
       PathElement.cubicTo ⟨5/3, 5/3⟩ ⟨1, -1⟩ ⟨2, 0⟩,
       PathElement.cubicTo ⟨7/3, 1/3⟩ ⟨-1/3, -1/3⟩ ⟨0, 0⟩,
       PathElement.closeSubpath] ∧
    (exSplineC1With .ParameterUniform true [1, 2, 3, 1]).increment ⟨1, 1⟩ ⟨2, 0⟩ = 1 ∧
    (exSplineC1With .ParameterUniform true [1, 2, 3, 1]).increment ⟨2, 0⟩ ⟨0, 0⟩ = 1 ∧
    ¬ TangentsAgree ⟨2, 0⟩ ⟨1, -1⟩ ⟨7/3, 1/3⟩ 1 1 := by
  refine ⟨?_, ?_, rfl, rfl, ?_⟩
  · simp [QwtSplineC1.bezierControlLines, QwtSplineC1.dispatch, exSplineC1With, exParam,
      exPoints, qwtSplineC1PathParametric, qwtSplineC1PathParametric.aux,
      qwtSplineC1PathParametric.body, qwtSplineC1PathParametric.closing, forLoop, readAt, bind,
      Except.bind, pure, Except.pure, SplineStore.new, SplineStore.init, SplineStore.start,
      SplineStore.addCubic, SplineStore.finish, QwtSplineC1P.ControlPointsStore.addCubic]
  · simp [QwtSplineC1.painterPath, QwtSplineC1.dispatch, exSplineC1With, exParam,
      exPoints, qwtSplineC1PathParametric, qwtSplineC1PathParametric.aux,
      qwtSplineC1PathParametric.body, qwtSplineC1PathParametric.closing, forLoop, readAt, bind,
      Except.bind, pure, Except.pure, SplineStore.new, SplineStore.init, SplineStore.start,
      SplineStore.addCubic, SplineStore.finish]
    norm_num
  · simp only [TangentsAgree]
    norm_num

/-! ## C27: the cubics of a C2 spline by way of its slopes -/

/-- The cubic built from the slopes that a cubic with the right rise has at both ends of a
nonzero run is that cubic again. -/
theorem fromSlopes_of_fromCurvatures (p1 p2 : QPointF) (cv1 cv2 : ℚ) (hdx : p2.x - p1.x ≠ 0) :
    QwtSplinePolynomial.fromSlopes p1
      ((QwtSplinePolynomial.fromCurvatures p1 cv1 p2 cv2).slopeAt 0) p2
      ((QwtSplinePolynomial.fromCurvatures p1 cv1 p2 cv2).slopeAt (p2.x - p1.x)) =
    QwtSplinePolynomial.fromCurvatures p1 cv1 p2 cv2 := by
  unfold QwtSplinePolynomial.fromSlopes
  apply fromSlopesD_of_cubic _ _ _ hdx
  unfold QwtSplinePolynomial.fromCurvatures
  exact fromCurvaturesD_valueAt_run _ _ _ _ hdx

/-- C27: for a C2 spline with `n ≥ 2` points of strictly increasing x and a `curvatures` result
`cv` with one value per point, let `m = QwtSplineC2::slopes( points )`.  For the last segment
`fromSlopes( points[n-2], m[n-2], points[n-1], m[n-1] )` is the cubic
`fromCurvatures( points[n-2], cv[n-2], points[n-1], cv[n-1] )`, for every `cv`.  If the curvature
cubics of neighbouring segments have the same slope at the knot they share, the same holds for
every segment, and `QwtSplineC1::polynomials`, which goes through `slopes`, returns the same
vector as `QwtSplineC2::polynomials`. -/
theorem C27_cubics_through_slopes (spline : QwtSplineC2) (points : QPolygonF) (cv : List ℚ)
    (hn : 2 ≤ points.length)
    (hinc : ∀ i, i + 1 < points.length → (points.nth i).x < (points.nth (i + 1)).x)
    (hc : spline.curvatures points = .ok cv) (hcv : cv.length = points.length) :
    ∃ m, spline.slopes points = .ok m ∧
      QwtSplinePolynomial.fromSlopes (points.nth (points.length - 2))
          (m.getD (points.length - 2) 0) (points.nth (points.length - 1))
          (m.getD (points.length - 1) 0) =
        QwtSplinePolynomial.fromCurvatures (points.nth (points.length - 2))
          (cv.getD (points.length - 2) 0) (points.nth (points.length - 1))
          (cv.getD (points.length - 1) 0) ∧
      ((∀ i, i + 2 < points.length →
          (QwtSplinePolynomial.fromCurvatures (points.nth i) (cv.getD i 0) (points.nth (i + 1))
            (cv.getD (i + 1) 0)).slopeAt ((points.nth (i + 1)).x - (points.nth i).x) =
          (QwtSplinePolynomial.fromCurvatures (points.nth (i + 1)) (cv.getD (i + 1) 0)
            (points.nth (i + 2)) (cv.getD (i + 2) 0)).slopeAt 0) →
        (∀ i, i + 1 < points.length →
          QwtSplinePolynomial.fromSlopes (points.nth i) (m.getD i 0) (points.nth (i + 1))
              (m.getD (i + 1) 0) =
            QwtSplinePolynomial.fromCurvatures (points.nth i) (cv.getD i 0) (points.nth (i + 1))
              (cv.getD (i + 1) 0)) ∧
        spline.toQwtSplineC1.polynomials points = spline.polynomials points) := by
  obtain ⟨m, hm, hlen, hel, hlast⟩ := c2_slopes_eq spline points cv hn hc hcv
  have hc1 : ∀ P : QwtSplinePolynomial, P.c1 = P.slopeAt 0 := by
    intro P; simp [QwtSplinePolynomial.slopeAt]
  have hgetD : ∀ i (v : ℚ), m[i]? = some v → m.getD i 0 = v := by
    intro i v h; simp [List.getD, h]
  have hseg : ∀ i, i + 1 < points.length →
      m.getD (i + 1) 0 = (QwtSplinePolynomial.fromCurvatures (points.nth i) (cv.getD i 0)
        (points.nth (i + 1)) (cv.getD (i + 1) 0)).slopeAt
          ((points.nth (i + 1)).x - (points.nth i).x) →
      QwtSplinePolynomial.fromSlopes (points.nth i) (m.getD i 0) (points.nth (i + 1))
          (m.getD (i + 1) 0) =
        QwtSplinePolynomial.fromCurvatures (points.nth i) (cv.getD i 0) (points.nth (i + 1))
          (cv.getD (i + 1) 0) := by
    intro i hi h2
    have hdx : (points.nth (i + 1)).x - (points.nth i).x ≠ 0 := by
      have := hinc i hi; intro h0; linarith
    rw [hgetD i _ (hel i hi), h2, hc1]
    exact fromSlopes_of_fromCurvatures _ _ _ _ hdx
  have hlastD := hgetD _ _ hlast
  have e1 : points.length - 2 + 1 = points.length - 1 := by omega
  have hL := hseg (points.length - 2) (by omega) (by rw [e1]; exact hlastD)
  rw [e1] at hL
  refine ⟨m, hm, hL, ?_⟩
  intro hcont
  have hall : ∀ i, i + 1 < points.length →
      QwtSplinePolynomial.fromSlopes (points.nth i) (m.getD i 0) (points.nth (i + 1))
          (m.getD (i + 1) 0) =
        QwtSplinePolynomial.fromCurvatures (points.nth i) (cv.getD i 0) (points.nth (i + 1))
          (cv.getD (i + 1) 0) := by
    intro i hi
    by_cases hi2 : i + 2 < points.length
    · apply hseg i hi
      rw [hgetD (i + 1) _ (hel (i + 1) hi2), hc1]
      exact (hcont i hi2).symm
    · have : i = points.length - 2 := by omega
      subst this
      rw [e1]; exact hL
  refine ⟨hall, ?_⟩
  rw [c2_polynomials_eq spline points cv hc (by omega) (by omega),
    c1_polynomials_eq spline.toQwtSplineC1 points m hm (by omega) (by omega), hlen, hcv]
  congr 1
  apply List.map_congr_left
  intro i hi
  exact hall i (by simp at hi; omega)

/-- C27 witness: the points (0,0), (1,1), (2,0) with the curvatures 0, -3, 0 of the natural
cubic spline through them, whose two cubics both have slope 0 at the middle point. -/
theorem C27_cubics_through_slopes_witness :
    ∃ m, (exSplineC2 [0, -3, 0]).slopes exPoints = .ok m ∧
      QwtSplinePolynomial.fromSlopes (exPoints.nth 1) (m.getD 1 0) (exPoints.nth 2)
          (m.getD 2 0) =
        QwtSplinePolynomial.fromCurvatures (exPoints.nth 1) (-3) (exPoints.nth 2) 0 ∧
      (∀ i, i + 1 < exPoints.length →
          QwtSplinePolynomial.fromSlopes (exPoints.nth i) (m.getD i 0) (exPoints.nth (i + 1))
              (m.getD (i + 1) 0) =
            QwtSplinePolynomial.fromCurvatures (exPoints.nth i)
              (([0, -3, 0] : List ℚ).getD i 0) (exPoints.nth (i + 1))
              (([0, -3, 0] : List ℚ).getD (i + 1) 0)) ∧
      (exSplineC2 [0, -3, 0]).toQwtSplineC1.polynomials exPoints =
        (exSplineC2 [0, -3, 0]).polynomials exPoints := by
  obtain ⟨m, h1, h2, h3⟩ := C27_cubics_through_slopes (exSplineC2 [0, -3, 0]) exPoints
    [0, -3, 0] (by decide)
    (by
      intro i hi
      have hi2 : i = 0 ∨ i = 1 := by simp [exPoints] at hi; omega
      rcases hi2 with rfl | rfl <;> norm_num [QPolygonF.nth, exPoints])
    rfl rfl
  have h4 := h3 (by
    intro i hi
    have hi0 : i = 0 := by simp [exPoints] at hi; omega
    subst hi0
    norm_num [QPolygonF.nth, exPoints, QwtSplinePolynomial.fromCurvatures,
      QwtSplinePolynomial.fromCurvaturesD, QwtSplinePolynomial.slopeAt])
  exact ⟨m, h1, h2, h4.1, h4.2⟩

/-! ## C28: termination of the sampling loops -/

/-- A sampling loop with positive spacing `d` that starts at `t ≥ 0` in a segment of length `l`
ends within `⌈l/d⌉` iterations (none if `l ≤ 0`), each of which adds one point. -/
theorem whileLoop_sampling_bound (f : ℚ → QPointF) (l d : ℚ) (hd : 0 < d) (out : QPolygonF)
    (t : ℚ) (ht : 0 ≤ t) (fuel : Nat) (hf : ⌈l / d⌉₊ ≤ fuel) :
    ∃ out1 t1, whileLoop (fun s : QPolygonF × ℚ => decide (s.2 < l))
        (fun s => (s.1 ++ [f s.2], s.2 + d)) fuel (out, t) = .ok (out ++ out1, t1) ∧
      out1.length ≤ ⌈l / d⌉₊ ∧ l ≤ t1 ∧ t ≤ t1 := by
  obtain ⟨m, hlt, hle⟩ := sampling_count_exists l d t hd
  have hm : m ≤ ⌈l / d⌉₊ := by
    rcases Nat.eq_zero_or_pos m with h0 | h0
    · omega
    · have h1 := hlt (m - 1) (by omega)
      have h2 : ((m - 1 : ℕ) : ℚ) * d < l := by
        have : (0 : ℚ) ≤ t := ht
        linarith
      have h3 : ((m - 1 : ℕ) : ℚ) < l / d := by
        rw [lt_div_iff₀ hd]; exact h2
      have h4 := Nat.lt_ceil.mpr h3
      omega
  refine ⟨(List.range m).map (fun s : Nat => f (t + s * d)), t + m * d, ?_, ?_, hle, ?_⟩
  · exact whileLoop_sampling f l d m out t hlt hle fuel (le_trans hm hf)
  · simpa using hm
  · have : (0 : ℚ) ≤ m * d := by positivity
    linarith

/-- The snap-or-append statement adds at most one point. -/
theorem snapOrAppend_length (path : QPolygonF) (p : QPointF) (h : path ≠ []) :
    ∃ r, snapOrAppend path p = .ok r ∧ r ≠ [] ∧ r.length ≤ path.length + 1 := by
  obtain ⟨r, hr, _, hne, hshape⟩ := snapOrAppend_spec path p h
  refine ⟨r, hr, hne, ?_⟩
  rcases hshape with e | e
  · rw [e]; simp
  · rw [e]; simp

/-- One segment of the generic resampler with a budget of `⌈l/d⌉` iterations. -/
theorem base_equidistantPolygon_body_bound (spline : QwtSpline) (d : ℚ) (hd : 0 < d)
    (p : QPolygonF) (cl : List QLineF) (withNodes : Bool) (fuel : Nat) (i : Nat)
    (hi : i + 1 < p.length) (hcl : i < cl.length)
    (hf : ⌈spline.d_parametrization.valueIncrement (p.nth i) (p.nth (i + 1)) / d⌉₊ ≤ fuel)
    (st : QPolygonF × ℚ) (hne : st.1 ≠ []) (ht : 0 ≤ st.2) :
    ∃ st1, QwtSpline.equidistantPolygon.body spline fuel d p cl withNodes i st = .ok st1 ∧
      st1.1 ≠ [] ∧ 0 ≤ st1.2 ∧
      st1.1.length ≤ st.1.length +
        (⌈spline.d_parametrization.valueIncrement (p.nth i) (p.nth (i + 1)) / d⌉₊ + 1) := by
  obtain ⟨out, t⟩ := st
  simp only at hne ht
  have r1 := readAt_nth p i (by omega)
  have r2 := readAt_nth p (i + 1) hi
  have r3 := readAt_of_lt cl i hcl
  obtain ⟨out1, t1, hw, hlen, hl, _⟩ := whileLoop_sampling_bound
    (fun t => qwtBezierPoint (p.nth i) cl[i].p1 cl[i].p2 (p.nth (i + 1))
      (t / spline.d_parametrization.valueIncrement (p.nth i) (p.nth (i + 1))))
    (spline.d_parametrization.valueIncrement (p.nth i) (p.nth (i + 1))) d hd out t ht fuel hf
  beta_reduce at hw
  have hne1 : out ++ out1 ≠ [] := by simp [hne]
  cases withNodes with
  | false =>
    refine ⟨(out ++ out1, t1 -
      spline.d_parametrization.valueIncrement (p.nth i) (p.nth (i + 1))), ?_, hne1, ?_, ?_⟩
    · simp only [QwtSpline.equidistantPolygon.body, r1, r2, r3, bind, Except.bind, pure,
        Except.pure, hw]
      rfl
    · simp only; linarith
    · simp only [List.length_append]; omega
  | true =>
    obtain ⟨r, hr, hrne, hrlen⟩ := snapOrAppend_length (out ++ out1) (p.nth (i + 1)) hne1
    refine ⟨(r, d), ?_, hrne, le_of_lt hd, ?_⟩
    · simp only [QwtSpline.equidistantPolygon.body, r1, r2, r3, bind, Except.bind, pure,
        Except.pure, hw, hr]
      rfl
    · simp only [List.length_append] at hrlen ⊢; omega

/-- One segment of `qwtPolygonParametric` with a budget of `⌈l/d⌉` iterations. -/
theorem qwtPolygonParametric_body_bound
    (toPolynomial : QPointF → ℚ → QPointF → ℚ → QwtSplinePolynomial)
    (d : ℚ) (hd : 0 < d) (p : QPolygonF) (v : List ℚ) (withNodes : Bool) (fuel : Nat)
    (i : Nat) (hi : i + 1 < p.length) (hv : i + 1 < v.length)
    (hf : ⌈((p.nth (i + 1)).x - (p.nth i).x) / d⌉₊ ≤ fuel)
    (st : QPolygonF × ℚ) (hne : st.1 ≠ []) (ht : 0 ≤ st.2) :
    ∃ st1, qwtPolygonParametric.body toPolynomial fuel d p v withNodes i st = .ok st1 ∧
      st1.1 ≠ [] ∧ 0 ≤ st1.2 ∧
      st1.1.length ≤ st.1.length + (⌈((p.nth (i + 1)).x - (p.nth i).x) / d⌉₊ + 1) := by
  obtain ⟨out, t⟩ := st
  simp only at hne ht
  have r1 := readAt_nth p i (by omega)
  have r2 := readAt_nth p (i + 1) hi
  have r3 := readAt_getD v i (by omega)
  have r4 := readAt_getD v (i + 1) hv
  obtain ⟨out1, t1, hw, hlen, hl, htt⟩ := whileLoop_sampling_bound
    (fun t => (⟨(p.nth i).x + t, (p.nth i).y + (toPolynomial (p.nth i) (v.getD i 0)
      (p.nth (i + 1)) (v.getD (i + 1) 0)).valueAt t⟩ : QPointF))
    ((p.nth (i + 1)).x - (p.nth i).x) d hd out t ht fuel hf
  have hne1 : out ++ out1 ≠ [] := by simp [hne]
  cases withNodes with
  | false =>
    refine ⟨(out ++ out1, t1 - ((p.nth (i + 1)).x - (p.nth i).x)), ?_, hne1, ?_, ?_⟩
    · simp only [qwtPolygonParametric.body, r1, r2, r3, r4, bind, Except.bind, pure,
        Except.pure, hw]
      rfl
    · simp only; linarith
    · simp only [List.length_append]; omega
  | true =>
    obtain ⟨r, hr, hrne, hrlen⟩ := snapOrAppend_length (out ++ out1) (p.nth (i + 1)) hne1
    refine ⟨(r, t1), ?_, hrne, le_trans ht htt, ?_⟩
    · simp only [qwtPolygonParametric.body, r1, r2, r3, r4, bind, Except.bind, pure,
        Except.pure, hw, hr]
      rfl
    · simp only [List.length_append] at hrlen ⊢; omega

/-- With a budget of `⌈l_i/d⌉` iterations for every segment, `qwtPolygonParametric` returns a
polygon with at most `1 + Σ (⌈l_i/d⌉ + 1)` points. -/
theorem qwtPolygonParametric_bound
    (toPolynomial : QPointF → ℚ → QPointF → ℚ → QwtSplinePolynomial)
    (d : ℚ) (hd : 0 < d) (p : QPolygonF) (v : List ℚ) (withNodes : Bool) (fuel : Nat)
    (hn : 1 ≤ p.length) (hv : p.length ≤ v.length)
    (hf : ∀ i, i + 1 < p.length → ⌈((p.nth (i + 1)).x - (p.nth i).x) / d⌉₊ ≤ fuel) :
    ∃ out, qwtPolygonParametric toPolynomial fuel d p v withNodes = .ok out ∧
      out.length ≤ 1 + Finset.sum (Finset.range (p.length - 1))
        (fun i => ⌈((p.nth (i + 1)).x - (p.nth i).x) / d⌉₊ + 1) := by
  obtain ⟨st, hrun, _, _, hlen⟩ := forLoop_inv
    (qwtPolygonParametric.body toPolynomial fuel d p v withNodes)
    (fun j (st : QPolygonF × ℚ) => st.1 ≠ [] ∧ 0 ≤ st.2 ∧
      st.1.length ≤ 1 + Finset.sum (Finset.range j)
        (fun i => ⌈((p.nth (i + 1)).x - (p.nth i).x) / d⌉₊ + 1))
    (p.length - 1) 0 ([p.nth 0], d) ⟨by simp, le_of_lt hd, by simp⟩
    (by
      intro j st _ hj ⟨h1, h2, h3⟩
      obtain ⟨st1, e1, e2, e3, e4⟩ := qwtPolygonParametric_body_bound toPolynomial d hd p v
        withNodes fuel j (by omega) (by omega) (hf j (by omega)) st h1 h2
      refine ⟨st1, e1, e2, e3, ?_⟩
      rw [Finset.sum_range_succ]
      omega)
  have r0 := readAt_nth p 0 (by omega)
  refine ⟨st.1, ?_, by simpa using hlen⟩
  simp only [qwtPolygonParametric, r0, bind, Except.bind, pure, Except.pure, hrun]

/-- With a budget of `⌈l_i/d⌉` iterations for every segment, the generic resampler returns a
polygon with at most `1 + Σ (⌈l_i/d⌉ + 1)` points, whenever its hook returns.  The segments are
the `n - 1` segments between neighbours and, for a closing spline with at least `n` control
lines, the segment from `points[n-1]` back to `points[0]`. -/
theorem base_equidistantPolygon_bound (spline : QwtSpline) (d : ℚ) (hd : 0 < d)
    (points : QPolygonF) (lines : List QLineF) (withNodes : Bool) (fuel : Nat)
    (hh : spline.bezierControlLines points = .ok lines)
    (hf : ∀ i, i < (if spline.d_isClosing = true ∧ points.length ≤ lines.length
        then points.length else points.length - 1) →
      ⌈spline.d_parametrization.valueIncrement (points.nth i)
        (points.nth ((i + 1) % points.length)) / d⌉₊ ≤ fuel) :
    ∃ out, spline.equidistantPolygon fuel points d withNodes = .ok out ∧
      out.length ≤ 1 + Finset.sum
        (Finset.range (if spline.d_isClosing = true ∧ points.length ≤ lines.length
          then points.length else points.length - 1))
        (fun i => ⌈spline.d_parametrization.valueIncrement (points.nth i)
          (points.nth ((i + 1) % points.length)) / d⌉₊ + 1) := by
  have hd0 : ¬ d ≤ 0 := not_le.mpr hd
  have hsum : ∀ k : Nat, k ≤ Finset.sum (Finset.range k)
      (fun i => ⌈spline.d_parametrization.valueIncrement (points.nth i)
        (points.nth ((i + 1) % points.length)) / d⌉₊ + 1) := by
    intro k
    induction k with
    | zero => simp
    | succ k ih => rw [Finset.sum_range_succ]; omega
  have hseg : points.length - 1 ≤ (if spline.d_isClosing = true ∧ points.length ≤ lines.length
      then points.length else points.length - 1) := by
    split <;> omega
  by_cases h1 : points.length ≤ 1
  · refine ⟨points, ?_, by omega⟩
    simp only [QwtSpline.equidistantPolygon, hd0, h1, bind, Except.bind, pure, Except.pure,
      if_false, if_true]
  by_cases h2 : points.length = 2
  · refine ⟨points, ?_, ?_⟩
    · simp only [QwtSpline.equidistantPolygon, hd0, h1, h2, bind, Except.bind, pure,
        Except.pure, if_false, if_true]
      simp
    · have := hsum (if spline.d_isClosing = true ∧ points.length ≤ lines.length
        then points.length else points.length - 1)
      omega
  by_cases h3 : lines.length < points.length - 1
  · refine ⟨[], ?_, by simp⟩
    simp only [QwtSpline.equidistantPolygon, hd0, h1, h2, h3, hh, bind, Except.bind, pure,
      Except.pure, if_false, if_true]
  have hmod : ∀ i, i + 1 < points.length → (i + 1) % points.length = i + 1 :=
    fun i hi => Nat.mod_eq_of_lt hi
  obtain ⟨⟨out, t⟩, hrun, hne, ht, hlen⟩ := forLoop_inv
    (QwtSpline.equidistantPolygon.body spline fuel d points lines withNodes)
    (fun j (st : QPolygonF × ℚ) => st.1 ≠ [] ∧ 0 ≤ st.2 ∧
      st.1.length ≤ 1 + Finset.sum (Finset.range j)
        (fun i => ⌈spline.d_parametrization.valueIncrement (points.nth i)
          (points.nth ((i + 1) % points.length)) / d⌉₊ + 1))
    (points.length - 1) 0 ([points.nth 0], d) ⟨by simp, le_of_lt hd, by simp⟩
    (by
      intro j st _ hj ⟨g1, g2, g3⟩
      have hfj := hf j (by omega)
      rw [hmod j (by omega)] at hfj
      obtain ⟨st1, e1, e2, e3, e4⟩ := base_equidistantPolygon_body_bound spline d hd points
        lines withNodes fuel j (by omega) (by omega) hfj st g1 g2
      refine ⟨st1, e1, e2, e3, ?_⟩
      rw [Finset.sum_range_succ, hmod j (by omega)]
      omega)
  simp only [zero_add] at hne ht hlen
  have r0 := readAt_nth points 0 (by omega)
  by_cases hcl : spline.d_isClosing = true ∧ points.length ≤ lines.length
  · have hfn := hf (points.length - 1) (by rw [if_pos hcl]; omega)
    have emod : (points.length - 1 + 1) % points.length = 0 := by
      rw [Nat.sub_add_cancel (by omega)]; exact Nat.mod_self _
    rw [emod] at hfn
    have r1 := readAt_nth points (points.length - 1) (by omega)
    have r3 := readAt_of_lt lines (points.length - 1) (by omega)
    obtain ⟨out1, t1, hw, hl1, _, _⟩ := whileLoop_sampling_bound
      (fun t => qwtBezierPoint (points.nth (points.length - 1)) lines[points.length - 1].p1
        lines[points.length - 1].p2 (points.nth 0)
        (t / spline.d_parametrization.valueIncrement (points.nth (points.length - 1))
          (points.nth 0)))
      (spline.d_parametrization.valueIncrement (points.nth (points.length - 1)) (points.nth 0))
      d hd out t ht fuel hfn
    beta_reduce at hw
    obtain ⟨r, hr, _, hrlen⟩ := snapOrAppend_length (out ++ out1) (points.nth 0) (by simp [hne])
    refine ⟨r, ?_, ?_⟩
    · simp only [QwtSpline.equidistantPolygon, hd0, h1, h2, h3, hh, r0, bind, Except.bind, pure,
        Except.pure, if_false, List.nil_append, hrun, hcl.1, ge_iff_le, hcl.2, decide_True,
        Bool.and_self, if_true, QwtSpline.equidistantPolygon.closing, r1, r3, hw, hr]
    · rw [if_pos hcl]
      have e : points.length = points.length - 1 + 1 := by omega
      rw [e, Finset.sum_range_succ, ← e, Nat.mod_self]
      simp only [List.length_append] at hrlen
      omega
  · refine ⟨out, ?_, ?_⟩
    · have hb : (spline.d_isClosing && decide (lines.length ≥ points.length)) = false := by
        by_cases hc : spline.d_isClosing = true
        · have : ¬ points.length ≤ lines.length := fun h => hcl ⟨hc, h⟩
          simp [this]
        · simp [hc]
      simp only [QwtSpline.equidistantPolygon, hd0, h1, h2, h3, hh, r0, bind, Except.bind, pure,
        Except.pure, if_false, List.nil_append, hrun, hb]
      simp
    · rw [if_neg hcl]; exact hlen

/-- C28: let `distance > 0`.  A sampling loop that starts with `t ≥ 0` in a segment of parameter
length `l` returns within `⌈l/distance⌉` iterations, each adding one point, and adds nothing when
`l ≤ 0`.  With that budget for every segment, `QwtSpline::equidistantPolygon` (whenever its hook
returns) and `qwtPolygonParametric` (for at least one point and one value per point) return a
polygon of at most `1 + Σ (⌈l_i/distance⌉ + 1)` points, the sum taken over the segments that are
resampled; `⌈x⌉` is 0 for `x ≤ 0`. -/
theorem C28_sampling_terminates (distance : ℚ) (hd : 0 < distance) :
    (∀ (f : ℚ → QPointF) (l t : ℚ) (out : QPolygonF) (fuel : Nat),
      0 ≤ t → ⌈l / distance⌉₊ ≤ fuel →
      ∃ out1 t1, whileLoop (fun s : QPolygonF × ℚ => decide (s.2 < l))
          (fun s => (s.1 ++ [f s.2], s.2 + distance)) fuel (out, t) = .ok (out ++ out1, t1) ∧
        out1.length ≤ ⌈l / distance⌉₊ ∧ (l ≤ 0 → out1 = [])) ∧
    (∀ (spline : QwtSpline) (points : QPolygonF) (lines : List QLineF) (withNodes : Bool)
      (fuel : Nat), spline.bezierControlLines points = .ok lines →
      (∀ i, i < (if spline.d_isClosing = true ∧ points.length ≤ lines.length
          then points.length else points.length - 1) →
        ⌈spline.d_parametrization.valueIncrement (points.nth i)
          (points.nth ((i + 1) % points.length)) / distance⌉₊ ≤ fuel) →
      ∃ out, spline.equidistantPolygon fuel points distance withNodes = .ok out ∧
        out.length ≤ 1 + Finset.sum
          (Finset.range (if spline.d_isClosing = true ∧ points.length ≤ lines.length
            then points.length else points.length - 1))
          (fun i => ⌈spline.d_parametrization.valueIncrement (points.nth i)
            (points.nth ((i + 1) % points.length)) / distance⌉₊ + 1)) ∧
    (∀ (toPolynomial : QPointF → ℚ → QPointF → ℚ → QwtSplinePolynomial) (points : QPolygonF)
      (values : List ℚ) (withNodes : Bool) (fuel : Nat),
      1 ≤ points.length → points.length ≤ values.length →
      (∀ i, i + 1 < points.length →
        ⌈((points.nth (i + 1)).x - (points.nth i).x) / distance⌉₊ ≤ fuel) →
      ∃ out, qwtPolygonParametric toPolynomial fuel distance points values withNodes = .ok out ∧
        out.length ≤ 1 + Finset.sum (Finset.range (points.length - 1))
          (fun i => ⌈((points.nth (i + 1)).x - (points.nth i).x) / distance⌉₊ + 1)) := by
  refine ⟨?_, ?_, ?_⟩
  · intro f l t out fuel ht hf
    obtain ⟨out1, t1, hw, hlen, _, _⟩ := whileLoop_sampling_bound f l distance hd out t ht fuel hf
    refine ⟨out1, t1, hw, hlen, ?_⟩
    intro hl
    have h0 : ⌈l / distance⌉₊ = 0 :=
      Nat.ceil_eq_zero.mpr (div_nonpos_of_nonpos_of_nonneg hl (le_of_lt hd))
    rw [h0] at hlen
    exact List.length_eq_zero.mp (by omega)
  · intro spline points lines withNodes fuel hh hf
    exact base_equidistantPolygon_bound spline distance hd points lines withNodes fuel hh hf
  · intro toPolynomial points values withNodes fuel hn hv hf
    exact qwtPolygonParametric_bound toPolynomial distance hd points values withNodes fuel hn hv hf

/-- C28 witness: spacing 2/5 and the points (0,0), (1,1), (2,0), whose two segments have length
1, so that a budget of `⌈5/2⌉ = 3` iterations suffices and at most `1 + 2 * 4` points result. -/
theorem C28_sampling_terminates_witness :
    (0 : ℚ) < 2/5 ∧
    ∃ out, qwtPolygonParametric QwtSplinePolynomial.fromSlopes 3 (2/5) exPoints [0, 0, 0] true
        = .ok out ∧
      out.length ≤ 1 + Finset.sum (Finset.range (exPoints.length - 1))
        (fun i => ⌈((exPoints.nth (i + 1)).x - (exPoints.nth i).x) / (2/5 : ℚ)⌉₊ + 1) :=
  ⟨by norm_num,
    (C28_sampling_terminates (2/5) (by norm_num)).2.2 QwtSplinePolynomial.fromSlopes exPoints
      [0, 0, 0] true 3 (by decide) (by decide)
      (by
        intro i hi
        have hi2 : i = 0 ∨ i = 1 := by simp [exPoints] at hi; omega
        rw [Nat.ceil_le]
        rcases hi2 with rfl | rfl <;> norm_num [QPolygonF.nth, exPoints])⟩

/-! ## C29: the points read by the boundary slopes -/

/-- Where `slopeBegin` and `slopeEnd` stay inside the point vector: with fewer than two points
both return 0; with at least three points, or with two points and the condition `Clamped` or
`LinearRunout`, both return a value; with exactly two points and any other condition both read a
point that does not exist. -/
theorem boundary_slopes_reads (spline : QwtSplineC1) (points : QPolygonF) (m1 m2 : ℚ) :
    (points.length < 2 →
      spline.slopeBegin points m1 m2 = .ok 0 ∧ spline.slopeEnd points m1 m2 = .ok 0) ∧
    (2 ≤ points.length →
      (3 ≤ points.length ∨ spline.boundaryCondition = BoundaryCondition.Clamped ∨
        spline.boundaryCondition = BoundaryCondition.LinearRunout) →
      (∃ v, spline.slopeBegin points m1 m2 = .ok v) ∧
      (∃ w, spline.slopeEnd points m1 m2 = .ok w)) ∧
    (points.length = 2 → spline.boundaryCondition ≠ BoundaryCondition.Clamped →
      spline.boundaryCondition ≠ BoundaryCondition.LinearRunout →
      spline.slopeBegin points m1 m2 = .error .outOfRange ∧
      spline.slopeEnd points m1 m2 = .error .outOfRange) := by
  refine ⟨?_, ?_, ?_⟩
  · intro h
    simp [QwtSplineC1.slopeBegin, QwtSplineC1.slopeEnd, h, bind, Except.bind, pure, Except.pure]
  · intro h2 hcase
    have hlt : ¬ points.length < 2 := by omega
    have r1 := readAt_nth points 1 (by omega)
    have r0 := readAt_nth points 0 (by omega)
    have q1 := readAtInt_nth points 1 (by omega) (by omega)
    have q2 := readAtInt_nth points 2 (by omega) (by omega)
    simp only [Nat.cast_ofNat, Nat.cast_one] at q1 q2
    by_cases hC : spline.boundaryCondition = BoundaryCondition.Clamped
    · exact ⟨⟨spline.d_data.value0,
          by simp [QwtSplineC1.slopeBegin, hlt, hC, bind, Except.bind, pure, Except.pure]⟩,
        ⟨spline.d_data.value1,
          by simp [QwtSplineC1.slopeEnd, hlt, hC, bind, Except.bind, pure, Except.pure]⟩⟩
    by_cases hL : spline.boundaryCondition = BoundaryCondition.LinearRunout
    · constructor
      · simp only [QwtSplineC1.slopeBegin, hlt, hC, hL, r1, r0, bind, Except.bind, pure,
          Except.pure, if_false, if_true]
        exact ⟨_, rfl⟩
      · simp only [QwtSplineC1.slopeEnd, hlt, hC, hL, q1, q2, bind, Except.bind, pure,
          Except.pure, if_false, if_true]
        exact ⟨_, rfl⟩
    · have h3 : 3 ≤ points.length := by
        rcases hcase with h | h | h
        · exact h
        · exact absurd h hC
        · exact absurd h hL
      exact ⟨⟨_, slopeBegin_eq spline points m1 m2 h3 hC hL⟩,
        ⟨_, slopeEnd_eq spline points m1 m2 h3 hC hL⟩⟩
  · intro h2 hC hL
    have hlt : ¬ points.length < 2 := by omega
    have r1 := readAt_nth points 1 (by omega)
    have r0 := readAt_nth points 0 (by omega)
    have q1 := readAtInt_nth points 1 (by omega) (by omega)
    have q2 := readAtInt_nth points 2 (by omega) (by omega)
    simp only [Nat.cast_ofNat, Nat.cast_one] at q1 q2
    have r2 : readAt points 2 = .error .outOfRange := by
      simp [readAt, List.getElem?_eq_none (by omega : points.length ≤ 2)]
    have q3 : readAtInt points ((points.length : Int) - 3) = .error .outOfRange := by
      simp [readAtInt, h2]
    constructor
    · simp only [QwtSplineC1.slopeBegin, QwtSplineC1.slopeBegin.pnomBegin, hlt, hC, hL, r1, r0,
        r2, bind, Except.bind, pure, Except.pure, if_false]
    · simp only [QwtSplineC1.slopeEnd, QwtSplineC1.slopeEnd.pnomEnd, hlt, hC, hL, q1, q2, q3,
        bind, Except.bind, pure, Except.pure, if_false]

/-- C29, as stated, fails for exactly two points: with the points (0,0), (1,1) and the boundary
condition `Natural`, `slopeBegin` reads `points[2]` and `slopeEnd` reads `points[size-3]`, which
is `points[-1]`; neither point exists. -/
theorem C29_two_points_divergence :
    (exSplineC1Bc .Natural 0 0 []).slopeBegin [⟨0, 0⟩, ⟨1, 1⟩] 0 0 = .error .outOfRange ∧
    (exSplineC1Bc .Natural 0 0 []).slopeEnd [⟨0, 0⟩, ⟨1, 1⟩] 0 0 = .error .outOfRange := by
  constructor
  · simp [QwtSplineC1.slopeBegin, QwtSplineC1.slopeBegin.pnomBegin,
      QwtSplineC1.boundaryCondition, exSplineC1Bc, readAt, bind, Except.bind, pure, Except.pure]
  · simp [QwtSplineC1.slopeEnd, QwtSplineC1.slopeEnd.pnomEnd, QwtSplineC1.boundaryCondition,
      exSplineC1Bc, readAt, readAtInt, bind, Except.bind, pure, Except.pure]
